import Mathlib

/-!
# Runtime-filter worker (be/src/runtime/runtime_filter_worker.cpp)

A shallow embedding of the runtime-filter merge and distribution code:
`RuntimeFilterMerger::init`, `RuntimeFilterMerger::merge_runtime_filter`,
`RuntimeFilterMerger::_send_total_runtime_filter`,
`RuntimeFilterWorker::_receive_total_runtime_filter`, the broadcast delivery
functions of `RuntimeFilterWorker`, one round of `RuntimeFilterWorker::execute`,
`receive_total_runtime_filter_pipeline`, and `RuntimeFilterPort::add_listener` with
`RuntimeFilterPort::receive_runtime_filter`.

Conventions.
* `std::map` is an association list; `map_find` is `find`, `map_insert` is
  `insert` (no overwrite, key order), `map_set` is a write through `&(it->second)`.
* Effects on the outside world (RPCs, joins of RPC closures, in-process delivery)
  are returned as a list of `Event`s in program order.
* A function returns `none` where the C++ has undefined behaviour
  (out-of-bounds element access, `begin()` of an empty container, a read of an
  object that its pool has freed).
* The clock (`UnixMillis()`) is an argument.
* A loop whose termination depends on a configured value takes a `fuel` argument,
  one unit per round, and returns `none` when the fuel runs out; so does the
  unfolding of the relay tree over the receiving nodes.
* `std::shuffle` is not modelled: the broadcast functions take the destination
  vector as the shuffle leaves it.
-/

namespace starrocks

/-! ## Identifiers, addresses, messages -/

/-- Thrift `TUniqueId`. -/
structure TUniqueId where
  hi : Int
  lo : Int
deriving DecidableEq, Repr

/-- Protobuf `PUniqueId`. -/
structure PUniqueId where
  hi : Int
  lo : Int
deriving DecidableEq, Repr

/-- The copy `set_hi(id.hi); set_lo(id.lo)` from a thrift id into a protobuf id. -/
def to_pb (id : TUniqueId) : PUniqueId := { hi := id.hi, lo := id.lo }

/-- Thrift `TNetworkAddress`. -/
structure TNetworkAddress where
  hostname : String
  port : Int
deriving DecidableEq, Repr

/-- Sort key of an address: host name (as characters) first, then port. -/
def TNetworkAddress.key (a : TNetworkAddress) : Lex (List Char × Int) :=
  toLex (a.hostname.data, a.port)

/-- The order of `TNetworkAddress` (its `operator<`, used by
`std::map<TNetworkAddress, _>`) is defined outside this file; it is taken to be the
lexicographic order on `(hostname, port)`. -/
instance : LinearOrder TNetworkAddress :=
  LinearOrder.lift' TNetworkAddress.key (by
    intro a b h
    cases a with
    | mk ha pa =>
      cases b with
      | mk hb pb =>
        simp only [TNetworkAddress.key, EmbeddingLike.apply_eq_iff_eq, Prod.mk.injEq] at h
        obtain ⟨h1, h2⟩ := h
        have h3 : ha = hb := String.ext h1
        subst h3
        subst h2
        rfl)

/-- A serialized filter (`std::string data`), as a sequence of bytes. -/
abbrev Bytes := List Nat

/-- Protobuf `PTransmitRuntimeFilterForwardTarget`. -/
structure PTransmitRuntimeFilterForwardTarget where
  host : String
  port : Int
  probe_finst_ids : List PUniqueId
deriving DecidableEq, Repr

/-- Protobuf `PTransmitRuntimeFilterParams`.  `is_pipeline` and
`broadcast_timestamp` are optional fields whose presence is observable. -/
structure PTransmitRuntimeFilterParams where
  is_partial : Bool := false
  query_id : PUniqueId := { hi := 0, lo := 0 }
  filter_id : Int := 0
  finst_id : PUniqueId := { hi := 0, lo := 0 }
  data : Bytes := []
  probe_finst_ids : List PUniqueId := []
  build_be_number : Int := 0
  forward_targets : List PTransmitRuntimeFilterForwardTarget := []
  is_pipeline : Option Bool := none
  broadcast_timestamp : Option Int := none
deriving DecidableEq, Repr

/-- Thrift `TRuntimeFilterProberParams`. -/
structure TRuntimeFilterProberParams where
  fragment_instance_id : TUniqueId
  fragment_instance_address : TNetworkAddress
deriving DecidableEq, Repr

/-- Thrift `TRuntimeFilterDestination`. -/
structure TRuntimeFilterDestination where
  address : TNetworkAddress
  finstance_ids : List TUniqueId
deriving DecidableEq, Repr

/-- Thrift `TRuntimeFilterParams` (the fields read by `RuntimeFilterMerger::init`).
Counts and sizes are non-negative and kept as natural numbers. -/
structure TRuntimeFilterParams where
  id_to_prober_params : List (Int × List TRuntimeFilterProberParams)
  runtime_filter_builder_number : List (Int × Nat)
  runtime_filter_max_size : Nat
deriving DecidableEq, Repr

/-- Thrift `TQueryOptions` (the one field read here, with its `__isset` flag). -/
structure TQueryOptions where
  runtime_filter_send_timeout_ms : Option Int
deriving DecidableEq, Repr

/-- The `config::` values read by the worker. -/
structure Config where
  send_rpc_runtime_filter_timeout_ms : Int
  brpc_port : Int
  deliver_broadcast_rf_passthrough_bytes_limit : Nat
  deliver_broadcast_rf_passthrough_inflight_num : Nat
deriving DecidableEq, Repr

/-- What the code reads from its process environment:
`BackendOptions::get_localhost()` and `config::`. -/
structure ExecEnv where
  localhost : String
  config : Config
deriving DecidableEq, Repr

/-- The operations of `JoinRuntimeFilter` / `RuntimeFilterHelper` that the worker
calls; the filter type `F` itself is external. -/
structure FilterOps (F : Type) where
  deserialize_runtime_filter : Bytes → Option F
  serialize_runtime_filter : F → Bytes
  size : F → Nat
  create_empty : F → F
  concat : F → F → F

/-- What the worker does to the outside world, in program order. -/
inductive Event where
  /-- The call `send_rpc_runtime_filter(stub(addr), closure, timeout_ms, request)`. -/
  | send_rpc (addr : TNetworkAddress) (timeout_ms : Int) (request : PTransmitRuntimeFilterParams)
  /-- A `...JoinAndClean` destructor runs: the `n` closures it guards are joined. -/
  | join (n : Nat)
  /-- In-process delivery of a deserialized total filter to the fragment instances
  named in `request.probe_finst_ids` (`receive_total_runtime_filter_pipeline` or
  `fragment_mgr()->receive_runtime_filter`). -/
  | deliver (request : PTransmitRuntimeFilterParams)
deriving DecidableEq, Repr

/-! ## `std::map` as an association list -/

/-- The `map.find(k)` lookup. -/
def map_find {K V : Type} [DecidableEq K] : List (K × V) → K → Option V
  | [], _ => none
  | (k', v) :: rest, k => if k' = k then some v else map_find rest k

/-- Insertion of a new key at its place in key order. -/
def ordered_insert {K V : Type} [LT K] [DecidableRel (α := K) (· < ·)] (k : K) (v : V) :
    List (K × V) → List (K × V)
  | [] => [(k, v)]
  | (k', v') :: rest =>
    if k < k' then (k, v) :: (k', v') :: rest else (k', v') :: ordered_insert k v rest

/-- The `map.insert({k, v})` call: nothing happens when the key is present. -/
def map_insert {K V : Type} [DecidableEq K] [LT K] [DecidableRel (α := K) (· < ·)]
    (k : K) (v : V) (m : List (K × V)) : List (K × V) :=
  match map_find m k with
  | some _ => m
  | none => ordered_insert k v m

/-- A write to the value stored under `k`, through a pointer or iterator to it. -/
def map_set {K V : Type} [DecidableEq K] (k : K) (v : V) : List (K × V) → List (K × V)
  | [] => []
  | (k', v') :: rest => if k' = k then (k', v) :: rest else (k', v') :: map_set k v rest

/-- The `map.erase(find(k))` call. -/
def map_erase {K V : Type} [DecidableEq K] (k : K) : List (K × V) → List (K × V)
  | [] => []
  | (k', v') :: rest => if k' = k then rest else (k', v') :: map_erase k rest

/-! ## `RuntimeFilterMerger` -/

/-- Modelled from the spec: the record `RuntimeFilterMergerStatus` is declared in
`runtime_filter_worker.h`, which is not among the sources.  The fields are those of
`MergeStatus` in the data model, under the names `runtime_filter_worker.cpp` uses for
them: `arrives` is the set of sender numbers (`arrivedSenders`), `filters` the
`std::map` from sender number to the deserialized partial filter (`collected`),
`expect_number`, `max_size`, `current_size`, `stop` and the three timestamps.
Counts and sizes are natural numbers.  The member `pool` is the object pool that
owns the deserialized filters which `filters` points to; what matters of it is
`pool_cleared`: whether `pool->clear()` has been called (line 416).  The call frees
every filter stored until then, while `filters` keeps its entries, so from then on
`filters` holds dangling pointers. -/
structure RuntimeFilterMergerStatus (F : Type) where
  arrives : List Int
  expect_number : Nat
  filters : List (Int × F)
  current_size : Nat
  max_size : Nat
  stop : Bool
  recv_first_filter_ts : Int
  recv_last_filter_ts : Int
  broadcast_filter_ts : Int
  pool_cleared : Bool

/-- The `RuntimeFilterMerger` object. -/
structure RuntimeFilterMerger (F : Type) where
  _query_id : TUniqueId
  _query_options : TQueryOptions
  _is_pipeline : Bool
  _targets : List (Int × List TRuntimeFilterProberParams)
  _statuses : List (Int × RuntimeFilterMergerStatus F)

/-- The constructor `RuntimeFilterMerger(env, query_id, query_options, is_pipeline)`. -/
def RuntimeFilterMerger.new {F : Type} (query_id : TUniqueId) (query_options : TQueryOptions)
    (is_pipeline : Bool) : RuntimeFilterMerger F :=
  { _query_id := query_id, _query_options := query_options, _is_pipeline := is_pipeline,
    _targets := [], _statuses := [] }

/-- The status that `RuntimeFilterMerger::init` builds for one filter id
(lines 166 to 170). -/
def init_status {F : Type} (expect_number max_size : Nat) : RuntimeFilterMergerStatus F :=
  { arrives := [], expect_number := expect_number, filters := [], current_size := 0,
    max_size := max_size, stop := false,
    recv_first_filter_ts := 0, recv_last_filter_ts := 0, broadcast_filter_ts := 0,
    pool_cleared := false }

/-- The function `RuntimeFilterMerger::init`. -/
def RuntimeFilterMerger.init {F : Type} (self : RuntimeFilterMerger F)
    (params : TRuntimeFilterParams) : RuntimeFilterMerger F :=
  { self with
    _targets := params.id_to_prober_params
    _statuses := params.runtime_filter_builder_number.foldl
      (fun statuses it =>
        map_insert it.1 (init_status it.2 params.runtime_filter_max_size) statuses)
      self._statuses }

/-- The body of the loop `for (const auto& node : (*target_nodes))` of
`_send_total_runtime_filter` (lines 333 to 339): the instance id of `node` is appended
to the entry of its address, which is created empty when it is missing. -/
def add_target_node (nodes : List (TNetworkAddress × List TUniqueId))
    (node : TRuntimeFilterProberParams) : List (TNetworkAddress × List TUniqueId) :=
  let addr := node.fragment_instance_address
  let nodes := match map_find nodes addr with
    | none => map_insert addr [] nodes
    | some _ => nodes
  match map_find nodes addr with
  | some ids => map_set addr (ids ++ [node.fragment_instance_id]) nodes
  | none => nodes

/-- The map `nodes_to_frag_insts` that `_send_total_runtime_filter` builds from the
prober targets. -/
def nodes_to_frag_insts (target_nodes : List TRuntimeFilterProberParams) :
    List (TNetworkAddress × List TUniqueId) :=
  target_nodes.foldl add_target_node []

/-- The vector `targets` of `_send_total_runtime_filter`: the entry of the local
address first when there is one, then every entry with another address. -/
def local_first (loc : TNetworkAddress) (nodes : List (TNetworkAddress × List TUniqueId)) :
    List (TNetworkAddress × List TUniqueId) :=
  (match map_find nodes loc with
   | some ids => [(loc, ids)]
   | none => []) ++ nodes.filter (fun it => decide (it.1 ≠ loc))

/-- The forward target built from `targets[index + 1 + i]`. -/
def to_forward_target (ft : TNetworkAddress × List TUniqueId) :
    PTransmitRuntimeFilterForwardTarget :=
  { host := ft.1.hostname, port := ft.1.port, probe_finst_ids := ft.2.map to_pb }

/-- The loop `while (index < size)` of `_send_total_runtime_filter`; the result is
the RPCs in the order they are sent. -/
def send_total_loop (loc : TNetworkAddress) (timeout_ms : Int)
    (request : PTransmitRuntimeFilterParams)
    (targets : List (TNetworkAddress × List TUniqueId)) (index : Nat) : List Event :=
  if h : index < targets.length then
    let t := targets[index]
    let is_local := decide (loc = t.1)
    let half := if is_local then 0 else (targets.length - index) / 2
    let request := { request with
      probe_finst_ids := t.2.map to_pb
      forward_targets := ((targets.drop (index + 1)).take half).map to_forward_target }
    Event.send_rpc t.1 timeout_ms request ::
      send_total_loop loc timeout_ms request targets (index + (1 + half))
  else []
termination_by targets.length - index
decreasing_by omega

/-- The function `RuntimeFilterMerger::_send_total_runtime_filter`; `now` is
`UnixMillis()`.  The result is the updated merger and the events of the call.
Lines 289 to 293 read every filter object that `filters` points to: the result is
`none` when `filters` is empty and when the pool that owns the objects has been
cleared before (use after free).  The last statement, `pool->clear()` (line 416),
frees the stored filters and leaves `filters` as it is. -/
def RuntimeFilterMerger._send_total_runtime_filter {F : Type} (ops : FilterOps F) (env : ExecEnv)
    (self : RuntimeFilterMerger F) (filter_id : Int) (now : Int) :
    Option (RuntimeFilterMerger F × List Event) :=
  match map_find self._statuses filter_id, map_find self._targets filter_id with
  | some status, some target_nodes =>
    match status.filters with
    | [] => none
    | (_, first) :: _ =>
      if status.pool_cleared then none
      else
        let out :=
          status.filters.foldl (fun out it => ops.concat out it.2) (ops.create_empty first)
        let request : PTransmitRuntimeFilterParams :=
          { is_pipeline := if self._is_pipeline then some true else none
            filter_id := filter_id
            is_partial := false
            query_id := { hi := self._query_id.hi, lo := self._query_id.lo }
            data := ops.serialize_runtime_filter out
            broadcast_timestamp := some now }
        let timeout_ms := match self._query_options.runtime_filter_send_timeout_ms with
          | some t => t
          | none => env.config.send_rpc_runtime_filter_timeout_ms
        let status := { status with broadcast_filter_ts := now }
        let loc : TNetworkAddress := { hostname := env.localhost, port := env.config.brpc_port }
        let targets := local_first loc (nodes_to_frag_insts target_nodes)
        let rpcs := send_total_loop loc timeout_ms request targets 0
        let status := { status with pool_cleared := true }
        some ({ self with _statuses := map_set filter_id status self._statuses },
              rpcs ++ [Event.join rpcs.length])
  | _, _ => none

/-- The function `RuntimeFilterMerger::merge_runtime_filter`.  `now` and `send_now` are the two
readings of `UnixMillis()`.  The second component of the result is `some events`
exactly when `_send_total_runtime_filter` was called. -/
def RuntimeFilterMerger.merge_runtime_filter {F : Type} (ops : FilterOps F) (env : ExecEnv)
    (self : RuntimeFilterMerger F) (params : PTransmitRuntimeFilterParams) (now send_now : Int) :
    Option (RuntimeFilterMerger F × Option (List Event)) :=
  let filter_id := params.filter_id
  let be_number := params.build_be_number
  match map_find self._targets filter_id with
  | none => some (self, none)
  | some target_nodes =>
    if target_nodes.length = 0 then some (self, none)
    else
      match map_find self._statuses filter_id with
      | none => some (self, none)
      | some status =>
        if be_number ∈ status.arrives then some (self, none)
        else if status.stop then some (self, none)
        else
          let status := { status with
            recv_first_filter_ts :=
              if status.recv_first_filter_ts = 0 then now else status.recv_first_filter_ts
            recv_last_filter_ts := now }
          match ops.deserialize_runtime_filter params.data with
          | none => some ({ self with _statuses := map_set filter_id status self._statuses }, none)
          | some rf =>
            let status := { status with current_size := status.current_size + ops.size rf }
            if status.current_size > status.max_size then
              some ({ self with
                      _statuses := map_set filter_id { status with stop := true } self._statuses },
                    none)
            else
              let status := { status with
                arrives := status.arrives.insert be_number
                filters := map_insert be_number rf status.filters }
              let self' := { self with _statuses := map_set filter_id status self._statuses }
              if status.filters.length < status.expect_number then some (self', none)
              else
                (RuntimeFilterMerger._send_total_runtime_filter ops env self' filter_id
                  send_now).map (fun r => (r.1, some r.2))

/-! ## `RuntimeFilterWorker` -/

/-- The loop `while (index < size)` of `_receive_total_runtime_filter` over the
copied forward targets; the result is the RPCs in the order they are sent. -/
def forward_loop (timeout_ms : Int) (request : PTransmitRuntimeFilterParams)
    (targets : List PTransmitRuntimeFilterForwardTarget) (index : Nat) : List Event :=
  if h : index < targets.length then
    let t := targets[index]
    let addr : TNetworkAddress := { hostname := t.host, port := t.port }
    let half := (targets.length - index) / 2
    let request := { request with
      probe_finst_ids := t.probe_finst_ids
      forward_targets := (targets.drop (index + 1)).take half }
    Event.send_rpc addr timeout_ms request ::
      forward_loop timeout_ms request targets (index + (1 + half))
  else []
termination_by targets.length - index
decreasing_by omega

/-- The function `RuntimeFilterWorker::_receive_total_runtime_filter`. -/
def RuntimeFilterWorker._receive_total_runtime_filter {F : Type} (ops : FilterOps F)
    (env : ExecEnv) (request : PTransmitRuntimeFilterParams) : List Event :=
  match ops.deserialize_runtime_filter request.data with
  | none => []
  | some _ =>
    let rpcs := forward_loop env.config.send_rpc_runtime_filter_timeout_ms request
      request.forward_targets 0
    Event.deliver request :: (rpcs ++ [Event.join rpcs.length])

/-- The function `RuntimeFilterWorker::_deliver_broadcast_runtime_filter_local`. -/
def RuntimeFilterWorker._deliver_broadcast_runtime_filter_local {F : Type} (ops : FilterOps F)
    (env : ExecEnv) (param : PTransmitRuntimeFilterParams)
    (local_dest : TRuntimeFilterDestination) : PTransmitRuntimeFilterParams × List Event :=
  let param := { param with
    forward_targets := []
    probe_finst_ids := local_dest.finstance_ids.map to_pb }
  (param, RuntimeFilterWorker._receive_total_runtime_filter ops env param)

/-- The function `RuntimeFilterWorker::_deliver_broadcast_runtime_filter_relay`. -/
def RuntimeFilterWorker._deliver_broadcast_runtime_filter_relay
    (request : PTransmitRuntimeFilterParams) (destinations : List TRuntimeFilterDestination)
    (timeout_ms : Int) : Option (List Event) :=
  match destinations with
  | [] => none
  | first_dest :: rest =>
    let request := { request with
      probe_finst_ids := first_dest.finstance_ids.map to_pb
      forward_targets := rest.map (fun rest_dest =>
        { host := rest_dest.address.hostname, port := rest_dest.address.port,
          probe_finst_ids := rest_dest.finstance_ids.map to_pb }) }
    some [Event.send_rpc first_dest.address timeout_ms request, Event.join 1]

/-- The RPC that `_deliver_broadcast_runtime_filter_passthrough` sends for `dest`. -/
def passthrough_rpc (params : PTransmitRuntimeFilterParams) (timeout_ms : Int)
    (dest : TRuntimeFilterDestination) : Event :=
  Event.send_rpc dest.address timeout_ms
    { params with
      probe_finst_ids := dest.finstance_ids.map to_pb
      forward_targets := [] }

/-- The loop `while (k < destinations.size())` of
`_deliver_broadcast_runtime_filter_passthrough`, started at `k`.  Each round of the
loop takes one unit of `fuel`; the result is `none` when the fuel runs out before
the loop ends.  `inflight_num` is
`config::deliver_broadcast_rf_passthrough_inflight_num`. -/
def passthrough_loop (inflight_num : Nat) (params : PTransmitRuntimeFilterParams)
    (destinations : List TRuntimeFilterDestination) (timeout_ms : Int) :
    Nat → Nat → Option (List Event)
  | fuel, k =>
    if k < destinations.length then
      match fuel with
      | 0 => none
      | fuel + 1 =>
        let num_inflight := min (destinations.length - k) inflight_num
        let start_idx := k
        let k := k + num_inflight
        let rpcs := ((destinations.drop start_idx).take num_inflight).map
          (passthrough_rpc params timeout_ms)
        (passthrough_loop inflight_num params destinations timeout_ms fuel k).map
          (fun later => rpcs ++ [Event.join rpcs.length] ++ later)
    else some []

/-- The function `RuntimeFilterWorker::_deliver_broadcast_runtime_filter_passthrough`. -/
def RuntimeFilterWorker._deliver_broadcast_runtime_filter_passthrough (env : ExecEnv)
    (fuel : Nat) (params : PTransmitRuntimeFilterParams)
    (destinations : List TRuntimeFilterDestination) (timeout_ms : Int) : Option (List Event) :=
  passthrough_loop env.config.deliver_broadcast_rf_passthrough_inflight_num params destinations
    timeout_ms fuel 0

/-- The exchange `std::swap(destinations[i], destinations[j])`. -/
def swap_destinations (destinations : List TRuntimeFilterDestination) (i j : Nat) :
    List TRuntimeFilterDestination :=
  match destinations[i]?, destinations[j]? with
  | some a, some b => (destinations.set i b).set j a
  | _, _ => destinations

/-- The loop `for (auto i = 0; i < destinations.size() - 1; ++i)` of
`_process_send_broadcast_runtime_filter_event`, started at `i`, for a non-empty
vector: the first destination before the last one that has the local address is
exchanged with the last one. -/
def put_local_last (loc : TNetworkAddress) (destinations : List TRuntimeFilterDestination)
    (i : Nat) : List TRuntimeFilterDestination :=
  if h : i < destinations.length - 1 then
    if (destinations[i]).address = loc then
      swap_destinations destinations i (destinations.length - 1)
    else put_local_last loc destinations (i + 1)
  else destinations
termination_by destinations.length - 1 - i
decreasing_by omega

/-- Lines 657 to 669 of `_process_send_broadcast_runtime_filter_event`: the
destination delivered locally, if any, and the vector `destinations` as it is
afterwards.  With an empty vector `destinations[0]` is read out of bounds. -/
def split_local (loc : TNetworkAddress) (destinations : List TRuntimeFilterDestination) :
    Option (Option TRuntimeFilterDestination × List TRuntimeFilterDestination) :=
  if destinations.length = 0 then none
  else
    let last_dest_idx := destinations.length - 1
    let destinations := put_local_last loc destinations 0
    match destinations[last_dest_idx]? with
    | none => none
    | some last_dest =>
      if last_dest.address = loc then some (some last_dest, destinations.take last_dest_idx)
      else some (none, destinations)

/-- The function `RuntimeFilterWorker::_process_send_broadcast_runtime_filter_event`.
`destinations` is the vector as `std::shuffle` leaves it, `fuel` bounds the rounds of
the passthrough loop. -/
def RuntimeFilterWorker._process_send_broadcast_runtime_filter_event {F : Type}
    (ops : FilterOps F) (env : ExecEnv) (fuel : Nat) (params : PTransmitRuntimeFilterParams)
    (destinations : List TRuntimeFilterDestination) (timeout_ms : Int) : Option (List Event) :=
  let params := { params with is_partial := false }
  let loc : TNetworkAddress := { hostname := env.localhost, port := env.config.brpc_port }
  match split_local loc destinations with
  | none => none
  | some (local_dest, destinations) =>
    let delivered := match local_dest with
      | some last_dest =>
        RuntimeFilterWorker._deliver_broadcast_runtime_filter_local ops env params last_dest
      | none => (params, [])
    let params := delivered.1
    if destinations.length = 0 then some delivered.2
    else
      let passthrough_delivery :=
        decide (params.data.length ≤ env.config.deliver_broadcast_rf_passthrough_bytes_limit)
      (if passthrough_delivery then
        RuntimeFilterWorker._deliver_broadcast_runtime_filter_passthrough env fuel params
          destinations timeout_ms
      else
        RuntimeFilterWorker._deliver_broadcast_runtime_filter_relay params destinations
          timeout_ms).map (fun remote => delivered.2 ++ remote)

/-- The function `RuntimeFilterWorker::_deliver_part_runtime_filter`. -/
def RuntimeFilterWorker._deliver_part_runtime_filter (transmit_addrs : List TNetworkAddress)
    (params : PTransmitRuntimeFilterParams) (transmit_timeout_ms : Int) : List Event :=
  transmit_addrs.map (fun addr => Event.send_rpc addr transmit_timeout_ms params) ++
    [Event.join transmit_addrs.length]

/-! ## Unfolding the relay tree -/

/-- The pairs (address, `probe_finst_ids`) of all RPCs that reach a node when every
RPC of the work list `rpcs` is sent and every receiver runs the forward loop of
`_receive_total_runtime_filter` on the forward targets it is handed.  One unit of
`fuel` is used per RPC; the result is `none` when the fuel runs out. -/
def relay_deliveries (timeout_ms : Int) :
    Nat → List Event → Option (List (TNetworkAddress × List PUniqueId))
  | _, [] => some []
  | 0, _ :: _ => none
  | fuel + 1, Event.send_rpc addr _ request :: rest =>
    (relay_deliveries timeout_ms fuel
      (forward_loop timeout_ms request request.forward_targets 0 ++ rest)).map
      (fun later => (addr, request.probe_finst_ids) :: later)
  | fuel + 1, _ :: rest => relay_deliveries timeout_ms fuel rest

/-- The address and the `probe_finst_ids` of a forward target. -/
def forward_target_pair (ft : PTransmitRuntimeFilterForwardTarget) :
    TNetworkAddress × List PUniqueId :=
  ({ hostname := ft.host, port := ft.port }, ft.probe_finst_ids)

/-- The targets an RPC is responsible for: the node it is sent to, with the
`probe_finst_ids` of the request, followed by the forward targets it carries. -/
def rpc_targets : Event → List (TNetworkAddress × List PUniqueId)
  | Event.send_rpc addr _ request =>
    (addr, request.probe_finst_ids) :: request.forward_targets.map forward_target_pair
  | _ => []

/-- The fuel that `relay_deliveries` uses up on a work list. -/
def relay_fuel : List Event → Nat
  | [] => 0
  | Event.send_rpc _ _ request :: rest => 1 + request.forward_targets.length + relay_fuel rest
  | _ :: rest => 1 + relay_fuel rest

/-- Whether an event is an RPC. -/
def is_send_rpc : Event → Bool
  | Event.send_rpc _ _ _ => true
  | _ => false

/-- The effect of one event on the number of RPCs in flight: an RPC adds one, a
join of `n` closures takes `n` away. -/
def in_flight_step (c : Nat) : Event → Nat
  | Event.send_rpc _ _ _ => c + 1
  | Event.join n => c - n
  | Event.deliver _ => c

/-- The number of RPCs in flight after the events `es`: sent and not yet joined. -/
def in_flight (es : List Event) : Nat :=
  es.foldl in_flight_step 0

/-- The outcomes of a sequence of `merge_runtime_filter` calls on one merger, each
call given as (request, first clock reading, second clock reading): for every call,
whether it called `_send_total_runtime_filter` and with which events.  The result
is `none` when one of the calls has undefined behaviour. -/
def merge_all {F : Type} (ops : FilterOps F) (env : ExecEnv) :
    RuntimeFilterMerger F → List (PTransmitRuntimeFilterParams × Int × Int) →
      Option (RuntimeFilterMerger F × List (Option (List Event)))
  | self, [] => some (self, [])
  | self, call :: calls =>
    match RuntimeFilterMerger.merge_runtime_filter ops env self call.1 call.2.1 call.2.2 with
    | none => none
    | some (self', sent) =>
      (merge_all ops env self' calls).map (fun r => (r.1, sent :: r.2))

/-- The size that `merge_runtime_filter` adds to `current_size` for the payload
`data`: the size of the deserialized filter (0 when it does not deserialize). -/
def payload_size {F : Type} (ops : FilterOps F) (data : Bytes) : Nat :=
  match ops.deserialize_runtime_filter data with
  | some rf => ops.size rf
  | none => 0

/-! ## The event loop of `RuntimeFilterWorker` -/

/-- The enumeration `EventType`. -/
inductive EventType where
  | RECEIVE_TOTAL_RF
  | CLOSE_QUERY
  | OPEN_QUERY
  | RECEIVE_PART_RF
  | SEND_PART_RF
  | SEND_BROADCAST_GRF
deriving DecidableEq, Repr

/-- The record `RuntimeFilterWorkerEvent`. -/
structure RuntimeFilterWorkerEvent where
  type : EventType
  query_id : TUniqueId
  query_options : TQueryOptions
  create_rf_merger_request : TRuntimeFilterParams
  is_opened_by_pipeline : Bool
  transmit_addrs : List TNetworkAddress
  destinations : List TRuntimeFilterDestination
  transmit_timeout_ms : Int
  transmit_rf_request : PTransmitRuntimeFilterParams
deriving DecidableEq, Repr

/-- Modelled from the spec: the member `_mergers` of `RuntimeFilterWorker` is declared
in `runtime_filter_worker.h`, which is not among the sources; it is the map from
query id to Merger that the Worker owns.  The code only looks keys up, inserts and
erases, so the order of the entries is not observable; `_mergers.insert` of a new
key puts the entry at the end, and does nothing when the key is present. -/
def mergers_insert {F : Type} (query_id : TUniqueId) (merger : RuntimeFilterMerger F)
    (_mergers : List (TUniqueId × RuntimeFilterMerger F)) :
    List (TUniqueId × RuntimeFilterMerger F) :=
  match map_find _mergers query_id with
  | some _ => _mergers
  | none => _mergers ++ [(query_id, merger)]

/-- One round of the loop of `RuntimeFilterWorker::execute`: the handling of the
event `ev` taken from the queue.  The result is the map `_mergers` afterwards and
the events of the round.  `shuffle` is what `std::shuffle` does to the destinations
of a broadcast, `now` and `send_now` are the clock readings of
`merge_runtime_filter`, `fuel` bounds the rounds of the passthrough loop. -/
def RuntimeFilterWorker.execute_event {F : Type} (ops : FilterOps F) (env : ExecEnv)
    (fuel : Nat) (shuffle : List TRuntimeFilterDestination → List TRuntimeFilterDestination)
    (now send_now : Int) (_mergers : List (TUniqueId × RuntimeFilterMerger F))
    (ev : RuntimeFilterWorkerEvent) :
    Option (List (TUniqueId × RuntimeFilterMerger F) × List Event) :=
  match ev.type with
  | EventType.RECEIVE_TOTAL_RF =>
    some (_mergers,
      RuntimeFilterWorker._receive_total_runtime_filter ops env ev.transmit_rf_request)
  | EventType.CLOSE_QUERY =>
    match map_find _mergers ev.query_id with
    | some _ => some (map_erase ev.query_id _mergers, [])
    | none => some (_mergers, [])
  | EventType.OPEN_QUERY =>
    match map_find _mergers ev.query_id with
    | some _ => some (_mergers, [])
    | none =>
      let merger : RuntimeFilterMerger F :=
        (RuntimeFilterMerger.new ev.query_id ev.query_options ev.is_opened_by_pipeline).init
          ev.create_rf_merger_request
      some (mergers_insert ev.query_id merger _mergers, [])
  | EventType.RECEIVE_PART_RF =>
    match map_find _mergers ev.query_id with
    | none => some (_mergers, [])
    | some merger =>
      match RuntimeFilterMerger.merge_runtime_filter ops env merger ev.transmit_rf_request now
          send_now with
      | none => none
      | some (merger', sent) => some (map_set ev.query_id merger' _mergers, sent.getD [])
  | EventType.SEND_PART_RF =>
    some (_mergers,
      RuntimeFilterWorker._deliver_part_runtime_filter ev.transmit_addrs ev.transmit_rf_request
        ev.transmit_timeout_ms)
  | EventType.SEND_BROADCAST_GRF =>
    (RuntimeFilterWorker._process_send_broadcast_runtime_filter_event ops env fuel
      ev.transmit_rf_request (shuffle ev.destinations) ev.transmit_timeout_ms).map
      (fun events => (_mergers, events))

/-! ## Delivery of a total filter in the pipeline engine -/

/-- What `receive_total_runtime_filter_pipeline` uses of a fragment context: which
fragment instance it belongs to (and so whose `runtime_filter_port()` it has) and
`is_canceled()`. -/
structure FragmentContext where
  fragment_instance_id : TUniqueId
  is_canceled : Bool
deriving DecidableEq, Repr

/-- What `receive_total_runtime_filter_pipeline` uses of a query context.  The
fragment manager is read while fragments register and finish, so the result of
`fragment_mgr()->get(finst_id)` depends on which call it is: `fragment_mgr_get n` is
the answer to call number `n` (counted from 0) made by the function. -/
structure QueryContext where
  has_no_active_instances : Bool
  is_query_expired : Bool
  fragment_mgr_get : Nat → TUniqueId → Option FragmentContext

/-- The calls that `receive_total_runtime_filter_pipeline` makes to its
collaborators, in program order. -/
inductive PipelineEvent where
  /-- The call `query_context_mgr()->get(query_id)`. -/
  | get_query (query_id : TUniqueId)
  /-- The call `runtime_filter_cache()->put_if_absent(query_id, filter_id, shared_rf)`. -/
  | put_if_absent (query_id : TUniqueId) (filter_id : Int)
  /-- The call `query_ctx->fragment_mgr()->get(finst_id)`. -/
  | get_fragment (finst_id : TUniqueId)
  /-- The call `fragment_ctx->runtime_filter_port()->receive_shared_runtime_filter`. -/
  | receive_shared_runtime_filter (fragment_ctx : FragmentContext) (filter_id : Int)
deriving DecidableEq, Repr

/-- The loop over `probe_finst_ids` of `receive_total_runtime_filter_pipeline`
(lines 549 to 571); `calls` is the number of calls made to the fragment manager so
far. -/
def pipeline_targets (query_ctx : QueryContext) (query_id : TUniqueId) (filter_id : Int) :
    List PUniqueId → Nat → List PipelineEvent
  | [], _ => []
  | pb_finst_id :: rest, calls =>
    let finst_id : TUniqueId := { hi := pb_finst_id.hi, lo := pb_finst_id.lo }
    let cached :=
      match query_ctx.fragment_mgr_get calls finst_id with
      | none => [PipelineEvent.put_if_absent query_id filter_id]
      | some _ => []
    let delivered :=
      match query_ctx.fragment_mgr_get (calls + 1) finst_id with
      | none => []
      | some fragment_ctx =>
        if fragment_ctx.is_canceled then []
        else [PipelineEvent.receive_shared_runtime_filter fragment_ctx filter_id]
    [PipelineEvent.get_fragment finst_id] ++ cached ++ [PipelineEvent.get_fragment finst_id] ++
      delivered ++ pipeline_targets query_ctx query_id filter_id rest (calls + 2)

/-- The function `receive_total_runtime_filter_pipeline`.  The query context manager
is read while queries start and finish: `query_context_mgr_get n` is the answer to
call number `n` (counted from 0) of `query_context_mgr()->get`. -/
def receive_total_runtime_filter_pipeline
    (query_context_mgr_get : Nat → TUniqueId → Option QueryContext)
    (params : PTransmitRuntimeFilterParams) : List PipelineEvent :=
  let query_id : TUniqueId := { hi := params.query_id.hi, lo := params.query_id.lo }
  let cached :=
    match query_context_mgr_get 0 query_id with
    | none => [PipelineEvent.put_if_absent query_id params.filter_id]
    | some _ => []
  [PipelineEvent.get_query query_id] ++ cached ++ [PipelineEvent.get_query query_id] ++
    match query_context_mgr_get 1 query_id with
    | none => []
    | some query_ctx =>
      if query_ctx.has_no_active_instances || query_ctx.is_query_expired then []
      else pipeline_targets query_ctx query_id params.filter_id params.probe_finst_ids 0

/-- The fragment contexts whose port is handed the filter, in program order. -/
def port_deliveries (events : List PipelineEvent) : List FragmentContext :=
  events.filterMap (fun e =>
    match e with
    | PipelineEvent.receive_shared_runtime_filter fragment_ctx _ => some fragment_ctx
    | _ => none)

/-- The deliveries that the specification describes for
`receive_total_runtime_filter_pipeline`: none unless the query context resolves on
the re-check (lookup number 1), has active instances and is not expired; then,
target by target, the fragment context that resolves on the re-check of the target
(lookup number `2 * i + 1` of the fragment manager for target number `i`) when it is
not canceled. -/
def spec_port_deliveries (query_context_mgr_get : Nat → TUniqueId → Option QueryContext)
    (params : PTransmitRuntimeFilterParams) : List FragmentContext :=
  match query_context_mgr_get 1 { hi := params.query_id.hi, lo := params.query_id.lo } with
  | none => []
  | some query_ctx =>
    if query_ctx.has_no_active_instances = false ∧ query_ctx.is_query_expired = false then
      params.probe_finst_ids.enum.filterMap (fun it =>
        match query_ctx.fragment_mgr_get (2 * it.1 + 1) { hi := it.2.hi, lo := it.2.lo } with
        | none => none
        | some fragment_ctx =>
          if fragment_ctx.is_canceled = false then some fragment_ctx else none)
    else []

/-! ## Invariants of a merge status -/

/-- The ways in which one call of `merge_runtime_filter` with the request `params`
can take the status `st` of its filter id to `st'`, with `sent` telling whether
`_send_total_runtime_filter` was called: the call is discarded (only the time stamps
may change), or the partial filter takes the size over the budget, or it is
accepted. -/
def merge_status_step {F : Type} (ops : FilterOps F) (params : PTransmitRuntimeFilterParams)
    (st st' : RuntimeFilterMergerStatus F) (sent : Option (List Event)) : Prop :=
  st'.expect_number = st.expect_number ∧ st'.max_size = st.max_size ∧
  ((st'.arrives = st.arrives ∧ st'.filters = st.filters ∧
      st'.current_size = st.current_size ∧ st'.stop = st.stop ∧ sent = none) ∨
    (∃ rf, ops.deserialize_runtime_filter params.data = some rf ∧
      params.build_be_number ∉ st.arrives ∧ st.stop = false ∧
      st.max_size < st.current_size + ops.size rf ∧
      st'.arrives = st.arrives ∧ st'.filters = st.filters ∧
      st'.current_size = st.current_size + ops.size rf ∧ st'.stop = true ∧ sent = none) ∨
    (∃ rf, ops.deserialize_runtime_filter params.data = some rf ∧
      params.build_be_number ∉ st.arrives ∧ st.stop = false ∧
      st.current_size + ops.size rf ≤ st.max_size ∧
      st'.arrives = st.arrives.insert params.build_be_number ∧
      st'.filters = map_insert params.build_be_number rf st.filters ∧
      st'.current_size = st.current_size + ops.size rf ∧ st'.stop = false ∧
      (sent.isSome ↔
        st.expect_number ≤ (map_insert params.build_be_number rf st.filters).length)))

/-- The sum of `size()` over the partial filters stored in `filters`. -/
def collected_size {F : Type} (ops : FilterOps F) (st : RuntimeFilterMergerStatus F) : Nat :=
  (st.filters.map (fun it => ops.size it.2)).sum

/-- The invariant of a merge status: `arrives` and the keys of `filters` hold the
same sender numbers, each once; the stored filters fit the budget; `current_size`
is their total size while `stop` is clear, and is over the budget, by the size of
the filter that was turned down, once `stop` is set. -/
def status_inv {F : Type} (ops : FilterOps F) (st : RuntimeFilterMergerStatus F) : Prop :=
  st.arrives.Nodup ∧ (st.filters.map Prod.fst).Nodup ∧
  (∀ b, b ∈ st.arrives ↔ b ∈ st.filters.map Prod.fst) ∧
  collected_size ops st ≤ st.max_size ∧
  (st.stop = false → st.current_size = collected_size ops st) ∧
  (st.stop = true → st.max_size < st.current_size ∧
    ∃ rejected, st.current_size = collected_size ops st + rejected)

/-! ## `RuntimeFilterPort` -/

/-- What `RuntimeFilterPort` uses of a `RuntimeFilterProbeDescriptor`: the object
itself, identified by its address `ptr`, and its `filter_id()`. -/
structure RuntimeFilterProbeDescriptor where
  ptr : Nat
  filter_id : Int
deriving DecidableEq, Repr

/-- Modelled from the spec: the member `_listeners` of `RuntimeFilterPort` is declared
in `runtime_filter_worker.h`, which is not among the sources; it is the map from
filter id to the list of probe descriptors that wait for the filter. -/
structure RuntimeFilterPort where
  _listeners : List (Int × List RuntimeFilterProbeDescriptor)
deriving DecidableEq, Repr

/-- The function `RuntimeFilterPort::add_listener`. -/
def RuntimeFilterPort.add_listener (self : RuntimeFilterPort)
    (rf_desc : RuntimeFilterProbeDescriptor) : RuntimeFilterPort :=
  let rf_id := rf_desc.filter_id
  let _listeners := match map_find self._listeners rf_id with
    | none => map_insert rf_id [] self._listeners
    | some _ => self._listeners
  match map_find _listeners rf_id with
  | some wait_list => { _listeners := map_set rf_id (wait_list ++ [rf_desc]) _listeners }
  | none => { _listeners := _listeners }

/-- The function `RuntimeFilterPort::receive_runtime_filter`: the calls
`rf_desc->set_runtime_filter(rf)` it makes, in program order, each as the pair of
the descriptor and the filter. -/
def RuntimeFilterPort.receive_runtime_filter {F : Type} (self : RuntimeFilterPort)
    (filter_id : Int) (rf : F) : List (RuntimeFilterProbeDescriptor × F) :=
  match map_find self._listeners filter_id with
  | none => []
  | some wait_list => wait_list.map (fun rf_desc => (rf_desc, rf))

/-! ## Shape of the relay tree -/

/-- The longest chain of relay hops under the work list `rpcs`: an RPC is one hop,
and its receiver runs the forward loop of `_receive_total_runtime_filter` on the
forward targets it is handed.  One unit of `fuel` is used per RPC and per level; the
result is `none` when the fuel runs out. -/
def relay_depth (timeout_ms : Int) : Nat → List Event → Option Nat
  | _, [] => some 0
  | 0, _ :: _ => none
  | fuel + 1, Event.send_rpc _ _ request :: rest =>
    match relay_depth timeout_ms fuel
        (forward_loop timeout_ms request request.forward_targets 0),
      relay_depth timeout_ms fuel rest with
    | some below, some beside => some (max (below + 1) beside)
    | _, _ => none
  | fuel + 1, _ :: rest => relay_depth timeout_ms fuel rest

/-- The entries of a forward-target list that an RPC stands for: the entry it is
sent to (its address and the `probe_finst_ids` of the request), followed by the
forward list it carries. -/
def rpc_block : Event → List PTransmitRuntimeFilterForwardTarget
  | Event.send_rpc addr _ request =>
    { host := addr.hostname, port := addr.port, probe_finst_ids := request.probe_finst_ids } ::
      request.forward_targets
  | _ => []

/-- The positions of the direct RPCs that the specification describes for a list of
`m` entries processed from position `i`: `i` itself, then `i + 1 + (m - i) / 2`, and
so on while the position is below `m`. -/
def spec_forward_positions (m i : Nat) : List Nat :=
  if i < m then i :: spec_forward_positions m (i + 1 + (m - i) / 2) else []
termination_by m - i
decreasing_by omega

/-- Whether an event is the join of a batch of RPC closures. -/
def is_join : Event → Bool
  | Event.join _ => true
  | _ => false

/-! ## Concrete data used by the examples -/

/-- A concrete filter type for the examples: a filter is a list of numbers, its
size is their sum, `concat` appends, the serialized form is the list itself and the
empty byte string does not deserialize. -/
def example_ops : FilterOps (List Nat) :=
  { deserialize_runtime_filter := fun d => match d with
      | [] => none
      | _ => some d
    serialize_runtime_filter := fun f => f
    size := fun f => f.sum
    create_empty := fun _ => []
    concat := fun a b => a ++ b }

/-- The node `be0:8060` with a passthrough limit of 2 bytes and 2 RPCs in flight. -/
def example_env : ExecEnv :=
  { localhost := "be0"
    config :=
      { send_rpc_runtime_filter_timeout_ms := 400, brpc_port := 8060,
        deliver_broadcast_rf_passthrough_bytes_limit := 2,
        deliver_broadcast_rf_passthrough_inflight_num := 2 } }

/-- The environment `example_env` with the number of passthrough RPCs in flight
configured as 0. -/
def example_env_no_inflight : ExecEnv :=
  { localhost := "be0"
    config :=
      { send_rpc_runtime_filter_timeout_ms := 400, brpc_port := 8060,
        deliver_broadcast_rf_passthrough_bytes_limit := 2,
        deliver_broadcast_rf_passthrough_inflight_num := 0 } }

/-- A broadcast destination at `host:8060` with the single instance `i`. -/
def example_destination (host : String) (i : Int) : TRuntimeFilterDestination :=
  { address := { hostname := host, port := 8060 }, finstance_ids := [{ hi := 0, lo := i }] }

/-- A prober instance `i` at `host:8060`. -/
def example_prober (host : String) (i : Int) : TRuntimeFilterProberParams :=
  { fragment_instance_id := { hi := 0, lo := i },
    fragment_instance_address := { hostname := host, port := 8060 } }

/-- Merge parameters for filter 7: probers on `be1` and `be2`, `expect` senders,
size budget `max_size`. -/
def example_params (expect max_size : Nat) : TRuntimeFilterParams :=
  { id_to_prober_params := [(7, [example_prober "be1" 1, example_prober "be2" 2])]
    runtime_filter_builder_number := [(7, expect)]
    runtime_filter_max_size := max_size }

/-- A freshly initialised merger for `example_params`. -/
def example_merger (expect max_size : Nat) : RuntimeFilterMerger (List Nat) :=
  (RuntimeFilterMerger.new { hi := 1, lo := 1 } { runtime_filter_send_timeout_ms := none }
    true).init (example_params expect max_size)

/-- The status of a filter id for which sender 1 has been accepted with a payload
of `size` bytes. -/
def example_status (expect size max_size : Nat) : RuntimeFilterMergerStatus (List Nat) :=
  { arrives := [1], expect_number := expect, filters := [(1, [size])], current_size := size,
    max_size := max_size, stop := false, recv_first_filter_ts := 10,
    recv_last_filter_ts := 10, broadcast_filter_ts := 0, pool_cleared := false }

/-- A merger whose filter 7 has one prober on `be1` and the status `st`. -/
def example_merger_with (st : RuntimeFilterMergerStatus (List Nat)) :
    RuntimeFilterMerger (List Nat) :=
  { _query_id := { hi := 1, lo := 1 }, _query_options := { runtime_filter_send_timeout_ms := none },
    _is_pipeline := true, _targets := [(7, [example_prober "be1" 1])], _statuses := [(7, st)] }

/-- A merger whose filter 7 has the probers `probers` and the status `st`. -/
def example_merger_on (probers : List TRuntimeFilterProberParams)
    (st : RuntimeFilterMergerStatus (List Nat)) : RuntimeFilterMerger (List Nat) :=
  { _query_id := { hi := 1, lo := 1 }, _query_options := { runtime_filter_send_timeout_ms := none },
    _is_pipeline := true, _targets := [(7, probers)], _statuses := [(7, st)] }

/-- A partial filter for filter 7 from sender `be_number` whose payload is `data`. -/
def example_call (be_number : Int) (data : Bytes) : PTransmitRuntimeFilterParams × Int × Int :=
  ({ is_partial := true, filter_id := 7, build_be_number := be_number, data := data }, 10, 11)

/-- An event of type `type` for query (1, `lo`) that carries the request `request`
and, for `OPEN_QUERY`, the merge parameters `example_params 2 1000`. -/
def example_event (type : EventType) (lo : Int) (request : PTransmitRuntimeFilterParams) :
    RuntimeFilterWorkerEvent :=
  { type := type, query_id := { hi := 1, lo := lo },
    query_options := { runtime_filter_send_timeout_ms := none },
    create_rf_merger_request := example_params 2 1000, is_opened_by_pipeline := true,
    transmit_addrs := [], destinations := [], transmit_timeout_ms := 100,
    transmit_rf_request := request }

/-- A map `_mergers` with two queries: in the merger of query (1, 1) sender 1 has
been accepted for filter 7; the merger of query (1, 2) is freshly initialised. -/
def example_mergers : List (TUniqueId × RuntimeFilterMerger (List Nat)) :=
  [({ hi := 1, lo := 1 }, example_merger_with (example_status 2 300 1000)),
   ({ hi := 1, lo := 2 }, example_merger 1 500)]

/-- A fragment with instance id (0, `lo`). -/
def example_fragment (lo : Int) (canceled : Bool) : FragmentContext :=
  { fragment_instance_id := { hi := 0, lo := lo }, is_canceled := canceled }

/-- A running query: instance 1 is registered, instance 2 registers between the
first lookup and the re-check, instance 3 is canceled, no other instance is known. -/
def example_query_ctx : QueryContext :=
  { has_no_active_instances := false, is_query_expired := false,
    fragment_mgr_get := fun n id =>
      if id.lo = 1 then some (example_fragment 1 false)
      else if id.lo = 2 then (if n % 2 = 0 then none else some (example_fragment 2 false))
      else if id.lo = 3 then some (example_fragment 3 true)
      else none }

/-- A query context manager in which the query registers between the first lookup
and the re-check. -/
def example_query_mgr (n : Nat) (_query_id : TUniqueId) : Option QueryContext :=
  if n = 0 then none else some example_query_ctx

/-- A query context manager that does not know the query. -/
def example_query_mgr_gone (_n : Nat) (_query_id : TUniqueId) : Option QueryContext := none

/-- A total filter 7 of query (1, 1) for the instances `ids`. -/
def example_total (ids : List Int) : PTransmitRuntimeFilterParams :=
  { is_partial := false, filter_id := 7, query_id := { hi := 1, lo := 1 },
    probe_finst_ids := ids.map (fun i => { hi := 0, lo := i }) }

/-- A forward target at `host:8060` with the single instance `i`. -/
def example_forward_target (host : String) (i : Int) : PTransmitRuntimeFilterForwardTarget :=
  { host := host, port := 8060, probe_finst_ids := [{ hi := 0, lo := i }] }

/-- A total filter of one byte that carries forward targets on `be1` to `be4`. -/
def example_forward_request : PTransmitRuntimeFilterParams :=
  { data := [1], filter_id := 7,
    forward_targets := [example_forward_target "be1" 1, example_forward_target "be2" 2,
      example_forward_target "be3" 3, example_forward_target "be4" 4] }

/-! ## Lemmas on the association lists -/

theorem map_find_map_set {K V : Type} [DecidableEq K] (m : List (K × V)) (k k' : K) (v : V) :
    map_find (map_set k v m) k' =
      if k' = k then (map_find m k).map (fun _ => v) else map_find m k' := by
  induction m with
  | nil => simp [map_set, map_find]
  | cons p rest ih =>
    obtain ⟨k1, v1⟩ := p
    by_cases h1 : k1 = k
    · subst h1
      by_cases h2 : k' = k1
      · subst h2; simp [map_set, map_find]
      · have h3 : ¬ k1 = k' := fun h => h2 h.symm
        simp [map_set, map_find, h2, h3]
    · by_cases h2 : k1 = k'
      · subst h2
        simp [map_set, map_find, h1]
      · simp only [map_set, map_find, h1, h2, if_false, ih]

theorem map_find_ordered_insert {K V : Type} [DecidableEq K] [LT K]
    [DecidableRel (α := K) (· < ·)] (m : List (K × V)) (k k' : K) (v : V)
    (hk : map_find m k = none) :
    map_find (ordered_insert k v m) k' = if k = k' then some v else map_find m k' := by
  induction m with
  | nil => simp [ordered_insert, map_find]
  | cons p rest ih =>
    obtain ⟨k1, v1⟩ := p
    have hk1 : ¬ k1 = k := by
      intro h
      simp [map_find, h] at hk
    have hrest : map_find rest k = none := by
      simpa [map_find, hk1] using hk
    by_cases hlt : k < k1
    · simp [ordered_insert, hlt, map_find]
    · by_cases h2 : k1 = k'
      · subst h2
        have : ¬ k = k1 := fun h => hk1 h.symm
        simp [ordered_insert, hlt, map_find, this]
      · simp only [ordered_insert, hlt, map_find, h2, if_false, ih hrest]

theorem length_ordered_insert {K V : Type} [LT K] [DecidableRel (α := K) (· < ·)]
    (m : List (K × V)) (k : K) (v : V) : (ordered_insert k v m).length = m.length + 1 := by
  induction m with
  | nil => simp [ordered_insert]
  | cons p rest ih =>
    obtain ⟨k1, v1⟩ := p
    by_cases hlt : k < k1
    · simp [ordered_insert, hlt]
    · simp [ordered_insert, hlt, ih]

theorem map_find_map_insert {K V : Type} [DecidableEq K] [LT K]
    [DecidableRel (α := K) (· < ·)] (m : List (K × V)) (k k' : K) (v : V) :
    map_find (map_insert k v m) k' =
      if k = k' then some ((map_find m k).getD v) else map_find m k' := by
  unfold map_insert
  cases hk : map_find m k with
  | none =>
    simp only [map_find_ordered_insert m k k' v hk, Option.getD_none]
  | some v0 =>
    by_cases h : k = k'
    · subst h; simp [hk]
    · simp [h]


theorem length_map_insert_of_absent {K V : Type} [DecidableEq K] [LT K]
    [DecidableRel (α := K) (· < ·)] (m : List (K × V)) (k : K) (v : V)
    (hk : map_find m k = none) : (map_insert k v m).length = m.length + 1 := by
  simp [map_insert, hk, length_ordered_insert]

/-- What `_send_total_runtime_filter` returns when the status and the targets of the
filter id exist, a partial filter has been collected and the pool has not been
cleared. -/
theorem send_total_eq {F : Type} (ops : FilterOps F) (env : ExecEnv)
    (m : RuntimeFilterMerger F) (fid now : Int) (st : RuntimeFilterMergerStatus F)
    (tn : List TRuntimeFilterProberParams)
    (hs : map_find m._statuses fid = some st) (ht : map_find m._targets fid = some tn)
    (hf : st.filters ≠ []) (hp : st.pool_cleared = false) :
    ∃ evs, RuntimeFilterMerger._send_total_runtime_filter ops env m fid now =
      some ({ m with _statuses :=
          (map_set fid { st with broadcast_filter_ts := now, pool_cleared := true }
            m._statuses) },
        evs) := by
  unfold RuntimeFilterMerger._send_total_runtime_filter
  obtain ⟨p, rest, hfl⟩ := List.exists_cons_of_ne_nil hf
  simp only [hs, ht, hfl, hp, Bool.false_eq_true, if_false]
  exact ⟨_, rfl⟩

/-- After `pool->clear()` the function `_send_total_runtime_filter` has no defined
result: it reads the freed filters. -/
theorem send_total_cleared {F : Type} (ops : FilterOps F) (env : ExecEnv)
    (m : RuntimeFilterMerger F) (fid now : Int) (st : RuntimeFilterMergerStatus F)
    (hs : map_find m._statuses fid = some st) (hp : st.pool_cleared = true) :
    RuntimeFilterMerger._send_total_runtime_filter ops env m fid now = none := by
  unfold RuntimeFilterMerger._send_total_runtime_filter
  cases ht : map_find m._targets fid with
  | none => simp [hs]
  | some tn =>
    cases hfl : st.filters with
    | nil => simp [hs, hfl]
    | cons p rest => simp [hs, hfl, hp]

/-- One accepted call of `merge_runtime_filter`. -/
theorem merge_accept {F : Type} (ops : FilterOps F) (env : ExecEnv)
    (m : RuntimeFilterMerger F) (params : PTransmitRuntimeFilterParams) (now send_now : Int)
    (st : RuntimeFilterMergerStatus F) (tn : List TRuntimeFilterProberParams) (rf : F)
    (ht : map_find m._targets params.filter_id = some tn) (hne : tn ≠ [])
    (hs : map_find m._statuses params.filter_id = some st)
    (hdup : params.build_be_number ∉ st.arrives) (hstop : st.stop = false)
    (hd : ops.deserialize_runtime_filter params.data = some rf)
    (hsz : st.current_size + ops.size rf ≤ st.max_size)
    (hkeys : map_find st.filters params.build_be_number = none)
    (hp : st.pool_cleared = false) :
    ∃ m' out st',
      RuntimeFilterMerger.merge_runtime_filter ops env m params now send_now = some (m', out) ∧
      (out.isSome ↔ st.expect_number ≤ st.filters.length + 1) ∧
      m'._targets = m._targets ∧
      map_find m'._statuses params.filter_id = some st' ∧
      st'.arrives = st.arrives.insert params.build_be_number ∧
      st'.filters = map_insert params.build_be_number rf st.filters ∧
      st'.current_size = st.current_size + ops.size rf ∧
      st'.expect_number = st.expect_number ∧ st'.max_size = st.max_size ∧ st'.stop = false ∧
      st'.pool_cleared = out.isSome := by
  have hlen : tn.length ≠ 0 := by
    intro h; exact hne (List.length_eq_zero.mp h)
  have hgt : ¬ (st.current_size + ops.size rf > st.max_size) := by omega
  have hflen : (map_insert params.build_be_number rf st.filters).length = st.filters.length + 1 :=
    length_map_insert_of_absent _ _ _ hkeys
  let st1 : RuntimeFilterMergerStatus F :=
    { arrives := st.arrives.insert params.build_be_number, expect_number := st.expect_number,
      filters := map_insert params.build_be_number rf st.filters,
      current_size := st.current_size + ops.size rf, max_size := st.max_size, stop := false,
      recv_first_filter_ts :=
        if st.recv_first_filter_ts = 0 then now else st.recv_first_filter_ts,
      recv_last_filter_ts := now, broadcast_filter_ts := st.broadcast_filter_ts,
      pool_cleared := false }
  by_cases hN : st.filters.length + 1 < st.expect_number
  · refine ⟨{ m with _statuses := map_set params.filter_id st1 m._statuses }, none, st1,
      ?_, ?_, ?_, ?_, rfl, rfl, rfl, rfl, rfl, rfl, rfl⟩
    · simp only [RuntimeFilterMerger.merge_runtime_filter, ht, hs, hlen, hdup, hstop, hd, hgt,
        hflen, hN, hp, if_true, if_false, Bool.false_eq_true]
    · simp; omega
    · rfl
    · simp [map_find_map_set, hs, st1]
  · obtain ⟨evs, hsend⟩ := send_total_eq ops env
      { m with _statuses := map_set params.filter_id st1 m._statuses }
      params.filter_id send_now st1 tn (by simp [map_find_map_set, hs]) ht
      (by
        intro h
        have h2 := congrArg List.length h
        simp [st1, hflen] at h2) rfl
    refine ⟨{ m with _statuses := (map_set params.filter_id
        { st1 with broadcast_filter_ts := send_now, pool_cleared := true }
        (map_set params.filter_id st1 m._statuses)) }, some evs,
      { st1 with broadcast_filter_ts := send_now, pool_cleared := true },
      ?_, ?_, ?_, ?_, rfl, rfl, rfl, rfl, rfl, rfl, rfl⟩
    · simp only [RuntimeFilterMerger.merge_runtime_filter, ht, hs, hlen, hdup, hstop, hd, hgt,
        hflen, hN, hp, if_true, if_false, Bool.false_eq_true]
      exact congrArg (Option.map _) hsend
    · simp; omega
    · rfl
    · simp [map_find_map_set, hs, st1]


/-- A run of accepted calls that does not go beyond the expected number: the call
number `i` (from 0) sends exactly when the expected number of partial filters is
reached with it. -/
theorem merge_all_accepts {F : Type} (ops : FilterOps F) (env : ExecEnv) (fid : Int)
    (tn : List TRuntimeFilterProberParams) (htn : tn ≠ []) :
    ∀ (calls : List (PTransmitRuntimeFilterParams × Int × Int)) (m : RuntimeFilterMerger F)
      (st : RuntimeFilterMergerStatus F),
      map_find m._targets fid = some tn →
      map_find m._statuses fid = some st →
      st.stop = false →
      st.pool_cleared = false →
      st.filters.length + calls.length ≤ st.expect_number →
      (∀ b, b ∉ st.arrives → map_find st.filters b = none) →
      (∀ c ∈ calls, c.1.filter_id = fid) →
      (calls.map (fun c => c.1.build_be_number)).Nodup →
      (∀ c ∈ calls, c.1.build_be_number ∉ st.arrives) →
      (∀ c ∈ calls, (ops.deserialize_runtime_filter c.1.data).isSome) →
      st.current_size + (calls.map (fun c => payload_size ops c.1.data)).sum ≤ st.max_size →
      ∃ m' outs, merge_all ops env m calls = some (m', outs) ∧ outs.length = calls.length ∧
        ∀ i (h : i < outs.length),
          ((outs[i]).isSome ↔ st.expect_number ≤ st.filters.length + i + 1) := by
  intro calls
  induction calls with
  | nil =>
    intro m st _ _ _ _ _ _ _ _ _ _ _
    exact ⟨m, [], rfl, rfl, fun i h => absurd h (Nat.not_lt_zero i)⟩
  | cons c rest ih =>
    intro m st ht hs hstop hpool hcount hkeys hfid hnd hnew hdes hsz
    have hc : c.1.filter_id = fid := hfid c (List.mem_cons_self _ _)
    obtain ⟨rf, hrf⟩ := Option.isSome_iff_exists.mp (hdes c (List.mem_cons_self _ _))
    have hps : payload_size ops c.1.data = ops.size rf := by simp [payload_size, hrf]
    simp only [List.map_cons, List.sum_cons, hps] at hsz
    simp only [List.map_cons, List.nodup_cons] at hnd
    simp only [List.length_cons] at hcount
    have hcnew : c.1.build_be_number ∉ st.arrives := hnew c (List.mem_cons_self _ _)
    obtain ⟨m1, out, st1, hm, hout, htg, hs1, harr, hfil, hcur, hexp, hmax, hstop1, hpool1⟩ :=
      merge_accept ops env m c.1 c.2.1 c.2.2 st tn rf (hc ▸ ht) htn (hc ▸ hs) hcnew hstop hrf
        (by omega) (hkeys _ hcnew) hpool
    rw [hc] at hs1
    have hlen1 : st1.filters.length = st.filters.length + 1 := by
      rw [hfil]; exact length_map_insert_of_absent _ _ _ (hkeys _ hcnew)
    by_cases hrest : rest = []
    · subst hrest
      refine ⟨m1, [out], by simp [merge_all, hm], rfl, ?_⟩
      intro i h
      have hi0 : i = 0 := by simpa using h
      subst hi0
      simpa using hout
    have hrl : 1 ≤ rest.length := by
      cases rest with
      | nil => exact absurd rfl hrest
      | cons c2 rest2 => simp
    have hnofire : out = none := by
      cases hout_eq : out with
      | none => rfl
      | some e =>
        rw [hout_eq] at hout
        have := hout.mp rfl
        omega
    rw [hnofire] at hpool1
    obtain ⟨m2, outs, hm2, hl2, hi2⟩ := ih m1 st1 (htg ▸ ht) hs1 hstop1
      (by simpa using hpool1)
      (by rw [hlen1, hexp]; omega)
      (by
        intro b hb
        rw [harr, List.mem_insert_iff, not_or] at hb
        rw [hfil, map_find_map_insert]
        have : ¬ c.1.build_be_number = b := fun h => hb.1 h.symm
        simp [this, hkeys b hb.2])
      (fun c' hc' => hfid c' (List.mem_cons_of_mem _ hc'))
      hnd.2
      (by
        intro c' hc'
        rw [harr, List.mem_insert_iff, not_or]
        refine ⟨?_, hnew c' (List.mem_cons_of_mem _ hc')⟩
        intro h
        exact hnd.1 (List.mem_map.mpr ⟨c', hc', h⟩))
      (fun c' hc' => hdes c' (List.mem_cons_of_mem _ hc'))
      (by rw [hcur, hmax]; omega)
    refine ⟨m2, out :: outs, ?_, by simp [hl2], ?_⟩
    · simp [merge_all, hm, hm2]
    · intro i h
      cases i with
      | zero => simpa using hout
      | succ j =>
        have hj : j < outs.length := by simpa using h
        have := hi2 j hj
        rw [hexp, hlen1] at this
        simp only [List.getElem_cons_succ]
        rw [this]
        omega


/-! ## The merger: completion, duplicates, the size budget -/

theorem map_find_init_fold_of_found {F : Type} (max_size : Nat) (k : Int) (l : List (Int × Nat)) :
    ∀ (acc : List (Int × RuntimeFilterMergerStatus F)) (v : RuntimeFilterMergerStatus F),
      map_find acc k = some v →
      map_find (l.foldl
        (fun statuses it => map_insert it.1 (init_status it.2 max_size) statuses) acc) k =
        some v := by
  induction l with
  | nil => intro acc v hv; simpa using hv
  | cons q rest ih =>
    intro acc v hv
    simp only [List.foldl_cons]
    apply ih
    rw [map_find_map_insert]
    by_cases hq : q.1 = k
    · simp [hq, hv]
    · simp [hq, hv]

theorem map_find_init_fold {F : Type} (max_size : Nat) (l : List (Int × Nat)) :
    ∀ (acc : List (Int × RuntimeFilterMergerStatus F)) (k : Int),
      map_find acc k = none →
      map_find (l.foldl
        (fun statuses it => map_insert it.1 (init_status it.2 max_size) statuses) acc) k =
        (map_find l k).map (fun n => init_status n max_size) := by
  induction l with
  | nil => intro acc k h; simpa [map_find] using h
  | cons p rest ih =>
    intro acc k h
    obtain ⟨k1, n1⟩ := p
    simp only [List.foldl_cons]
    by_cases hk : k1 = k
    · subst hk
      rw [map_find_init_fold_of_found max_size k1 rest _ (init_status n1 max_size)
        (by rw [map_find_map_insert]; simp [h])]
      simp [map_find]
    · rw [ih _ k (by rw [map_find_map_insert]; simp [hk, h])]
      simp [map_find, hk]

/-- Claim C1. For a filter id with a non-empty prober-target list and `N ≥ 1`
expected senders, every sequence of `N` partial filters for it from pairwise
distinct senders, all deserializable and of total size at most the budget, given to
a freshly initialised merger in any order, makes `merge_runtime_filter` call
`_send_total_runtime_filter` exactly once: not in the first `N - 1` calls, and in
the `N`-th. -/
theorem C1_distribution_once_at_last_sender {F : Type} (ops : FilterOps F) (env : ExecEnv)
    (query_id : TUniqueId) (query_options : TQueryOptions) (is_pipeline : Bool)
    (params : TRuntimeFilterParams) (fid : Int) (N : Nat)
    (tn : List TRuntimeFilterProberParams)
    (calls : List (PTransmitRuntimeFilterParams × Int × Int))
    (htargets : map_find params.id_to_prober_params fid = some tn) (htn : tn ≠ [])
    (hexpect : map_find params.runtime_filter_builder_number fid = some N) (hN : 1 ≤ N)
    (hlen : calls.length = N)
    (hfid : ∀ c ∈ calls, c.1.filter_id = fid)
    (hdistinct : (calls.map (fun c => c.1.build_be_number)).Nodup)
    (hdeser : ∀ c ∈ calls, (ops.deserialize_runtime_filter c.1.data).isSome)
    (hsize : (calls.map (fun c => payload_size ops c.1.data)).sum ≤
      params.runtime_filter_max_size) :
    ∃ m' evs,
      merge_all ops env
        ((RuntimeFilterMerger.new query_id query_options is_pipeline).init params) calls =
        some (m', List.replicate (N - 1) none ++ [some evs]) := by
  have hst := map_find_init_fold (F := F) params.runtime_filter_max_size
    params.runtime_filter_builder_number [] fid rfl
  rw [hexpect] at hst
  obtain ⟨m', outs, hm, hl, hi⟩ := merge_all_accepts ops env fid tn htn calls
    ((RuntimeFilterMerger.new query_id query_options is_pipeline).init params) _
    htargets hst rfl rfl (by simp only [init_status, List.length_nil]; omega)
    (fun b _ => rfl) hfid hdistinct (fun c _ => by simp [init_status]) hdeser
    (by simpa [init_status] using hsize)
  simp only [init_status, List.length_nil, zero_add] at hi
  have hlast : N - 1 < outs.length := by omega
  obtain ⟨evs, hevs⟩ := Option.isSome_iff_exists.mp ((hi (N - 1) hlast).mpr (by omega))
  refine ⟨m', evs, ?_⟩
  rw [hm]
  congr 2
  apply List.ext_getElem
  · simp; omega
  · intro i h1 h2
    by_cases hlt : i < N - 1
    · rw [List.getElem_append_left (by simpa using hlt)]
      simp only [List.getElem_replicate]
      have := hi i h1
      cases hoi : outs[i] with
      | none => rfl
      | some e =>
        rw [hoi] at this
        simp at this
        omega
    · have hi_eq : i = N - 1 := by omega
      subst hi_eq
      rw [List.getElem_append_right (by simp)]
      simp [hevs]

theorem C1_distribution_once_at_last_sender_witness :
    ∃ m' evs,
      merge_all example_ops example_env
        ((RuntimeFilterMerger.new { hi := 1, lo := 1 } { runtime_filter_send_timeout_ms := none }
          true).init (example_params 3 1000))
        [example_call 3 [300], example_call 1 [300], example_call 2 [300]] =
        some (m', List.replicate (3 - 1) none ++ [some evs]) :=
  C1_distribution_once_at_last_sender example_ops example_env { hi := 1, lo := 1 }
    { runtime_filter_send_timeout_ms := none } true (example_params 3 1000) 7 3
    [example_prober "be1" 1, example_prober "be2" 2]
    [example_call 3 [300], example_call 1 [300], example_call 2 [300]]
    (by decide) (by decide) (by decide) (by decide) (by decide) (by decide) (by decide)
    (by decide) (by decide)

/-- Claim C2 (the code at the failing input). With one expected sender, the partial
filter of sender 1 completes the filter: it is distributed by an RPC to `be1`, and
the call ends with `pool->clear()`, which frees the stored filter while `filters`
keeps pointing to it.  The later partial filter of the new sender 2 is not ignored:
it passes every check, is stored, the completion test `filters.size() <
expect_number` fails again and `_send_total_runtime_filter` is entered a second
time, where it reads the freed filter of sender 1.  The second call has no defined
result. -/
theorem C2_new_sender_after_completion_reads_freed_filters :
    (merge_all example_ops example_env (example_merger 1 1000) [example_call 1 [300]]).map
      (fun r => (r.2.map (fun sent => sent.map (fun evs => evs.map (fun e =>
          match e with
          | Event.send_rpc addr _ request => (addr.hostname, request.data)
          | _ => ("", [])))),
        (map_find r.1._statuses 7).map
          (fun st => (st.arrives, st.filters, st.stop, st.pool_cleared)))) =
      some ([some [("be1", [300]), ("", [])]],
        some ([1], [(1, [300])], false, true)) ∧
    merge_all example_ops example_env (example_merger 1 1000)
      [example_call 1 [300], example_call 2 [50]] = none := by
  constructor
  · simp [merge_all, RuntimeFilterMerger.merge_runtime_filter, example_merger, example_call,
      example_params, example_ops, example_env, RuntimeFilterMerger.init,
      RuntimeFilterMerger.new, init_status, map_find, map_insert, ordered_insert, map_set,
      RuntimeFilterMerger._send_total_runtime_filter, send_total_loop, nodes_to_frag_insts,
      add_target_node, local_first, example_prober]
  · simp [merge_all, RuntimeFilterMerger.merge_runtime_filter, example_merger, example_call,
      example_params, example_ops, example_env, RuntimeFilterMerger.init,
      RuntimeFilterMerger.new, init_status, map_find, map_insert, ordered_insert, map_set,
      RuntimeFilterMerger._send_total_runtime_filter, send_total_loop, nodes_to_frag_insts,
      add_target_node, local_first, example_prober]

/-- Claim C3. A partial filter whose sender number is already in `arrives` changes
nothing in the merger (so `current_size`, `arrives`, `filters` and `stop` of the
status are unchanged) and does not call `_send_total_runtime_filter`, whatever its
payload. -/
theorem C3_duplicate_sender_is_ignored {F : Type} (ops : FilterOps F) (env : ExecEnv)
    (m : RuntimeFilterMerger F) (params : PTransmitRuntimeFilterParams) (now send_now : Int)
    (st : RuntimeFilterMergerStatus F)
    (hs : map_find m._statuses params.filter_id = some st)
    (hdup : params.build_be_number ∈ st.arrives) :
    RuntimeFilterMerger.merge_runtime_filter ops env m params now send_now = some (m, none) := by
  simp only [RuntimeFilterMerger.merge_runtime_filter]
  cases ht : map_find m._targets params.filter_id with
  | none => rfl
  | some tn =>
    by_cases hlen : tn.length = 0
    · simp [hlen]
    · simp [hlen, hs, hdup]

theorem C3_duplicate_sender_is_ignored_witness :
    RuntimeFilterMerger.merge_runtime_filter example_ops example_env
      (example_merger_with (example_status 3 300 1000)) (example_call 1 [999]).1 20 21 =
      some (example_merger_with (example_status 3 300 1000), none) :=
  C3_duplicate_sender_is_ignored example_ops example_env
    (example_merger_with (example_status 3 300 1000)) (example_call 1 [999]).1 20 21
    (example_status 3 300 1000) rfl (by decide)

/-- A call for a filter id whose status has `stop` set changes nothing and sends
nothing. -/
theorem merge_stopped {F : Type} (ops : FilterOps F) (env : ExecEnv)
    (m : RuntimeFilterMerger F) (params : PTransmitRuntimeFilterParams) (now send_now : Int)
    (st : RuntimeFilterMergerStatus F)
    (hs : map_find m._statuses params.filter_id = some st) (hstop : st.stop = true) :
    RuntimeFilterMerger.merge_runtime_filter ops env m params now send_now = some (m, none) := by
  simp only [RuntimeFilterMerger.merge_runtime_filter]
  cases ht : map_find m._targets params.filter_id with
  | none => rfl
  | some tn =>
    by_cases hlen : tn.length = 0
    · simp [hlen]
    · by_cases hdup : params.build_be_number ∈ st.arrives
      · simp [hlen, hs, hdup]
      · simp [hlen, hs, hdup, hstop]

/-- The outcome of a call of `merge_runtime_filter`.  The call has no defined result
exactly in one case: it accepts a partial filter that completes a status whose pool
has been cleared by an earlier distribution, so `_send_total_runtime_filter` is
entered again and reads the freed filters.  In every other case the call returns;
it leaves the targets and the statuses of the other filter ids alone, does nothing
at all when its filter id has no status, and otherwise takes the status of its
filter id through one of the steps of `merge_status_step`; the pool of the status
is cleared by the call exactly when it distributes. -/
theorem merge_step {F : Type} (ops : FilterOps F) (env : ExecEnv)
    (m : RuntimeFilterMerger F) (params : PTransmitRuntimeFilterParams) (now send_now : Int) :
    (RuntimeFilterMerger.merge_runtime_filter ops env m params now send_now = none ∧
      ∃ st tn rf,
        map_find m._targets params.filter_id = some tn ∧ tn ≠ [] ∧
        map_find m._statuses params.filter_id = some st ∧
        params.build_be_number ∉ st.arrives ∧ st.stop = false ∧
        ops.deserialize_runtime_filter params.data = some rf ∧
        st.current_size + ops.size rf ≤ st.max_size ∧
        st.expect_number ≤ (map_insert params.build_be_number rf st.filters).length ∧
        st.pool_cleared = true) ∨
    ∃ m' sent,
      RuntimeFilterMerger.merge_runtime_filter ops env m params now send_now = some (m', sent) ∧
      m'._targets = m._targets ∧
      (∀ k, k ≠ params.filter_id → map_find m'._statuses k = map_find m._statuses k) ∧
      (map_find m._statuses params.filter_id = none → m' = m ∧ sent = none) ∧
      ∀ st, map_find m._statuses params.filter_id = some st →
        ∃ st', map_find m'._statuses params.filter_id = some st' ∧
          merge_status_step ops params st st' sent ∧
          st'.pool_cleared = (st.pool_cleared || sent.isSome) := by
  have hkey : ∀ (st1 : RuntimeFilterMergerStatus F) (k : Int), k ≠ params.filter_id →
      map_find (map_set params.filter_id st1 m._statuses) k = map_find m._statuses k := by
    intro st1 k hk
    simp [map_find_map_set, hk]
  have hsame : ∀ st, map_find m._statuses params.filter_id = some st →
      ∃ st', map_find m._statuses params.filter_id = some st' ∧
        merge_status_step ops params st st' none ∧
        st'.pool_cleared = (st.pool_cleared || (none : Option (List Event)).isSome) :=
    fun st hst => ⟨st, hst, ⟨rfl, rfl, Or.inl ⟨rfl, rfl, rfl, rfl, rfl⟩⟩, by simp⟩
  cases ht : map_find m._targets params.filter_id with
  | none =>
    exact Or.inr ⟨m, none, by simp [RuntimeFilterMerger.merge_runtime_filter, ht], rfl,
      fun _ _ => rfl, fun _ => ⟨rfl, rfl⟩, hsame⟩
  | some tn =>
    by_cases hlen : tn.length = 0
    · exact Or.inr ⟨m, none, by simp [RuntimeFilterMerger.merge_runtime_filter, ht, hlen], rfl,
        fun _ _ => rfl, fun _ => ⟨rfl, rfl⟩, hsame⟩
    · cases hs : map_find m._statuses params.filter_id with
      | none =>
        exact Or.inr ⟨m, none, by simp [RuntimeFilterMerger.merge_runtime_filter, ht, hlen, hs], rfl,
          fun _ _ => rfl, fun _ => ⟨rfl, rfl⟩, fun st hst => by simp at hst⟩
      | some st =>
        have hsame2 : ∀ st0, some st = some st0 →
            ∃ st', map_find m._statuses params.filter_id = some st' ∧
              merge_status_step ops params st0 st' none ∧
              st'.pool_cleared = (st0.pool_cleared || (none : Option (List Event)).isSome) := by
          intro st0 h0
          exact hsame st0 (hs.trans h0)
        by_cases hdup : params.build_be_number ∈ st.arrives
        · exact Or.inr ⟨m, none,
            by simp [RuntimeFilterMerger.merge_runtime_filter, ht, hlen, hs, hdup], rfl,
            fun _ _ => rfl, fun h => by simp at h, hsame2⟩
        · by_cases hstop : st.stop = true
          · exact Or.inr ⟨m, none,
              by simp [RuntimeFilterMerger.merge_runtime_filter, ht, hlen, hs, hdup, hstop], rfl,
              fun _ _ => rfl, fun h => by simp at h, hsame2⟩
          · have hstop2 : st.stop = false := by simpa using hstop
            cases hd : ops.deserialize_runtime_filter params.data with
            | none =>
              let st1 : RuntimeFilterMergerStatus F :=
                { arrives := st.arrives, expect_number := st.expect_number,
                  filters := st.filters, current_size := st.current_size,
                  max_size := st.max_size, stop := false,
                  recv_first_filter_ts :=
                    if st.recv_first_filter_ts = 0 then now else st.recv_first_filter_ts,
                  recv_last_filter_ts := now,
                  broadcast_filter_ts := st.broadcast_filter_ts, pool_cleared := st.pool_cleared }
              refine Or.inr ⟨{ m with _statuses := map_set params.filter_id st1 m._statuses },
                none, ?_, rfl, hkey _, fun h => by simp at h, ?_⟩
              · simp only [RuntimeFilterMerger.merge_runtime_filter, ht, hlen, hs, hdup, hstop2,
                  hd, if_false, Bool.false_eq_true]
              · intro st0 h0
                simp only [Option.some.injEq] at h0
                subst h0
                exact ⟨st1, by simp [map_find_map_set, hs], ⟨rfl, rfl,
                  Or.inl ⟨rfl, rfl, rfl, hstop2.symm, rfl⟩⟩, by simp [st1]⟩
            | some rf =>
              by_cases hover : st.current_size + ops.size rf > st.max_size
              · let st1 : RuntimeFilterMergerStatus F :=
                  { arrives := st.arrives, expect_number := st.expect_number,
                    filters := st.filters, current_size := st.current_size + ops.size rf,
                    max_size := st.max_size, stop := true,
                    recv_first_filter_ts :=
                      if st.recv_first_filter_ts = 0 then now else st.recv_first_filter_ts,
                    recv_last_filter_ts := now,
                    broadcast_filter_ts := st.broadcast_filter_ts, pool_cleared := st.pool_cleared }
                refine Or.inr ⟨{ m with _statuses := map_set params.filter_id st1 m._statuses },
                  none, ?_, rfl, hkey _, fun h => by simp at h, ?_⟩
                · simp only [RuntimeFilterMerger.merge_runtime_filter, ht, hlen, hs, hdup,
                    hstop2, hd, hover, if_true, if_false, Bool.false_eq_true]
                · intro st0 h0
                  simp only [Option.some.injEq] at h0
                  subst h0
                  exact ⟨st1, by simp [map_find_map_set, hs], ⟨rfl, rfl,
                    Or.inr (Or.inl ⟨rf, hd, hdup, hstop2, hover, rfl, rfl, rfl, rfl, rfl⟩)⟩,
                    by simp [st1]⟩
              · have hfit : st.current_size + ops.size rf ≤ st.max_size := by omega
                by_cases hN : (map_insert params.build_be_number rf st.filters).length <
                    st.expect_number
                · let st1 : RuntimeFilterMergerStatus F :=
                    { arrives := st.arrives.insert params.build_be_number,
                      expect_number := st.expect_number,
                      filters := map_insert params.build_be_number rf st.filters,
                      current_size := st.current_size + ops.size rf,
                      max_size := st.max_size, stop := false,
                      recv_first_filter_ts :=
                        if st.recv_first_filter_ts = 0 then now else st.recv_first_filter_ts,
                      recv_last_filter_ts := now,
                      broadcast_filter_ts := st.broadcast_filter_ts, pool_cleared := st.pool_cleared }
                  refine Or.inr ⟨{ m with _statuses := map_set params.filter_id st1 m._statuses },
                    none, ?_, rfl, hkey _, fun h => by simp at h, ?_⟩
                  · simp only [RuntimeFilterMerger.merge_runtime_filter, ht, hlen, hs, hdup,
                      hstop2, hd, hover, hN, if_true, if_false, Bool.false_eq_true]
                  · intro st0 h0
                    simp only [Option.some.injEq] at h0
                    subst h0
                    refine ⟨st1, by simp [map_find_map_set, hs], ⟨rfl, rfl,
                      Or.inr (Or.inr ⟨rf, hd, hdup, hstop2, hfit, rfl, rfl, rfl, rfl, ?_⟩)⟩,
                      by simp [st1]⟩
                    simp only [Option.isSome_none, Bool.false_eq_true, false_iff, not_le]
                    exact hN
                · have hne : (map_insert params.build_be_number rf st.filters) ≠ [] := by
                    unfold map_insert
                    cases hfind : map_find st.filters params.build_be_number with
                    | none =>
                      intro h
                      have h2 := congrArg List.length h
                      simp [length_ordered_insert] at h2
                    | some v =>
                      intro h
                      simp only at h
                      rw [h] at hfind
                      simp [map_find] at hfind
                  let st1 : RuntimeFilterMergerStatus F :=
                    { arrives := st.arrives.insert params.build_be_number,
                      expect_number := st.expect_number,
                      filters := map_insert params.build_be_number rf st.filters,
                      current_size := st.current_size + ops.size rf,
                      max_size := st.max_size, stop := false,
                      recv_first_filter_ts :=
                        if st.recv_first_filter_ts = 0 then now else st.recv_first_filter_ts,
                      recv_last_filter_ts := now,
                      broadcast_filter_ts := st.broadcast_filter_ts, pool_cleared := st.pool_cleared }
                  have hs1 : map_find (map_set params.filter_id st1 m._statuses)
                      params.filter_id = some st1 := by
                    simp [map_find_map_set, hs]
                  by_cases hp : st.pool_cleared = true
                  · refine Or.inl ⟨?_, st, tn, rf, rfl,
                      fun e => hlen (by simp [e]), rfl, hdup, hstop2, rfl, hfit, by omega, hp⟩
                    simp only [RuntimeFilterMerger.merge_runtime_filter, ht, hlen, hs, hdup,
                      hstop2, hd, hover, hN, if_true, if_false, Bool.false_eq_true]
                    rw [send_total_cleared ops env
                      { m with _statuses := map_set params.filter_id st1 m._statuses }
                      params.filter_id send_now st1 hs1 hp]
                    rfl
                  · have hp2 : st.pool_cleared = false := by simpa using hp
                    obtain ⟨evs, hsend⟩ := send_total_eq ops env
                      { m with _statuses := map_set params.filter_id st1 m._statuses }
                      params.filter_id send_now st1 tn hs1 ht hne hp2
                    let st2 : RuntimeFilterMergerStatus F :=
                      { st1 with broadcast_filter_ts := send_now, pool_cleared := true }
                    refine Or.inr ⟨{ m with _statuses :=
                        (map_set params.filter_id st2
                          (map_set params.filter_id st1 m._statuses)) },
                      some evs, ?_, rfl, ?_, fun h => by simp at h, ?_⟩
                    · simp only [RuntimeFilterMerger.merge_runtime_filter, ht, hlen, hs, hdup,
                        hstop2, hd, hover, hN, if_true, if_false, Bool.false_eq_true]
                      rw [hsend]
                      rfl
                    · intro k hk
                      simp [map_find_map_set, hk]
                    · intro st0 h0
                      simp only [Option.some.injEq] at h0
                      subst h0
                      refine ⟨st2, by simp [map_find_map_set, hs], ⟨rfl, rfl,
                        Or.inr (Or.inr ⟨rf, hd, hdup, hstop2, hfit, rfl, rfl, rfl, rfl, ?_⟩)⟩,
                        by simp [st2]⟩
                      simp only [Option.isSome_some, true_iff]
                      omega

/-- A call of `merge_runtime_filter` that returns leaves the targets alone and
changes no status but the one of its own filter id. -/
theorem merge_frame {F : Type} (ops : FilterOps F) (env : ExecEnv)
    (m m' : RuntimeFilterMerger F) (params : PTransmitRuntimeFilterParams) (now send_now : Int)
    (out : Option (List Event))
    (h : RuntimeFilterMerger.merge_runtime_filter ops env m params now send_now =
      some (m', out)) :
    m'._targets = m._targets ∧
      ∀ k, k ≠ params.filter_id → map_find m'._statuses k = map_find m._statuses k := by
  rcases merge_step ops env m params now send_now with ⟨hnone, _⟩ | ⟨m1, out1, hrun, ht, hf, _⟩
  · rw [hnone] at h
    simp at h
  · rw [hrun] at h
    simp only [Option.some.injEq, Prod.mk.injEq] at h
    rw [← h.1]
    exact ⟨ht, hf⟩

/-- A call of `merge_runtime_filter` returns when the pool of the status of its
filter id has not been cleared. -/
theorem merge_returns {F : Type} (ops : FilterOps F) (env : ExecEnv)
    (m : RuntimeFilterMerger F) (params : PTransmitRuntimeFilterParams) (now send_now : Int)
    (hp : ∀ st, map_find m._statuses params.filter_id = some st → st.pool_cleared = false) :
    ∃ m' out,
      RuntimeFilterMerger.merge_runtime_filter ops env m params now send_now =
        some (m', out) := by
  rcases merge_step ops env m params now send_now with
    ⟨_, st, _, _, _, _, hs, _, _, _, _, _, hcl⟩ | ⟨m1, out1, hrun, _⟩
  · rw [hp st hs] at hcl
    simp at hcl
  · exact ⟨m1, out1, hrun⟩

/-- Once the status of a filter id has `stop` set, no run of calls that returns
changes that status, and no call for that filter id sends; a run of calls that are
all for that filter id returns. -/
theorem merge_all_stopped {F : Type} (ops : FilterOps F) (env : ExecEnv) (fid : Int)
    (st1 : RuntimeFilterMergerStatus F) (hstop : st1.stop = true) :
    ∀ (calls : List (PTransmitRuntimeFilterParams × Int × Int)) (m : RuntimeFilterMerger F),
      map_find m._statuses fid = some st1 →
      (∀ m2 outs, merge_all ops env m calls = some (m2, outs) →
        outs.length = calls.length ∧
        map_find m2._statuses fid = some st1 ∧
        ∀ i (h1 : i < calls.length) (h2 : i < outs.length),
          (calls[i]).1.filter_id = fid → outs[i] = none) ∧
      ((∀ c ∈ calls, c.1.filter_id = fid) →
        ∃ m2 outs, merge_all ops env m calls = some (m2, outs)) := by
  intro calls
  induction calls with
  | nil =>
    intro m hs
    refine ⟨?_, fun _ => ⟨m, [], rfl⟩⟩
    intro m2 outs h
    simp only [merge_all, Option.some.injEq, Prod.mk.injEq] at h
    rw [← h.1, ← h.2]
    exact ⟨rfl, hs, fun i h1 => absurd h1 (Nat.not_lt_zero i)⟩
  | cons c rest ih =>
    intro m hs
    constructor
    · intro m2 outs h
      simp only [merge_all] at h
      cases hstep : RuntimeFilterMerger.merge_runtime_filter ops env m c.1 c.2.1 c.2.2 with
      | none => simp [hstep] at h
      | some r =>
        obtain ⟨m1, out⟩ := r
        simp only [hstep] at h
        cases hrest : merge_all ops env m1 rest with
        | none => simp [hrest] at h
        | some r2 =>
          obtain ⟨m3, outs3⟩ := r2
          simp only [hrest, Option.map_some', Option.some.injEq, Prod.mk.injEq] at h
          obtain ⟨hm, ho⟩ := h
          subst hm
          subst ho
          have hs1 : map_find m1._statuses fid = some st1 := by
            by_cases hc : c.1.filter_id = fid
            · have := merge_stopped ops env m c.1 c.2.1 c.2.2 st1 (hc ▸ hs) hstop
              rw [this] at hstep
              simp only [Option.some.injEq, Prod.mk.injEq] at hstep
              rw [← hstep.1]
              exact hs
            · rw [(merge_frame ops env m m1 c.1 c.2.1 c.2.2 out hstep).2 fid
                (fun h => hc h.symm)]
              exact hs
          obtain ⟨hl3, hs3, hi3⟩ := (ih m1 hs1).1 m3 outs3 hrest
          refine ⟨by simp [hl3], hs3, ?_⟩
          intro i h1 h2 hfid
          cases i with
          | zero =>
            have hc : c.1.filter_id = fid := by simpa using hfid
            have := merge_stopped ops env m c.1 c.2.1 c.2.2 st1 (hc ▸ hs) hstop
            rw [this] at hstep
            simp only [Option.some.injEq, Prod.mk.injEq] at hstep
            simpa using hstep.2.symm
          | succ j =>
            exact hi3 j (by simpa using h1) (by simpa using h2) (by simpa using hfid)
    · intro hall
      have hc : c.1.filter_id = fid := hall c (List.mem_cons_self _ _)
      have hstep := merge_stopped ops env m c.1 c.2.1 c.2.2 st1 (hc ▸ hs) hstop
      obtain ⟨m2, outs, hm2⟩ := (ih m hs).2 (fun c' hc' => hall c' (List.mem_cons_of_mem _ hc'))
      exact ⟨m2, none :: outs, by simp [merge_all, hstep, hm2]⟩

/-- Claim C4. When a partial filter takes the cumulative size of a filter id over
`max_size`, that call sets `stop` and sends nothing.  Afterwards every sequence of
`merge_runtime_filter` calls for the filter id, from whatever senders, returns; and
every sequence of calls on the merger that returns, for this or for other filter
ids, leaves the status of the filter id as it is (so `stop` stays set), and none of
its calls for the filter id calls `_send_total_runtime_filter`.  (A call for another
filter id has no defined result when it enters the distribution of that filter id
a second time.) -/
theorem C4_stop_is_terminal {F : Type} (ops : FilterOps F) (env : ExecEnv)
    (m : RuntimeFilterMerger F) (params : PTransmitRuntimeFilterParams) (now send_now : Int)
    (st : RuntimeFilterMergerStatus F) (tn : List TRuntimeFilterProberParams) (rf : F)
    (ht : map_find m._targets params.filter_id = some tn) (htn : tn ≠ [])
    (hs : map_find m._statuses params.filter_id = some st)
    (hnew : params.build_be_number ∉ st.arrives) (hstop : st.stop = false)
    (hd : ops.deserialize_runtime_filter params.data = some rf)
    (hover : st.current_size + ops.size rf > st.max_size) :
    ∃ m1 st1,
      RuntimeFilterMerger.merge_runtime_filter ops env m params now send_now = some (m1, none) ∧
      map_find m1._statuses params.filter_id = some st1 ∧ st1.stop = true ∧
      ∀ calls : List (PTransmitRuntimeFilterParams × Int × Int),
        ((∀ c ∈ calls, c.1.filter_id = params.filter_id) →
          ∃ m2 outs, merge_all ops env m1 calls = some (m2, outs)) ∧
        ∀ m2 outs, merge_all ops env m1 calls = some (m2, outs) →
          outs.length = calls.length ∧
          map_find m2._statuses params.filter_id = some st1 ∧
          ∀ i (h1 : i < calls.length) (h2 : i < outs.length),
            (calls[i]).1.filter_id = params.filter_id → outs[i] = none := by
  have hlen : tn.length ≠ 0 := fun h => htn (List.length_eq_zero.mp h)
  let st1 : RuntimeFilterMergerStatus F :=
    { arrives := st.arrives, expect_number := st.expect_number, filters := st.filters,
      current_size := st.current_size + ops.size rf, max_size := st.max_size, stop := true,
      recv_first_filter_ts :=
        if st.recv_first_filter_ts = 0 then now else st.recv_first_filter_ts,
      recv_last_filter_ts := now, broadcast_filter_ts := st.broadcast_filter_ts,
      pool_cleared := st.pool_cleared }
  have hs1 : map_find (map_set params.filter_id st1 m._statuses) params.filter_id = some st1 := by
    simp [map_find_map_set, hs]
  refine ⟨{ m with _statuses := map_set params.filter_id st1 m._statuses }, st1, ?_, hs1, rfl, ?_⟩
  · simp only [RuntimeFilterMerger.merge_runtime_filter, ht, hs, hlen, hnew, hstop, hd, hover,
      if_true, if_false, Bool.false_eq_true]
  · intro calls
    have h := merge_all_stopped ops env params.filter_id st1 rfl calls
      { m with _statuses := map_set params.filter_id st1 m._statuses } hs1
    exact ⟨h.2, h.1⟩

/-- Claim C4 (witness). A budget of 500 bytes with 400 bytes collected: the 200 bytes
of sender 2 set `stop`. -/
theorem C4_stop_is_terminal_witness :
    ∃ m1 st1,
      RuntimeFilterMerger.merge_runtime_filter example_ops example_env
        (example_merger_with (example_status 2 400 500)) (example_call 2 [200]).1 20 21 =
        some (m1, none) ∧
      map_find m1._statuses (example_call 2 [200]).1.filter_id = some st1 ∧ st1.stop = true ∧
      ∀ calls : List (PTransmitRuntimeFilterParams × Int × Int),
        ((∀ c ∈ calls, c.1.filter_id = (example_call 2 [200]).1.filter_id) →
          ∃ m2 outs, merge_all example_ops example_env m1 calls = some (m2, outs)) ∧
        ∀ m2 outs, merge_all example_ops example_env m1 calls = some (m2, outs) →
          outs.length = calls.length ∧
          map_find m2._statuses (example_call 2 [200]).1.filter_id = some st1 ∧
          ∀ i (h1 : i < calls.length) (h2 : i < outs.length),
            (calls[i]).1.filter_id = (example_call 2 [200]).1.filter_id → outs[i] = none :=
  C4_stop_is_terminal example_ops example_env (example_merger_with (example_status 2 400 500))
    (example_call 2 [200]).1 20 21 (example_status 2 400 500) [example_prober "be1" 1] [200]
    rfl (by decide) rfl (by decide) rfl rfl (by decide)


/-! ## The relay tree -/

theorem drop_eq_block {α : Type} (l : List α) (i half : Nat) (h : i < l.length) :
    l.drop i = l[i] :: ((l.drop (i + 1)).take half ++ l.drop (i + (1 + half))) := by
  rw [List.drop_eq_getElem_cons h]
  congr 1
  have : l.drop (i + (1 + half)) = (l.drop (i + 1)).drop half := by
    rw [List.drop_drop]; congr 1; omega
  rw [this, List.take_append_drop]

theorem relay_fuel_append (a b : List Event) :
    relay_fuel (a ++ b) = relay_fuel a + relay_fuel b := by
  induction a with
  | nil => simp [relay_fuel]
  | cons e rest ih =>
    cases e with
    | send_rpc addr t r => simp [relay_fuel, ih]; omega
    | join n => simp [relay_fuel, ih]; omega
    | deliver r => simp [relay_fuel, ih]; omega

/-- The RPCs of the forward loop are responsible for the forward targets from
`index` on, block after block in list order. -/
theorem forward_loop_targets (timeout_ms : Int)
    (targets : List PTransmitRuntimeFilterForwardTarget) :
    ∀ (n index : Nat) (request : PTransmitRuntimeFilterParams), targets.length - index = n →
      (forward_loop timeout_ms request targets index).flatMap rpc_targets =
        (targets.drop index).map forward_target_pair := by
  intro n
  induction n using Nat.strong_induction_on with
  | _ n ih =>
    intro index request hn
    rw [forward_loop]
    by_cases h : index < targets.length
    · simp only [h, dite_true, List.flatMap_cons, rpc_targets]
      rw [ih (targets.length - (index + (1 + (targets.length - index) / 2))) (by omega) _ _ rfl]
      rw [drop_eq_block targets index ((targets.length - index) / 2) h]
      simp [forward_target_pair]
    · simp only [h, dite_false]
      rw [List.drop_eq_nil_of_le (by omega)]
      rfl

theorem forward_loop_fuel (timeout_ms : Int)
    (targets : List PTransmitRuntimeFilterForwardTarget) :
    ∀ (n index : Nat) (request : PTransmitRuntimeFilterParams), targets.length - index = n →
      relay_fuel (forward_loop timeout_ms request targets index) = targets.length - index := by
  intro n
  induction n using Nat.strong_induction_on with
  | _ n ih =>
    intro index request hn
    rw [forward_loop]
    by_cases h : index < targets.length
    · simp only [h, dite_true, relay_fuel]
      rw [ih (targets.length - (index + (1 + (targets.length - index) / 2))) (by omega) _ _ rfl]
      simp only [List.length_take, List.length_drop]
      omega
    · simp only [h, dite_false, relay_fuel]
      omega

/-- With enough fuel the relay tree under a work list reaches exactly the targets
its RPCs are responsible for. -/
theorem relay_deliveries_eq (timeout_ms : Int) :
    ∀ (fuel : Nat) (rpcs : List Event), relay_fuel rpcs ≤ fuel →
      relay_deliveries timeout_ms fuel rpcs = some (rpcs.flatMap rpc_targets) := by
  intro fuel
  induction fuel with
  | zero =>
    intro rpcs h
    cases rpcs with
    | nil => rfl
    | cons e rest =>
      cases e <;> simp [relay_fuel] at h
  | succ f ih =>
    intro rpcs h
    cases rpcs with
    | nil => rfl
    | cons e rest =>
      cases e with
      | send_rpc addr t request =>
        simp only [relay_fuel] at h
        simp only [relay_deliveries]
        rw [ih _ (by
          rw [relay_fuel_append, forward_loop_fuel timeout_ms _ _ 0 request rfl]
          omega)]
        simp [rpc_targets, forward_loop_targets timeout_ms _ _ 0 request rfl]
      | join n =>
        simp only [relay_fuel] at h
        simp only [relay_deliveries]
        rw [ih rest (by omega)]
        simp [rpc_targets]
      | deliver r =>
        simp only [relay_fuel] at h
        simp only [relay_deliveries]
        rw [ih rest (by omega)]
        simp [rpc_targets]


/-- The address and the `probe_finst_ids` under which a target of the merger is
reached. -/
theorem forward_target_pair_to_forward_target (ft : TNetworkAddress × List TUniqueId) :
    forward_target_pair (to_forward_target ft) = (ft.1, ft.2.map to_pb) := by
  simp [forward_target_pair, to_forward_target]

theorem send_total_loop_targets (loc : TNetworkAddress) (timeout_ms : Int)
    (targets : List (TNetworkAddress × List TUniqueId)) :
    ∀ (n index : Nat) (request : PTransmitRuntimeFilterParams), targets.length - index = n →
      (send_total_loop loc timeout_ms request targets index).flatMap rpc_targets =
        (targets.drop index).map (fun t => (t.1, t.2.map to_pb)) := by
  intro n
  induction n using Nat.strong_induction_on with
  | _ n ih =>
    intro index request hn
    rw [send_total_loop]
    by_cases h : index < targets.length
    · simp only [h, dite_true, List.flatMap_cons, rpc_targets]
      by_cases hl : loc = (targets[index]).1
      · have hd : decide (loc = (targets[index]).1) = true := decide_eq_true hl
        simp only [hd, if_true]
        rw [ih (targets.length - (index + (1 + 0))) (by omega) _ _ rfl]
        rw [drop_eq_block targets index 0 h]
        simp only [List.take_zero, List.map_nil, List.nil_append, List.map_cons]
        rfl
      · have hd : decide (loc = (targets[index]).1) = false := decide_eq_false hl
        have hcomp : (forward_target_pair ∘ to_forward_target) =
            fun t : TNetworkAddress × List TUniqueId => (t.1, t.2.map to_pb) :=
          funext forward_target_pair_to_forward_target
        simp only [hd, if_false, Bool.false_eq_true]
        rw [ih (targets.length - (index + (1 + (targets.length - index) / 2))) (by omega) _ _ rfl]
        rw [drop_eq_block targets index ((targets.length - index) / 2) h]
        simp [hcomp]
    · simp only [h, dite_false]
      rw [List.drop_eq_nil_of_le (by omega)]
      rfl

theorem send_total_loop_fuel (loc : TNetworkAddress) (timeout_ms : Int)
    (targets : List (TNetworkAddress × List TUniqueId)) :
    ∀ (n index : Nat) (request : PTransmitRuntimeFilterParams), targets.length - index = n →
      relay_fuel (send_total_loop loc timeout_ms request targets index) =
        targets.length - index := by
  intro n
  induction n using Nat.strong_induction_on with
  | _ n ih =>
    intro index request hn
    rw [send_total_loop]
    by_cases h : index < targets.length
    · simp only [h, dite_true, relay_fuel]
      by_cases hl : loc = (targets[index]).1
      · have hd : decide (loc = (targets[index]).1) = true := decide_eq_true hl
        simp only [hd, if_true]
        rw [ih (targets.length - (index + (1 + 0))) (by omega) _ _ rfl]
        simp only [List.length_map, List.length_take, List.length_drop]
        omega
      · have hd : decide (loc = (targets[index]).1) = false := decide_eq_false hl
        simp only [hd, if_false, Bool.false_eq_true]
        rw [ih (targets.length - (index + (1 + (targets.length - index) / 2))) (by omega) _ _ rfl]
        simp only [List.length_map, List.length_take, List.length_drop]
        omega
    · simp only [h, dite_false, relay_fuel]
      omega

theorem map_find_eq_none_iff {K V : Type} [DecidableEq K] (m : List (K × V)) (k : K) :
    map_find m k = none ↔ k ∉ m.map Prod.fst := by
  induction m with
  | nil => simp [map_find]
  | cons p rest ih =>
    obtain ⟨k1, v1⟩ := p
    by_cases h : k1 = k
    · simp [map_find, h]
    · have h2 : ¬ k = k1 := fun e => h e.symm
      simp [map_find, h, h2, ih]

theorem map_find_some_mem {K V : Type} [DecidableEq K] (m : List (K × V)) (k : K) (v : V)
    (h : map_find m k = some v) : (k, v) ∈ m := by
  induction m with
  | nil => simp [map_find] at h
  | cons p rest ih =>
    obtain ⟨k1, v1⟩ := p
    by_cases hk : k1 = k
    · simp [map_find, hk] at h
      simp [hk, h]
    · simp [map_find, hk] at h
      exact List.mem_cons_of_mem _ (ih h)

theorem map_find_of_mem_nodup {K V : Type} [DecidableEq K] (m : List (K × V)) (k : K) (v : V)
    (hnd : (m.map Prod.fst).Nodup) (h : (k, v) ∈ m) : map_find m k = some v := by
  induction m with
  | nil => simp at h
  | cons p rest ih =>
    obtain ⟨k1, v1⟩ := p
    simp only [List.map_cons, List.nodup_cons] at hnd
    rcases List.mem_cons.mp h with h1 | h1
    · simp only [Prod.mk.injEq] at h1
      simp [map_find, h1.1, h1.2]
    · have hk : ¬ k1 = k := by
        intro e
        apply hnd.1
        rw [e]
        exact List.mem_map.mpr ⟨(k, v), h1, rfl⟩
      simp [map_find, hk, ih hnd.2 h1]

theorem keys_map_set {K V : Type} [DecidableEq K] (m : List (K × V)) (k : K) (v : V) :
    (map_set k v m).map Prod.fst = m.map Prod.fst := by
  induction m with
  | nil => rfl
  | cons p rest ih =>
    obtain ⟨k1, v1⟩ := p
    by_cases h : k1 = k
    · simp [map_set, h]
    · simp [map_set, h, ih]

theorem keys_ordered_insert_perm {K V : Type} [LT K] [DecidableRel (α := K) (· < ·)]
    (m : List (K × V)) (k : K) (v : V) :
    ((ordered_insert k v m).map Prod.fst).Perm (k :: m.map Prod.fst) := by
  induction m with
  | nil => simp [ordered_insert]
  | cons p rest ih =>
    obtain ⟨k1, v1⟩ := p
    by_cases h : k < k1
    · simp [ordered_insert, h]
    · simp only [ordered_insert, h, if_false, List.map_cons]
      exact (List.Perm.cons k1 ih).trans (List.Perm.swap k k1 _)

theorem nodup_keys_map_insert {K V : Type} [DecidableEq K] [LT K]
    [DecidableRel (α := K) (· < ·)] (m : List (K × V)) (k : K) (v : V)
    (hnd : (m.map Prod.fst).Nodup) : ((map_insert k v m).map Prod.fst).Nodup := by
  unfold map_insert
  cases hk : map_find m k with
  | some v0 => exact hnd
  | none =>
    refine (keys_ordered_insert_perm m k v).nodup_iff.mpr ?_
    exact List.nodup_cons.mpr ⟨(map_find_eq_none_iff m k).mp hk, hnd⟩

theorem nodup_keys_add_target_node (nodes : List (TNetworkAddress × List TUniqueId))
    (node : TRuntimeFilterProberParams) (hnd : (nodes.map Prod.fst).Nodup) :
    ((add_target_node nodes node).map Prod.fst).Nodup := by
  simp only [add_target_node]
  cases h1 : map_find nodes node.fragment_instance_address with
  | some ids =>
    simp only [h1, keys_map_set]
    exact hnd
  | none =>
    simp only [h1]
    cases h2 : map_find (map_insert node.fragment_instance_address [] nodes)
        node.fragment_instance_address with
    | some ids =>
      simp only [h2, keys_map_set]
      exact nodup_keys_map_insert _ _ _ hnd
    | none =>
      simp only [h2]
      exact nodup_keys_map_insert _ _ _ hnd

theorem nodup_keys_nodes_to_frag_insts (target_nodes : List TRuntimeFilterProberParams) :
    ((nodes_to_frag_insts target_nodes).map Prod.fst).Nodup := by
  unfold nodes_to_frag_insts
  have hgen : ∀ (l : List TRuntimeFilterProberParams)
      (acc : List (TNetworkAddress × List TUniqueId)),
      (acc.map Prod.fst).Nodup → ((l.foldl add_target_node acc).map Prod.fst).Nodup := by
    intro l
    induction l with
    | nil => intro acc h; exact h
    | cons x rest ih =>
      intro acc h
      exact ih _ (nodup_keys_add_target_node acc x h)
  exact hgen target_nodes [] List.nodup_nil

theorem nodup_keys_local_first (loc : TNetworkAddress)
    (nodes : List (TNetworkAddress × List TUniqueId)) (hnd : (nodes.map Prod.fst).Nodup) :
    ((local_first loc nodes).map Prod.fst).Nodup := by
  unfold local_first
  have hfilter : ((nodes.filter (fun it => decide (it.1 ≠ loc))).map Prod.fst).Nodup :=
    (List.Sublist.map Prod.fst (List.filter_sublist nodes)).nodup hnd
  cases h : map_find nodes loc with
  | none => simpa using hfilter
  | some ids =>
    simp only [List.singleton_append, List.map_cons]
    refine List.nodup_cons.mpr ⟨?_, hfilter⟩
    intro hmem
    obtain ⟨p, hp, hp1⟩ := List.mem_map.mp hmem
    have := (List.mem_filter.mp hp).2
    simp at this
    exact this hp1

/-- The events of `_send_total_runtime_filter`: the RPCs of its loop over the
coalesced targets, all carrying the serialized concatenation of the collected
filters, and the final join. -/
theorem send_total_events {F : Type} (ops : FilterOps F) (env : ExecEnv)
    (m : RuntimeFilterMerger F) (fid now : Int) (st : RuntimeFilterMergerStatus F)
    (tn : List TRuntimeFilterProberParams)
    (hs : map_find m._statuses fid = some st) (ht : map_find m._targets fid = some tn)
    (hf : st.filters ≠ []) (hp : st.pool_cleared = false) :
    ∃ timeout_ms request p rest,
      st.filters = p :: rest ∧
      request.data = ops.serialize_runtime_filter
        ((p :: rest).foldl (fun out it => ops.concat out it.2) (ops.create_empty p.2)) ∧
      RuntimeFilterMerger._send_total_runtime_filter ops env m fid now =
        some ({ m with _statuses :=
            (map_set fid { st with broadcast_filter_ts := now, pool_cleared := true }
              m._statuses) },
          send_total_loop { hostname := env.localhost, port := env.config.brpc_port } timeout_ms
              request
              (local_first { hostname := env.localhost, port := env.config.brpc_port }
                (nodes_to_frag_insts tn)) 0 ++
            [Event.join (send_total_loop
              { hostname := env.localhost, port := env.config.brpc_port } timeout_ms request
              (local_first { hostname := env.localhost, port := env.config.brpc_port }
                (nodes_to_frag_insts tn)) 0).length]) := by
  unfold RuntimeFilterMerger._send_total_runtime_filter
  obtain ⟨p, rest, hfl⟩ := List.exists_cons_of_ne_nil hf
  simp only [hs, ht, hfl, hp, Bool.false_eq_true, if_false]
  exact ⟨_, _, p, rest, rfl, rfl, rfl⟩

theorem filter_key_eq_singleton {K V : Type} [DecidableEq K] (l : List (K × V)) (t : K × V)
    (hnd : (l.map Prod.fst).Nodup) (ht : t ∈ l) :
    l.filter (fun d => decide (d.1 = t.1)) = [t] := by
  induction l with
  | nil => simp at ht
  | cons p rest ih =>
    simp only [List.map_cons, List.nodup_cons] at hnd
    rcases List.mem_cons.mp ht with h1 | h1
    · subst h1
      have : rest.filter (fun d => decide (d.1 = t.1)) = [] := by
        apply List.filter_eq_nil_iff.mpr
        intro d hd
        simp only [decide_eq_true_eq]
        intro e
        exact hnd.1 (e ▸ List.mem_map.mpr ⟨d, hd, rfl⟩)
      simp [List.filter_cons, this]
    · have hp : ¬ p.1 = t.1 := by
        intro e
        exact hnd.1 (e ▸ List.mem_map.mpr ⟨t, h1, rfl⟩)
      simp [List.filter_cons, hp, ih hnd.2 h1]

/-- Claim C5. When `_send_total_runtime_filter` sends a completed filter (the pool of
its status has not been cleared by an earlier distribution) to its `M` coalesced
targets and every node that receives an RPC runs the forward loop of
`_receive_total_runtime_filter` on the forward targets it is handed, the RPCs that
arrive are, up to order, the `M` targets with their own instance-id lists: the
target addresses are pairwise distinct, `M` RPCs arrive in all, and the RPCs
arriving at the address of a target are exactly one, carrying the instance ids of
that target unchanged. -/
theorem C5_relay_tree_reaches_each_target_once {F : Type} (ops : FilterOps F) (env : ExecEnv)
    (m : RuntimeFilterMerger F) (fid now : Int) (st : RuntimeFilterMergerStatus F)
    (tn : List TRuntimeFilterProberParams) (receiver_timeout_ms : Int) (fuel : Nat)
    (hs : map_find m._statuses fid = some st) (ht : map_find m._targets fid = some tn)
    (hf : st.filters ≠ []) (hp : st.pool_cleared = false)
    (hfuel : (local_first { hostname := env.localhost, port := env.config.brpc_port }
      (nodes_to_frag_insts tn)).length + 1 ≤ fuel) :
    ∃ m' evs ds,
      RuntimeFilterMerger._send_total_runtime_filter ops env m fid now = some (m', evs) ∧
      relay_deliveries receiver_timeout_ms fuel evs = some ds ∧
      ds.Perm ((local_first { hostname := env.localhost, port := env.config.brpc_port }
        (nodes_to_frag_insts tn)).map (fun t => (t.1, t.2.map to_pb))) ∧
      ds.length = (local_first { hostname := env.localhost, port := env.config.brpc_port }
        (nodes_to_frag_insts tn)).length ∧
      ((local_first { hostname := env.localhost, port := env.config.brpc_port }
        (nodes_to_frag_insts tn)).map Prod.fst).Nodup ∧
      ∀ t ∈ local_first { hostname := env.localhost, port := env.config.brpc_port }
          (nodes_to_frag_insts tn),
        ds.filter (fun d => decide (d.1 = t.1)) = [(t.1, t.2.map to_pb)] := by
  obtain ⟨timeout_ms, request, _, _, _, _, hsend⟩ :=
    send_total_events ops env m fid now st tn hs ht hf hp
  have hnd := nodup_keys_local_first { hostname := env.localhost, port := env.config.brpc_port }
    _ (nodup_keys_nodes_to_frag_insts tn)
  generalize local_first { hostname := env.localhost, port := env.config.brpc_port }
    (nodes_to_frag_insts tn) = targets at hsend hnd hfuel ⊢
  have htargets := send_total_loop_targets
    { hostname := env.localhost, port := env.config.brpc_port } timeout_ms targets _ 0 request rfl
  have hneed := send_total_loop_fuel
    { hostname := env.localhost, port := env.config.brpc_port } timeout_ms targets _ 0 request rfl
  have hrelay := relay_deliveries_eq receiver_timeout_ms fuel
    (send_total_loop { hostname := env.localhost, port := env.config.brpc_port } timeout_ms
      request targets 0 ++ [Event.join (send_total_loop
        { hostname := env.localhost, port := env.config.brpc_port } timeout_ms request
        targets 0).length])
    (by rw [relay_fuel_append, hneed]; simp [relay_fuel]; omega)
  rw [List.flatMap_append, htargets] at hrelay
  simp only [List.drop_zero, List.flatMap_cons, rpc_targets, List.flatMap_nil,
    List.append_nil] at hrelay
  refine ⟨_, _, _, hsend, hrelay, List.Perm.refl _, by simp, hnd, ?_⟩
  intro t htm
  have hnd2 : ((targets.map (fun t => (t.1, t.2.map to_pb))).map Prod.fst).Nodup := by
    simpa [List.map_map, Function.comp_def] using hnd
  have := filter_key_eq_singleton (targets.map (fun t => (t.1, t.2.map to_pb)))
    (t.1, t.2.map to_pb) hnd2 (List.mem_map.mpr ⟨t, htm, rfl⟩)
  simpa using this

/-- Claim C5 (witness). Six prober targets on five nodes (`be1` holds the instances 1
and 3): the merger sends to `be1`, which is handed `be2` and `be3`, and to `be4`,
which is handed `be5`; `be1` sends to `be2`, which is handed `be3`. -/
theorem C5_relay_tree_reaches_each_target_once_witness :
    ∃ m' evs ds,
      RuntimeFilterMerger._send_total_runtime_filter example_ops example_env
        (example_merger_on
          [example_prober "be1" 1, example_prober "be2" 2, example_prober "be1" 3,
          example_prober "be3" 4, example_prober "be4" 5, example_prober "be5" 6]
          (example_status 1 300 1000)) 7 11 = some (m', evs) ∧
      relay_deliveries 400 6 evs = some ds ∧
      ds.Perm ((local_first
        { hostname := example_env.localhost, port := example_env.config.brpc_port }
        (nodes_to_frag_insts
          [example_prober "be1" 1, example_prober "be2" 2, example_prober "be1" 3,
          example_prober "be3" 4, example_prober "be4" 5, example_prober "be5" 6])).map
        (fun t => (t.1, t.2.map to_pb))) ∧
      ds.length = (local_first
        { hostname := example_env.localhost, port := example_env.config.brpc_port }
        (nodes_to_frag_insts
          [example_prober "be1" 1, example_prober "be2" 2, example_prober "be1" 3,
          example_prober "be3" 4, example_prober "be4" 5, example_prober "be5" 6])).length ∧
      ((local_first { hostname := example_env.localhost, port := example_env.config.brpc_port }
        (nodes_to_frag_insts
          [example_prober "be1" 1, example_prober "be2" 2, example_prober "be1" 3,
          example_prober "be3" 4, example_prober "be4" 5, example_prober "be5" 6])).map
        Prod.fst).Nodup ∧
      ∀ t ∈ local_first
          { hostname := example_env.localhost, port := example_env.config.brpc_port }
          (nodes_to_frag_insts
            [example_prober "be1" 1, example_prober "be2" 2, example_prober "be1" 3,
          example_prober "be3" 4, example_prober "be4" 5, example_prober "be5" 6]),
        ds.filter (fun d => decide (d.1 = t.1)) = [(t.1, t.2.map to_pb)] :=
  C5_relay_tree_reaches_each_target_once example_ops example_env
    (example_merger_on
      [example_prober "be1" 1, example_prober "be2" 2, example_prober "be1" 3,
          example_prober "be3" 4, example_prober "be4" 5, example_prober "be5" 6]
      (example_status 1 300 1000)) 7 11 (example_status 1 300 1000)
    [example_prober "be1" 1, example_prober "be2" 2, example_prober "be1" 3,
          example_prober "be3" 4, example_prober "be4" 5, example_prober "be5" 6]
    400 6 rfl rfl (by decide) rfl
    (by simp [local_first, nodes_to_frag_insts, add_target_node, map_find, map_insert,
      ordered_insert, map_set, example_prober, example_env])


/-! ## The local target of the merger -/

theorem map_find_add_target_node (nodes : List (TNetworkAddress × List TUniqueId))
    (node : TRuntimeFilterProberParams) (a : TNetworkAddress) :
    map_find (add_target_node nodes node) a =
      if a = node.fragment_instance_address then
        some ((map_find nodes a).getD [] ++ [node.fragment_instance_id])
      else map_find nodes a := by
  simp only [add_target_node]
  cases h1 : map_find nodes node.fragment_instance_address with
  | some ids =>
    simp only [h1, map_find_map_set]
    by_cases ha : a = node.fragment_instance_address
    · subst ha; simp [h1]
    · simp [ha]
  | none =>
    have h2 : map_find (map_insert node.fragment_instance_address [] nodes)
        node.fragment_instance_address = some [] := by
      rw [map_find_map_insert]; simp [h1]
    simp only [h1, h2, map_find_map_set]
    by_cases ha : a = node.fragment_instance_address
    · subst ha; simp [h1]
    · have ha2 : ¬ node.fragment_instance_address = a := fun e => ha e.symm
      simp [ha, map_find_map_insert, ha2]

theorem map_find_foldl_add_target_node (l : List TRuntimeFilterProberParams)
    (a : TNetworkAddress) :
    ∀ acc : List (TNetworkAddress × List TUniqueId),
      map_find (l.foldl add_target_node acc) a =
        if l.filter (fun node => decide (node.fragment_instance_address = a)) = [] then
          map_find acc a
        else some ((map_find acc a).getD [] ++
          (l.filter (fun node => decide (node.fragment_instance_address = a))).map
            (fun node => node.fragment_instance_id)) := by
  induction l with
  | nil => intro acc; simp
  | cons x rest ih =>
    intro acc
    simp only [List.foldl_cons]
    rw [ih, map_find_add_target_node]
    by_cases hx : x.fragment_instance_address = a
    · have hx2 : a = x.fragment_instance_address := hx.symm
      simp only [hx2, List.filter_cons, decide_True, if_true]
      by_cases hr : rest.filter
          (fun node => decide (node.fragment_instance_address = x.fragment_instance_address)) = []
      · simp [hr]
      · simp [hr]
    · have hx2 : ¬ a = x.fragment_instance_address := fun e => hx e.symm
      simp [hx, hx2, List.filter_cons]

/-- The entry of an address in `nodes_to_frag_insts`: the instance ids of the
prober targets at that address, in the order of the target list. -/
theorem map_find_nodes_to_frag_insts (tn : List TRuntimeFilterProberParams)
    (a : TNetworkAddress) :
    map_find (nodes_to_frag_insts tn) a =
      if tn.filter (fun node => decide (node.fragment_instance_address = a)) = [] then none
      else some ((tn.filter (fun node => decide (node.fragment_instance_address = a))).map
        (fun node => node.fragment_instance_id)) := by
  unfold nodes_to_frag_insts
  rw [map_find_foldl_add_target_node]
  simp [map_find]

/-- The loop of `_send_total_runtime_filter` produces RPCs only. -/
theorem send_total_loop_only_rpcs (loc : TNetworkAddress) (timeout_ms : Int)
    (targets : List (TNetworkAddress × List TUniqueId)) :
    ∀ (n index : Nat) (request : PTransmitRuntimeFilterParams), targets.length - index = n →
      ∀ e ∈ send_total_loop loc timeout_ms request targets index,
        ∃ addr t r, e = Event.send_rpc addr t r := by
  intro n
  induction n using Nat.strong_induction_on with
  | _ n ih =>
    intro index request hn e he
    rw [send_total_loop] at he
    by_cases h : index < targets.length
    · simp only [h, dite_true, List.mem_cons] at he
      rcases he with he | he
      · exact ⟨_, _, _, he⟩
      · refine ih (targets.length - (index + (1 + (if decide (loc = (targets[index]).1) = true
          then 0 else (targets.length - index) / 2)))) ?_ _ _ rfl e he
        split <;> omega
    · simp [h] at he

/-- Claim C7 (counterexample). A merger on `be0:8060` whose only prober target is on
`be0:8060` itself distributes the completed filter by one RPC through the stub of its
own address; nothing is delivered in-process. -/
theorem C7_local_target_is_sent_an_rpc :
    (RuntimeFilterMerger._send_total_runtime_filter example_ops example_env
        (example_merger_on [example_prober "be0" 1] (example_status 1 300 1000)) 7 11).map
      (fun r => r.2.map (fun e =>
        match e with
        | Event.send_rpc addr _ request => some (addr, request.probe_finst_ids)
        | _ => none)) =
      some [some ({ hostname := example_env.localhost, port := example_env.config.brpc_port },
              [{ hi := 0, lo := 1 }]), none] := by
  simp [RuntimeFilterMerger._send_total_runtime_filter, example_merger_on, example_status,
    example_ops, example_env, example_prober, map_find, map_insert, ordered_insert, map_set,
    send_total_loop, nodes_to_frag_insts, add_target_node, local_first, to_pb]

/-- Claim C7 (amended). When `_send_total_runtime_filter` distributes a completed
filter (the pool of its status has not been cleared by an earlier distribution) and
some prober target is at this node's own address, the first event is an
RPC through the stub of the local address, carrying the instance ids of the local
prober targets and no forward target; no event is an in-process delivery; and every
later RPC, and every forward target of a later RPC, is for another address. -/
theorem C7_local_target_first_by_rpc {F : Type} (ops : FilterOps F) (env : ExecEnv)
    (m : RuntimeFilterMerger F) (fid now : Int) (st : RuntimeFilterMergerStatus F)
    (tn : List TRuntimeFilterProberParams)
    (hs : map_find m._statuses fid = some st) (ht : map_find m._targets fid = some tn)
    (hf : st.filters ≠ []) (hp : st.pool_cleared = false)
    (hloc : ∃ node ∈ tn, node.fragment_instance_address =
      { hostname := env.localhost, port := env.config.brpc_port }) :
    ∃ m' timeout_ms request rest,
      RuntimeFilterMerger._send_total_runtime_filter ops env m fid now =
        some (m', Event.send_rpc { hostname := env.localhost, port := env.config.brpc_port }
          timeout_ms request :: rest) ∧
      request.probe_finst_ids =
        ((tn.filter (fun node => decide (node.fragment_instance_address =
          { hostname := env.localhost, port := env.config.brpc_port }))).map
          (fun node => node.fragment_instance_id)).map to_pb ∧
      request.forward_targets = [] ∧
      (∀ r, Event.deliver r ∉ Event.send_rpc
        { hostname := env.localhost, port := env.config.brpc_port } timeout_ms request :: rest) ∧
      ∀ addr t r, Event.send_rpc addr t r ∈ rest →
        addr ≠ { hostname := env.localhost, port := env.config.brpc_port } ∧
        ∀ ft ∈ r.forward_targets, ({ hostname := ft.host, port := ft.port } : TNetworkAddress) ≠
          { hostname := env.localhost, port := env.config.brpc_port } := by
  obtain ⟨timeout_ms, request, _, _, _, _, hsend⟩ :=
    send_total_events ops env m fid now st tn hs ht hf hp
  generalize hlocdef : ({ hostname := env.localhost, port := env.config.brpc_port } :
    TNetworkAddress) = loc at hsend hloc ⊢
  have hfilt : tn.filter (fun node => decide (node.fragment_instance_address = loc)) ≠ [] := by
    obtain ⟨node, hn, hna⟩ := hloc
    intro h
    have hmem : node ∈ tn.filter (fun node => decide (node.fragment_instance_address = loc)) :=
      List.mem_filter.mpr ⟨hn, by simp [hna]⟩
    rw [h] at hmem
    simp at hmem
  have hfind := map_find_nodes_to_frag_insts tn loc
  simp only [hfilt, if_false] at hfind
  have htargets : local_first loc (nodes_to_frag_insts tn) =
      (loc, (tn.filter (fun node => decide (node.fragment_instance_address = loc))).map
        (fun node => node.fragment_instance_id)) ::
        (nodes_to_frag_insts tn).filter (fun it => decide (it.1 ≠ loc)) := by
    simp [local_first, hfind]
  rw [htargets] at hsend
  generalize hothers : (nodes_to_frag_insts tn).filter (fun it => decide (it.1 ≠ loc)) = others
    at hsend
  have hoth : ∀ p ∈ others, p.1 ≠ loc := by
    intro p hp
    rw [← hothers] at hp
    simpa using (List.mem_filter.mp hp).2
  generalize hids : (tn.filter (fun node => decide (node.fragment_instance_address = loc))).map
    (fun node => node.fragment_instance_id) = ids at hsend ⊢
  rw [send_total_loop] at hsend
  simp only [List.length_cons, Nat.zero_lt_succ, dite_true, List.getElem_cons_zero,
    decide_True, if_true, List.take_zero, List.map_nil, List.cons_append] at hsend
  have hrest := send_total_loop_targets loc timeout_ms ((loc, ids) :: others) _ (0 + (1 + 0))
    { request with probe_finst_ids := ids.map to_pb, forward_targets := [] } rfl
  simp only [Nat.zero_add, Nat.add_zero, List.drop_succ_cons, List.drop_zero] at hrest
  refine ⟨_, timeout_ms, _, _, hsend, rfl, rfl, ?_, ?_⟩
  · intro r hr
    rcases List.mem_cons.mp hr with hr | hr
    · cases hr
    · rcases List.mem_append.mp hr with hr | hr
      · obtain ⟨a, t, r', he⟩ := send_total_loop_only_rpcs loc timeout_ms _ _ _ _ rfl _ hr
        cases he
      · simp at hr
  · intro addr t r hr
    rcases List.mem_append.mp hr with hr | hr
    · have hsub : ∀ p ∈ rpc_targets (Event.send_rpc addr t r), p.1 ≠ loc := by
        intro p hp
        have hp2 : p ∈ others.map (fun t => (t.1, t.2.map to_pb)) := by
          rw [← hrest]
          exact List.mem_flatMap.mpr ⟨_, hr, hp⟩
        obtain ⟨q, hq, hqp⟩ := List.mem_map.mp hp2
        rw [← hqp]
        exact hoth q hq
      refine ⟨hsub (addr, r.probe_finst_ids) (by simp [rpc_targets]), ?_⟩
      intro ft hft
      exact hsub (forward_target_pair ft) (by
        simp only [rpc_targets, List.mem_cons, List.mem_map]
        exact Or.inr ⟨ft, hft, rfl⟩)
    · simp at hr

theorem C7_local_target_first_by_rpc_witness :
    ∃ m' timeout_ms request rest,
      RuntimeFilterMerger._send_total_runtime_filter example_ops example_env
        (example_merger_on [example_prober "be0" 1, example_prober "be1" 2]
          (example_status 1 300 1000)) 7 11 =
        some (m', Event.send_rpc
          { hostname := example_env.localhost, port := example_env.config.brpc_port }
          timeout_ms request :: rest) ∧
      request.probe_finst_ids =
        (([example_prober "be0" 1, example_prober "be1" 2].filter
          (fun node => decide (node.fragment_instance_address =
            { hostname := example_env.localhost, port := example_env.config.brpc_port }))).map
          (fun node => node.fragment_instance_id)).map to_pb ∧
      request.forward_targets = [] ∧
      (∀ r, Event.deliver r ∉ Event.send_rpc
        { hostname := example_env.localhost, port := example_env.config.brpc_port }
        timeout_ms request :: rest) ∧
      ∀ addr t r, Event.send_rpc addr t r ∈ rest →
        addr ≠ { hostname := example_env.localhost, port := example_env.config.brpc_port } ∧
        ∀ ft ∈ r.forward_targets, ({ hostname := ft.host, port := ft.port } : TNetworkAddress) ≠
          { hostname := example_env.localhost, port := example_env.config.brpc_port } :=
  C7_local_target_first_by_rpc example_ops example_env
    (example_merger_on [example_prober "be0" 1, example_prober "be1" 2]
      (example_status 1 300 1000)) 7 11 (example_status 1 300 1000)
    [example_prober "be0" 1, example_prober "be1" 2] rfl rfl (by decide) rfl
    ⟨example_prober "be0" 1, by decide, rfl⟩


/-! ## Passthrough delivery in waves -/

theorem in_flight_append (a b : List Event) :
    in_flight (a ++ b) = b.foldl in_flight_step (in_flight a) := by
  simp [in_flight, List.foldl_append]

theorem in_flight_rpcs (params : PTransmitRuntimeFilterParams) (timeout_ms : Int)
    (w : List TRuntimeFilterDestination) :
    in_flight (w.map (passthrough_rpc params timeout_ms)) = w.length := by
  have hgen : ∀ (l : List TRuntimeFilterDestination) (c : Nat),
      (l.map (passthrough_rpc params timeout_ms)).foldl in_flight_step c = c + l.length := by
    intro l
    induction l with
    | nil => intro c; rfl
    | cons d rest ih =>
      intro c
      simp only [List.map_cons, List.foldl_cons, passthrough_rpc, in_flight_step, ih,
        List.length_cons]
      omega
  simpa [in_flight] using hgen w 0

/-- One wave: its RPCs followed by the join of the wave. -/
theorem in_flight_wave (params : PTransmitRuntimeFilterParams) (timeout_ms : Int)
    (w : List TRuntimeFilterDestination) :
    in_flight (w.map (passthrough_rpc params timeout_ms) ++ [Event.join w.length]) = 0 ∧
      ∀ j, in_flight ((w.map (passthrough_rpc params timeout_ms) ++
        [Event.join w.length]).take j) ≤ w.length := by
  constructor
  · rw [in_flight_append, in_flight_rpcs]
    simp [in_flight_step]
  · intro j
    by_cases hj : j ≤ w.length
    · rw [List.take_append_of_le_length (by simpa using hj), ← List.map_take, in_flight_rpcs]
      simp only [List.length_take]
      omega
    · rw [List.take_of_length_le (by simp; omega), in_flight_append, in_flight_rpcs]
      simp [in_flight_step]

/-- The events of a sequence of waves. -/
theorem in_flight_waves (params : PTransmitRuntimeFilterParams) (timeout_ms : Int) (K : Nat)
    (waves : List (List TRuntimeFilterDestination)) (hK : ∀ w ∈ waves, w.length ≤ K) :
    in_flight ((waves.map (fun w => w.map (passthrough_rpc params timeout_ms) ++
        [Event.join w.length])).flatten) = 0 ∧
      ∀ j, in_flight (((waves.map (fun w => w.map (passthrough_rpc params timeout_ms) ++
        [Event.join w.length])).flatten).take j) ≤ K := by
  induction waves with
  | nil => simp [in_flight]
  | cons w ws ih =>
    obtain ⟨h0, hj⟩ := ih (fun w' hw' => hK w' (List.mem_cons_of_mem _ hw'))
    obtain ⟨hw0, hwj⟩ := in_flight_wave params timeout_ms w
    have hwK : w.length ≤ K := hK w (List.mem_cons_self _ _)
    simp only [List.map_cons, List.flatten_cons]
    constructor
    · rw [in_flight_append, hw0]
      exact h0
    · intro j
      rw [List.take_append_eq_append_take]
      by_cases hjw : j ≤ (w.map (passthrough_rpc params timeout_ms) ++
          [Event.join w.length]).length
      · have : j - (w.map (passthrough_rpc params timeout_ms) ++
            [Event.join w.length]).length = 0 := by omega
        rw [this, List.take_zero, List.append_nil]
        exact le_trans (hwj j) hwK
      · rw [List.take_of_length_le (by omega), in_flight_append, hw0]
        exact hj _

/-- The passthrough loop with a positive in-flight number and enough fuel: the
destinations from `k` on are sent in waves. -/
theorem passthrough_loop_waves (K : Nat) (hK : 1 ≤ K) (params : PTransmitRuntimeFilterParams)
    (ds : List TRuntimeFilterDestination) (timeout_ms : Int) :
    ∀ (fuel k : Nat), ds.length - k ≤ fuel →
      ∃ waves : List (List TRuntimeFilterDestination),
        passthrough_loop K params ds timeout_ms fuel k =
          some ((waves.map (fun w => w.map (passthrough_rpc params timeout_ms) ++
            [Event.join w.length])).flatten) ∧
        waves.flatten = ds.drop k ∧
        ∀ i (h : i < waves.length),
          (waves[i]).length = min (ds.length - k - ((waves.take i).flatten).length) K := by
  intro fuel
  induction fuel with
  | zero =>
    intro k hk
    refine ⟨[], ?_, ?_, fun i h => absurd h (Nat.not_lt_zero i)⟩
    · have : ¬ k < ds.length := by omega
      simp [passthrough_loop, this]
    · simp [List.drop_eq_nil_of_le (show ds.length ≤ k by omega)]
  | succ f ih =>
    intro k hk
    by_cases hlt : k < ds.length
    · obtain ⟨ws, hws, hflat, hlen⟩ := ih (k + min (ds.length - k) K) (by omega)
      refine ⟨(ds.drop k).take (min (ds.length - k) K) :: ws, ?_, ?_, ?_⟩
      · simp [passthrough_loop, hlt, hws]
      · simp only [List.flatten_cons, hflat]
        rw [← List.drop_drop, List.take_append_drop]
      · intro i h
        cases i with
        | zero => simp
        | succ i' =>
          have hi' : i' < ws.length := by simpa using h
          simp only [List.getElem_cons_succ, List.take_succ_cons, List.flatten_cons,
            List.length_append, List.length_take, List.length_drop]
          rw [hlen i' hi']
          omega
    · refine ⟨[], ?_, ?_, fun i h => absurd h (Nat.not_lt_zero i)⟩
      · simp [passthrough_loop, hlt]
      · simp [List.drop_eq_nil_of_le (show ds.length ≤ k by omega)]

/-- Claim C8. With a configured in-flight number `K ≥ 1` (and fuel for at least as
many rounds as there are destinations) `_deliver_broadcast_runtime_filter_passthrough`
returns, and its events are a sequence of waves: the RPCs of a wave followed by the
join of exactly these RPCs, then the next wave.  The waves are consecutive blocks of
the destination list, wave `i` has `min(remaining, K)` RPCs, and after any number of
events at most `K` RPCs are in flight. -/
theorem C8_passthrough_waves_bounded (env : ExecEnv) (fuel : Nat)
    (params : PTransmitRuntimeFilterParams) (destinations : List TRuntimeFilterDestination)
    (timeout_ms : Int)
    (hK : 1 ≤ env.config.deliver_broadcast_rf_passthrough_inflight_num)
    (hfuel : destinations.length ≤ fuel) :
    ∃ (waves : List (List TRuntimeFilterDestination)) (events : List Event),
      RuntimeFilterWorker._deliver_broadcast_runtime_filter_passthrough env fuel params
        destinations timeout_ms = some events ∧
      events = (waves.map (fun w => w.map (passthrough_rpc params timeout_ms) ++
        [Event.join w.length])).flatten ∧
      waves.flatten = destinations ∧
      (∀ i (h : i < waves.length),
        (waves[i]).length =
          min (destinations.length - ((waves.take i).flatten).length)
            env.config.deliver_broadcast_rf_passthrough_inflight_num) ∧
      (∀ w ∈ waves, w.length ≤ env.config.deliver_broadcast_rf_passthrough_inflight_num) ∧
      ∀ j, in_flight (events.take j) ≤
        env.config.deliver_broadcast_rf_passthrough_inflight_num := by
  obtain ⟨waves, hev, hflat, hlen⟩ := passthrough_loop_waves
    env.config.deliver_broadcast_rf_passthrough_inflight_num hK params destinations timeout_ms
    fuel 0 (by omega)
  have hwK : ∀ w ∈ waves,
      w.length ≤ env.config.deliver_broadcast_rf_passthrough_inflight_num := by
    intro w hw
    obtain ⟨i, hi, hwi⟩ := List.mem_iff_getElem.mp hw
    rw [← hwi, hlen i hi]
    exact Nat.min_le_right _ _
  refine ⟨waves, _, hev, rfl, by simpa using hflat, ?_, hwK, ?_⟩
  · intro i h
    simpa using hlen i h
  · exact (in_flight_waves params timeout_ms _ waves hwK).2

theorem C8_passthrough_waves_bounded_witness :
    ∃ (waves : List (List TRuntimeFilterDestination)) (events : List Event),
      RuntimeFilterWorker._deliver_broadcast_runtime_filter_passthrough example_env 3
        { data := [1] }
        [example_destination "be1" 1, example_destination "be2" 2, example_destination "be3" 3]
        5 = some events ∧
      events = (waves.map (fun w => w.map (passthrough_rpc { data := [1] } 5) ++
        [Event.join w.length])).flatten ∧
      waves.flatten =
        [example_destination "be1" 1, example_destination "be2" 2, example_destination "be3" 3] ∧
      (∀ i (h : i < waves.length),
        (waves[i]).length =
          min ([example_destination "be1" 1, example_destination "be2" 2,
              example_destination "be3" 3].length - ((waves.take i).flatten).length)
            example_env.config.deliver_broadcast_rf_passthrough_inflight_num) ∧
      (∀ w ∈ waves,
        w.length ≤ example_env.config.deliver_broadcast_rf_passthrough_inflight_num) ∧
      ∀ j, in_flight (events.take j) ≤
        example_env.config.deliver_broadcast_rf_passthrough_inflight_num :=
  C8_passthrough_waves_bounded example_env 3 { data := [1] }
    [example_destination "be1" 1, example_destination "be2" 2, example_destination "be3" 3] 5
    (by decide) (by decide)

/-! ## The local destination of a broadcast -/

/-- What the loop that looks for the local destination does: it exchanges the first
local destination before the last position with the last one, or changes nothing
when there is none. -/
theorem put_local_last_spec (loc : TNetworkAddress) (ds : List TRuntimeFilterDestination) :
    ∀ (n i : Nat), ds.length - 1 - i = n →
      (∀ k (hk : k < ds.length), k < i → (ds[k]).address ≠ loc) →
      (∃ i0, ∃ h0 : i0 < ds.length, i0 < ds.length - 1 ∧ (ds[i0]).address = loc ∧
          put_local_last loc ds i = swap_destinations ds i0 (ds.length - 1)) ∨
        ((∀ k (hk : k < ds.length), k < ds.length - 1 → (ds[k]).address ≠ loc) ∧
          put_local_last loc ds i = ds) := by
  intro n
  induction n using Nat.strong_induction_on with
  | _ n ih =>
    intro i hn hbefore
    rw [put_local_last]
    by_cases h : i < ds.length - 1
    · have hi : i < ds.length := by omega
      simp only [h, dite_true]
      by_cases ha : (ds[i]).address = loc
      · simp only [ha, if_true]
        exact Or.inl ⟨i, hi, h, ha, rfl⟩
      · simp only [ha, if_false]
        refine ih (ds.length - 1 - (i + 1)) (by omega) (i + 1) rfl ?_
        intro k hk hki
        by_cases hk2 : k = i
        · subst hk2; exact ha
        · exact hbefore k hk (by omega)
    · simp only [h, dite_false]
      refine Or.inr ⟨?_, trivial⟩
      intro k hk hk2
      exact hbefore k hk (by omega)

theorem countP_ge_two_of_two {α : Type} (p : α → Bool) (l : List α) (i j : Nat)
    (hi : i < l.length) (hj : j < l.length) (hij : i < j) (hpi : p l[i] = true)
    (hpj : p l[j] = true) : 2 ≤ l.countP p := by
  have hsplit : l = l.take i ++ l[i] :: l.drop (i + 1) := by
    rw [List.getElem_cons_drop, List.take_append_drop]
  have hmem : l[j] ∈ l.drop (i + 1) := by
    have hidx : j - (i + 1) < (l.drop (i + 1)).length := by
      rw [List.length_drop]; omega
    have : (l.drop (i + 1))[j - (i + 1)] = l[j] := by
      rw [List.getElem_drop]
      congr 1
      omega
    rw [← this]
    exact List.getElem_mem _
  have hpos : 0 < (l.drop (i + 1)).countP p := List.countP_pos_iff.mpr ⟨_, hmem, hpj⟩
  rw [hsplit, List.countP_append, List.countP_cons, hpi]
  simp only [if_true]
  omega


/-- The outcome of lines 657 to 669 when exactly one destination is local. -/
theorem split_local_spec (loc : TNetworkAddress) (ds : List TRuntimeFilterDestination)
    (honce : ds.countP (fun d => decide (d.address = loc)) ≤ 1)
    (hsome : ∃ d ∈ ds, d.address = loc) :
    ∃ local_dest remote, split_local loc ds = some (some local_dest, remote) ∧
      local_dest ∈ ds ∧ local_dest.address = loc ∧
      (∀ d ∈ remote, d ∈ ds ∧ d.address ≠ loc) ∧ remote.length = ds.length - 1 := by
  have hne : ds.length ≠ 0 := by
    obtain ⟨d, hd, _⟩ := hsome
    intro h
    rw [List.length_eq_zero.mp h] at hd
    simp at hd
  have hlast : ds.length - 1 < ds.length := by omega
  have huniq : ∀ i j (hi : i < ds.length) (hj : j < ds.length), (ds[i]).address = loc →
      (ds[j]).address = loc → i = j := by
    intro i j hi hj hai haj
    by_contra hij
    rcases Nat.lt_or_gt_of_ne hij with hlt | hgt
    · have := countP_ge_two_of_two (fun d => decide (d.address = loc)) ds i j hi hj hlt
        (by simp [hai]) (by simp [haj])
      omega
    · have := countP_ge_two_of_two (fun d => decide (d.address = loc)) ds j i hj hi hgt
        (by simp [haj]) (by simp [hai])
      omega
  rcases put_local_last_spec loc ds _ 0 rfl (fun k _ hk => absurd hk (Nat.not_lt_zero k)) with
    ⟨i0, h0, h0lt, h0a, hput⟩ | ⟨hnone, hput⟩
  · have hswap : swap_destinations ds i0 (ds.length - 1) =
        (ds.set i0 ds[ds.length - 1]).set (ds.length - 1) ds[i0] := by
      simp [swap_destinations, List.getElem?_eq_getElem h0, List.getElem?_eq_getElem hlast]
    refine ⟨ds[i0], ((ds.set i0 ds[ds.length - 1]).set (ds.length - 1) ds[i0]).take
      (ds.length - 1), ?_, List.getElem_mem _, h0a, ?_, ?_⟩
    · simp only [split_local, hne, if_false, hput, hswap]
      rw [List.getElem?_eq_getElem (by simpa using hlast)]
      simp [h0a]
    · intro d hd
      obtain ⟨k, hk, hkd⟩ := List.mem_iff_getElem.mp hd
      have hk1 : k < ds.length - 1 := by
        simp only [List.length_take, List.length_set] at hk
        omega
      have hk2 : k < ds.length := by omega
      rw [List.getElem_take, List.getElem_set_ne (by omega)] at hkd
      by_cases hki : i0 = k
      · subst hki
        rw [List.getElem_set_self] at hkd
        rw [← hkd]
        refine ⟨List.getElem_mem _, ?_⟩
        intro ha
        have := huniq i0 (ds.length - 1) h0 hlast h0a ha
        omega
      · rw [List.getElem_set_ne hki] at hkd
        rw [← hkd]
        refine ⟨List.getElem_mem _, ?_⟩
        intro ha
        exact hki (huniq i0 k h0 hk2 h0a ha)
    · simp only [List.length_take, List.length_set]
      omega
  · obtain ⟨d, hd, hda⟩ := hsome
    obtain ⟨k, hk, hkd⟩ := List.mem_iff_getElem.mp hd
    have hk_last : k = ds.length - 1 := by
      by_contra hne2
      exact hnone k hk (by omega) (hkd ▸ hda)
    subst hk_last
    have hla : (ds[ds.length - 1]).address = loc := hkd ▸ hda
    refine ⟨ds[ds.length - 1], ds.take (ds.length - 1), ?_, List.getElem_mem _, hla, ?_, ?_⟩
    · simp only [split_local, hne, if_false, hput]
      rw [List.getElem?_eq_getElem hlast]
      simp [hla]
    · intro d' hd'
      obtain ⟨k, hk, hkd'⟩ := List.mem_iff_getElem.mp hd'
      have hk1 : k < ds.length - 1 := by
        simp only [List.length_take] at hk
        omega
      rw [List.getElem_take] at hkd'
      rw [← hkd']
      exact ⟨List.getElem_mem _, hnone k (by omega) hk1⟩
    · simp only [List.length_take]
      omega


/-! ## Broadcast events: local delivery, passthrough and relay -/

theorem filter_rpcs_of_waves (params : PTransmitRuntimeFilterParams) (timeout_ms : Int)
    (waves : List (List TRuntimeFilterDestination)) :
    ((waves.map (fun w => w.map (passthrough_rpc params timeout_ms) ++
        [Event.join w.length])).flatten).filter is_send_rpc =
      waves.flatten.map (passthrough_rpc params timeout_ms) := by
  induction waves with
  | nil => rfl
  | cons w ws ih =>
    have hw : (w.map (passthrough_rpc params timeout_ms)).filter is_send_rpc =
        w.map (passthrough_rpc params timeout_ms) := by
      apply List.filter_eq_self.mpr
      intro e he
      obtain ⟨d, _, hd⟩ := List.mem_map.mp he
      rw [← hd]
      rfl
    simp only [List.map_cons, List.flatten_cons, List.filter_append, hw, ih, List.map_append]
    simp [is_send_rpc]

/-- The events of the local delivery of a broadcast: no RPC is among them, and the
request keeps its payload. -/
theorem deliver_local_no_rpc {F : Type} (ops : FilterOps F) (env : ExecEnv)
    (param : PTransmitRuntimeFilterParams) (local_dest : TRuntimeFilterDestination) :
    (RuntimeFilterWorker._deliver_broadcast_runtime_filter_local ops env param local_dest).1 =
        { param with forward_targets := [],
                     probe_finst_ids := local_dest.finstance_ids.map to_pb } ∧
      (RuntimeFilterWorker._deliver_broadcast_runtime_filter_local ops env param
        local_dest).2.filter is_send_rpc = [] := by
  refine ⟨rfl, ?_⟩
  simp only [RuntimeFilterWorker._deliver_broadcast_runtime_filter_local,
    RuntimeFilterWorker._receive_total_runtime_filter]
  cases ops.deserialize_runtime_filter param.data with
  | none => rfl
  | some rf =>
    rw [forward_loop]
    simp [is_send_rpc]

/-- The function `_process_send_broadcast_runtime_filter_event` in terms of the
outcome of its lines 657 to 669. -/
theorem process_send_broadcast_of_split {F : Type} (ops : FilterOps F) (env : ExecEnv)
    (fuel : Nat) (params : PTransmitRuntimeFilterParams)
    (destinations : List TRuntimeFilterDestination) (timeout_ms : Int)
    (local_dest : Option TRuntimeFilterDestination) (remote : List TRuntimeFilterDestination)
    (hsplit : split_local { hostname := env.localhost, port := env.config.brpc_port }
      destinations = some (local_dest, remote)) :
    ∃ (local_events : List Event) (request : PTransmitRuntimeFilterParams),
      local_events.filter is_send_rpc = [] ∧
      (local_events = match local_dest with
        | some last_dest => (RuntimeFilterWorker._deliver_broadcast_runtime_filter_local ops env
            { params with is_partial := false } last_dest).2
        | none => []) ∧
      passthrough_rpc request timeout_ms =
        passthrough_rpc { params with is_partial := false } timeout_ms ∧
      RuntimeFilterWorker._deliver_broadcast_runtime_filter_relay request remote timeout_ms =
        RuntimeFilterWorker._deliver_broadcast_runtime_filter_relay
          { params with is_partial := false } remote timeout_ms ∧
      RuntimeFilterWorker._process_send_broadcast_runtime_filter_event ops env fuel params
        destinations timeout_ms =
        if remote.length = 0 then some local_events
        else
          (if params.data.length ≤ env.config.deliver_broadcast_rf_passthrough_bytes_limit then
            RuntimeFilterWorker._deliver_broadcast_runtime_filter_passthrough env fuel request
              remote timeout_ms
          else
            RuntimeFilterWorker._deliver_broadcast_runtime_filter_relay request remote
              timeout_ms).map (fun remote_events => local_events ++ remote_events) := by
  cases local_dest with
  | none =>
    refine ⟨[], { params with is_partial := false }, rfl, rfl, rfl, rfl, ?_⟩
    simp only [RuntimeFilterWorker._process_send_broadcast_runtime_filter_event, hsplit]
    by_cases h : remote.length = 0
    · simp [h]
    · by_cases hp : params.data.length ≤ env.config.deliver_broadcast_rf_passthrough_bytes_limit
      · simp [h, hp]
      · simp [h, hp]
  | some last_dest =>
    obtain ⟨h1, h2⟩ := deliver_local_no_rpc ops env { params with is_partial := false } last_dest
    refine ⟨(RuntimeFilterWorker._deliver_broadcast_runtime_filter_local ops env
        { params with is_partial := false } last_dest).2,
      (RuntimeFilterWorker._deliver_broadcast_runtime_filter_local ops env
        { params with is_partial := false } last_dest).1, h2, rfl, ?_, ?_, ?_⟩
    · rw [h1]; rfl
    · rw [h1]
      cases remote with
      | nil => rfl
      | cons a rest => rfl
    · simp only [RuntimeFilterWorker._process_send_broadcast_runtime_filter_event, hsplit]
      by_cases h : remote.length = 0
      · simp [h]
      · by_cases hp : params.data.length ≤ env.config.deliver_broadcast_rf_passthrough_bytes_limit
        · simp [h, hp, h1]
        · simp [h, hp, h1]

/-- With an in-flight number of 0 the passthrough loop makes no progress: whatever
the fuel, it does not end while a destination is left. -/
theorem passthrough_loop_zero_inflight (params : PTransmitRuntimeFilterParams)
    (ds : List TRuntimeFilterDestination) (timeout_ms : Int) (k : Nat) (hk : k < ds.length) :
    ∀ fuel, passthrough_loop 0 params ds timeout_ms fuel k = none := by
  intro fuel
  induction fuel with
  | zero => simp [passthrough_loop, hk]
  | succ f ih => simp [passthrough_loop, hk, ih]

/-- Claim C9 (counterexample). With the in-flight number configured as 0, a payload
below the passthrough limit and the single remote destination `be1`, the event
handler never returns, whatever the fuel: the passthrough loop sends nothing and
does not advance. -/
theorem C9_zero_inflight_sends_nothing :
    ¬ ∃ fuel evs,
      RuntimeFilterWorker._process_send_broadcast_runtime_filter_event example_ops
        example_env_no_inflight fuel { data := [1] } [example_destination "be1" 1] 5 =
        some evs := by
  rintro ⟨fuel, evs, h⟩
  have hloop := passthrough_loop_zero_inflight { data := [1], is_partial := false }
    [example_destination "be1" 1] 5 0 (by decide) fuel
  rw [RuntimeFilterWorker._process_send_broadcast_runtime_filter_event] at h
  simp [split_local, put_local_last, example_destination, example_env_no_inflight,
    RuntimeFilterWorker._deliver_broadcast_runtime_filter_passthrough] at h
  simp [example_destination] at hloop
  rw [hloop] at h
  simp at h

/-- Claim C9 (amended). With a configured in-flight number of at least 1 (and fuel
for the rounds of the passthrough loop), a SEND_BROADCAST_GRF event with remaining
destinations `first :: rest` returns.  When the payload size is at most the
passthrough limit its RPCs are one direct RPC per remaining destination, in list
order, with that destination's instance ids and no forward target; when the size
is above the limit its only RPC is the relay RPC to `first`, which carries `rest`
as forward targets. -/
theorem C9_passthrough_below_limit_else_relay {F : Type} (ops : FilterOps F) (env : ExecEnv)
    (fuel : Nat) (params : PTransmitRuntimeFilterParams)
    (destinations : List TRuntimeFilterDestination) (timeout_ms : Int)
    (local_dest : Option TRuntimeFilterDestination)
    (first : TRuntimeFilterDestination) (rest : List TRuntimeFilterDestination)
    (hK : 1 ≤ env.config.deliver_broadcast_rf_passthrough_inflight_num)
    (hfuel : (first :: rest).length ≤ fuel)
    (hsplit : split_local { hostname := env.localhost, port := env.config.brpc_port }
      destinations = some (local_dest, first :: rest)) :
    ∃ evs,
      RuntimeFilterWorker._process_send_broadcast_runtime_filter_event ops env fuel params
        destinations timeout_ms = some evs ∧
      evs.filter is_send_rpc =
        if params.data.length ≤ env.config.deliver_broadcast_rf_passthrough_bytes_limit then
          (first :: rest).map (fun dest =>
            Event.send_rpc dest.address timeout_ms
              { params with
                is_partial := false
                probe_finst_ids := dest.finstance_ids.map to_pb
                forward_targets := [] })
        else
          [Event.send_rpc first.address timeout_ms
            { params with
              is_partial := false
              probe_finst_ids := first.finstance_ids.map to_pb
              forward_targets := rest.map (fun dest =>
                { host := dest.address.hostname, port := dest.address.port,
                  probe_finst_ids := dest.finstance_ids.map to_pb }) }] := by
  obtain ⟨local_events, request, hloc, _, hrpc, hrelay, hproc⟩ :=
    process_send_broadcast_of_split ops env fuel params destinations timeout_ms local_dest
      (first :: rest) hsplit
  rw [hproc]
  simp only [List.length_cons, Nat.add_one_ne_zero, if_false]
  by_cases hp : params.data.length ≤ env.config.deliver_broadcast_rf_passthrough_bytes_limit
  · simp only [hp, if_true]
    obtain ⟨waves, hev, hflat, _⟩ := passthrough_loop_waves
      env.config.deliver_broadcast_rf_passthrough_inflight_num hK request (first :: rest)
      timeout_ms fuel 0 (by simpa using hfuel)
    refine ⟨_, by
      rw [RuntimeFilterWorker._deliver_broadcast_runtime_filter_passthrough, hev]; rfl, ?_⟩
    rw [List.filter_append, hloc, List.nil_append, filter_rpcs_of_waves, hflat, hrpc]
    rfl
  · simp only [hp, if_false]
    rw [hrelay]
    refine ⟨_, rfl, ?_⟩
    rw [List.filter_append, hloc]
    rfl


theorem C9_passthrough_below_limit_else_relay_witness :
    ∃ evs,
      RuntimeFilterWorker._process_send_broadcast_runtime_filter_event example_ops example_env
        2 { data := [1] }
        [example_destination "be1" 1, example_destination "be0" 2, example_destination "be2" 3]
        5 = some evs ∧
      evs.filter is_send_rpc =
        if ({ data := [1] } : PTransmitRuntimeFilterParams).data.length ≤
            example_env.config.deliver_broadcast_rf_passthrough_bytes_limit then
          (example_destination "be1" 1 :: [example_destination "be2" 3]).map (fun dest =>
            Event.send_rpc dest.address 5
              { ({ data := [1] } : PTransmitRuntimeFilterParams) with
                is_partial := false
                probe_finst_ids := dest.finstance_ids.map to_pb
                forward_targets := [] })
        else
          [Event.send_rpc (example_destination "be1" 1).address 5
            { ({ data := [1] } : PTransmitRuntimeFilterParams) with
              is_partial := false
              probe_finst_ids := (example_destination "be1" 1).finstance_ids.map to_pb
              forward_targets := [example_destination "be2" 3].map (fun dest =>
                { host := dest.address.hostname, port := dest.address.port,
                  probe_finst_ids := dest.finstance_ids.map to_pb }) }] :=
  C9_passthrough_below_limit_else_relay example_ops example_env 2 { data := [1] }
    [example_destination "be1" 1, example_destination "be0" 2, example_destination "be2" 3] 5
    (some (example_destination "be0" 2)) (example_destination "be1" 1)
    [example_destination "be2" 3] (by decide) (by decide)
    (by simp [split_local, put_local_last, swap_destinations, example_destination, example_env])

/-- Every RPC of the passthrough loop is the direct RPC of one of the destinations. -/
theorem passthrough_loop_rpcs (K : Nat) (params : PTransmitRuntimeFilterParams)
    (ds : List TRuntimeFilterDestination) (timeout_ms : Int) :
    ∀ (fuel k : Nat) (evs : List Event),
      passthrough_loop K params ds timeout_ms fuel k = some evs →
      ∀ addr t r, Event.send_rpc addr t r ∈ evs →
        ∃ d ∈ ds, Event.send_rpc addr t r = passthrough_rpc params timeout_ms d := by
  intro fuel
  induction fuel with
  | zero =>
    intro k evs h addr t r hmem
    by_cases hk : k < ds.length
    · simp [passthrough_loop, hk] at h
    · simp [passthrough_loop, hk] at h
      subst h
      simp at hmem
  | succ f ih =>
    intro k evs h addr t r hmem
    by_cases hk : k < ds.length
    · simp only [passthrough_loop, hk, if_true, Option.map_eq_some'] at h
      obtain ⟨later, hlater, hevs⟩ := h
      subst hevs
      rcases List.mem_append.mp hmem with h1 | h1
      · rcases List.mem_append.mp h1 with h2 | h2
        · obtain ⟨d, hd, hde⟩ := List.mem_map.mp h2
          exact ⟨d, List.mem_of_mem_drop (List.mem_of_mem_take hd), hde.symm⟩
        · simp at h2
      · exact ih _ later hlater addr t r h1
    · simp [passthrough_loop, hk] at h
      subst h
      simp at hmem

theorem address_eta (a : TNetworkAddress) :
    ({ hostname := a.hostname, port := a.port } : TNetworkAddress) = a := by
  cases a; rfl

/-- Claim C6 (counterexample). Two destinations both at the local address
`be0:8060`: the first local one is exchanged with the last and delivered in-process,
the other stays in the list and is sent an RPC through the stub of the local
address. -/
theorem C6_second_local_destination_is_sent_an_rpc :
    (RuntimeFilterWorker._process_send_broadcast_runtime_filter_event example_ops example_env
        2 { data := [1] } [example_destination "be0" 1, example_destination "be0" 2] 5).map
      (fun evs => evs.map (fun e =>
        match e with
        | Event.send_rpc addr _ request => some (addr, request.probe_finst_ids)
        | _ => none)) =
      some [none, none,
        some ({ hostname := example_env.localhost, port := example_env.config.brpc_port },
          [{ hi := 0, lo := 2 }]),
        none] := by
  simp [RuntimeFilterWorker._process_send_broadcast_runtime_filter_event, split_local,
    put_local_last, swap_destinations, example_destination, example_env, example_ops,
    RuntimeFilterWorker._deliver_broadcast_runtime_filter_local,
    RuntimeFilterWorker._receive_total_runtime_filter, forward_loop,
    RuntimeFilterWorker._deliver_broadcast_runtime_filter_passthrough, passthrough_loop,
    passthrough_rpc, to_pb]

/-- Claim C6 (amended). When exactly one destination of a SEND_BROADCAST_GRF event
has this node's address, that destination is handed to
`_deliver_broadcast_runtime_filter_local`, whose events come first and contain no
RPC; the list handed to passthrough or relay delivery consists of the other
destinations, none of which has the local address; and no RPC of the event is sent
to the local address or carries it as a forward target. -/
theorem C6_single_local_destination_handled_first {F : Type} (ops : FilterOps F)
    (env : ExecEnv) (fuel : Nat) (params : PTransmitRuntimeFilterParams)
    (destinations : List TRuntimeFilterDestination) (timeout_ms : Int)
    (honce : destinations.countP (fun d => decide (d.address =
      { hostname := env.localhost, port := env.config.brpc_port })) ≤ 1)
    (hsome : ∃ d ∈ destinations, d.address =
      { hostname := env.localhost, port := env.config.brpc_port }) :
    ∃ (local_dest : TRuntimeFilterDestination) (remote : List TRuntimeFilterDestination)
      (local_events : List Event) (request : PTransmitRuntimeFilterParams),
      split_local { hostname := env.localhost, port := env.config.brpc_port } destinations =
        some (some local_dest, remote) ∧
      local_dest ∈ destinations ∧
      local_dest.address = { hostname := env.localhost, port := env.config.brpc_port } ∧
      (∀ d ∈ remote, d ∈ destinations ∧
        d.address ≠ { hostname := env.localhost, port := env.config.brpc_port }) ∧
      local_events = (RuntimeFilterWorker._deliver_broadcast_runtime_filter_local ops env
        { params with is_partial := false } local_dest).2 ∧
      local_events.filter is_send_rpc = [] ∧
      RuntimeFilterWorker._process_send_broadcast_runtime_filter_event ops env fuel params
        destinations timeout_ms =
        (if remote.length = 0 then some local_events
        else
          (if params.data.length ≤ env.config.deliver_broadcast_rf_passthrough_bytes_limit then
            RuntimeFilterWorker._deliver_broadcast_runtime_filter_passthrough env fuel request
              remote timeout_ms
          else
            RuntimeFilterWorker._deliver_broadcast_runtime_filter_relay request remote
              timeout_ms).map (fun remote_events => local_events ++ remote_events)) ∧
      ∀ evs,
        RuntimeFilterWorker._process_send_broadcast_runtime_filter_event ops env fuel params
          destinations timeout_ms = some evs →
        ∀ addr t r, Event.send_rpc addr t r ∈ evs →
          addr ≠ { hostname := env.localhost, port := env.config.brpc_port } ∧
          ∀ ft ∈ r.forward_targets,
            ({ hostname := ft.host, port := ft.port } : TNetworkAddress) ≠
              { hostname := env.localhost, port := env.config.brpc_port } := by
  obtain ⟨local_dest, remote, hsplit, hmem, hla, hremote, _⟩ :=
    split_local_spec _ destinations honce hsome
  obtain ⟨local_events, request, hloc, hle, hrpc, hrelay, hproc⟩ :=
    process_send_broadcast_of_split ops env fuel params destinations timeout_ms
      (some local_dest) remote hsplit
  refine ⟨local_dest, remote, local_events, request, hsplit, hmem, hla, hremote, hle, hloc,
    hproc, ?_⟩
  intro evs hevs addr t r hmem_rpc
  have hnot_local : Event.send_rpc addr t r ∉ local_events := by
    intro h
    have : Event.send_rpc addr t r ∈ local_events.filter is_send_rpc :=
      List.mem_filter.mpr ⟨h, rfl⟩
    rw [hloc] at this
    simp at this
  rw [hproc] at hevs
  by_cases h0 : remote.length = 0
  · simp only [h0, if_true, Option.some.injEq] at hevs
    subst hevs
    exact absurd hmem_rpc hnot_local
  · simp only [h0, if_false, Option.map_eq_some'] at hevs
    obtain ⟨remote_events, hre, hcat⟩ := hevs
    subst hcat
    have hin : Event.send_rpc addr t r ∈ remote_events := by
      rcases List.mem_append.mp hmem_rpc with h | h
      · exact absurd h hnot_local
      · exact h
    by_cases hp : params.data.length ≤ env.config.deliver_broadcast_rf_passthrough_bytes_limit
    · simp only [hp, if_true,
        RuntimeFilterWorker._deliver_broadcast_runtime_filter_passthrough] at hre
      obtain ⟨d, hd, hde⟩ := passthrough_loop_rpcs _ _ _ _ _ _ _ hre addr t r hin
      simp only [passthrough_rpc, Event.send_rpc.injEq] at hde
      obtain ⟨ha, _, hr⟩ := hde
      refine ⟨ha ▸ (hremote d hd).2, ?_⟩
      intro ft hft
      rw [hr] at hft
      simp at hft
    · simp only [hp, if_false] at hre
      cases hrm : remote with
      | nil => simp [hrm] at h0
      | cons first rest =>
        rw [hrm] at hre
        simp only [RuntimeFilterWorker._deliver_broadcast_runtime_filter_relay,
          Option.some.injEq] at hre
        subst hre
        simp only [List.mem_cons, Event.send_rpc.injEq, List.mem_singleton, false_or,
          or_false, reduceCtorEq, List.not_mem_nil] at hin
        obtain ⟨ha, _, hr⟩ := hin
        refine ⟨ha ▸ (hremote first (hrm ▸ List.mem_cons_self _ _)).2, ?_⟩
        intro ft hft
        rw [hr] at hft
        simp only [List.mem_map] at hft
        obtain ⟨d, hd, hdf⟩ := hft
        rw [← hdf]
        simp only [address_eta]
        exact (hremote d (hrm ▸ List.mem_cons_of_mem _ hd)).2

theorem C6_single_local_destination_handled_first_witness :
    ∃ (local_dest : TRuntimeFilterDestination) (remote : List TRuntimeFilterDestination)
      (local_events : List Event) (request : PTransmitRuntimeFilterParams),
      split_local { hostname := example_env.localhost, port := example_env.config.brpc_port }
        [example_destination "be1" 1, example_destination "be0" 2, example_destination "be2" 3] =
        some (some local_dest, remote) ∧
      local_dest ∈
        [example_destination "be1" 1, example_destination "be0" 2, example_destination "be2" 3] ∧
      local_dest.address =
        { hostname := example_env.localhost, port := example_env.config.brpc_port } ∧
      (∀ d ∈ remote, d ∈
          [example_destination "be1" 1, example_destination "be0" 2,
            example_destination "be2" 3] ∧
        d.address ≠ { hostname := example_env.localhost, port := example_env.config.brpc_port }) ∧
      local_events = (RuntimeFilterWorker._deliver_broadcast_runtime_filter_local example_ops
        example_env { ({ data := [1] } : PTransmitRuntimeFilterParams) with is_partial := false }
        local_dest).2 ∧
      local_events.filter is_send_rpc = [] ∧
      RuntimeFilterWorker._process_send_broadcast_runtime_filter_event example_ops example_env 2
        { data := [1] }
        [example_destination "be1" 1, example_destination "be0" 2, example_destination "be2" 3]
        5 =
        (if remote.length = 0 then some local_events
        else
          (if ({ data := [1] } : PTransmitRuntimeFilterParams).data.length ≤
              example_env.config.deliver_broadcast_rf_passthrough_bytes_limit then
            RuntimeFilterWorker._deliver_broadcast_runtime_filter_passthrough example_env 2
              request remote 5
          else
            RuntimeFilterWorker._deliver_broadcast_runtime_filter_relay request remote
              5).map (fun remote_events => local_events ++ remote_events)) ∧
      ∀ evs,
        RuntimeFilterWorker._process_send_broadcast_runtime_filter_event example_ops example_env
          2 { data := [1] }
          [example_destination "be1" 1, example_destination "be0" 2,
            example_destination "be2" 3] 5 = some evs →
        ∀ addr t r, Event.send_rpc addr t r ∈ evs →
          addr ≠ { hostname := example_env.localhost, port := example_env.config.brpc_port } ∧
          ∀ ft ∈ r.forward_targets,
            ({ hostname := ft.host, port := ft.port } : TNetworkAddress) ≠
              { hostname := example_env.localhost, port := example_env.config.brpc_port } :=
  C6_single_local_destination_handled_first example_ops example_env 2 { data := [1] }
    [example_destination "be1" 1, example_destination "be0" 2, example_destination "be2" 3] 5
    (by decide) ⟨example_destination "be0" 2, by decide, rfl⟩


/-! ## The order of concatenation -/

theorem ordered_insert_perm {K V : Type} [LT K] [DecidableRel (α := K) (· < ·)]
    (m : List (K × V)) (k : K) (v : V) : (ordered_insert k v m).Perm ((k, v) :: m) := by
  induction m with
  | nil => simp [ordered_insert]
  | cons p rest ih =>
    obtain ⟨k1, v1⟩ := p
    by_cases h : k < k1
    · simp [ordered_insert, h]
    · simp only [ordered_insert, h, if_false]
      exact (List.Perm.cons (k1, v1) ih).trans (List.Perm.swap (k, v) (k1, v1) _)

theorem ordered_insert_sorted {K V : Type} [LinearOrder K] (m : List (K × V)) (k : K) (v : V)
    (hk : map_find m k = none) (hs : m.Pairwise (fun a b => a.1 < b.1)) :
    (ordered_insert k v m).Pairwise (fun a b => a.1 < b.1) := by
  induction m with
  | nil => simp [ordered_insert]
  | cons p rest ih =>
    obtain ⟨k1, v1⟩ := p
    have hk1 : ¬ k1 = k := by
      intro h
      simp [map_find, h] at hk
    have hrest : map_find rest k = none := by
      simpa [map_find, hk1] using hk
    rw [List.pairwise_cons] at hs
    by_cases h : k < k1
    · simp only [ordered_insert, h, if_true]
      refine List.pairwise_cons.mpr ⟨?_, List.pairwise_cons.mpr hs⟩
      intro x hx
      rcases List.mem_cons.mp hx with hx | hx
      · rw [hx]; exact h
      · exact lt_trans h (hs.1 x hx)
    · simp only [ordered_insert, h, if_false]
      refine List.pairwise_cons.mpr ⟨?_, ih hrest hs.2⟩
      intro x hx
      have hx2 := (ordered_insert_perm rest k v).subset hx
      rcases List.mem_cons.mp hx2 with hx3 | hx3
      · rw [hx3]
        exact lt_of_le_of_ne (not_lt.mp h) hk1
      · exact hs.1 x hx3

/-- Every RPC of the loop of `_send_total_runtime_filter` carries the payload of the
request the loop was started with. -/
theorem send_total_loop_data (loc : TNetworkAddress) (timeout_ms : Int)
    (targets : List (TNetworkAddress × List TUniqueId)) :
    ∀ (n index : Nat) (request : PTransmitRuntimeFilterParams), targets.length - index = n →
      ∀ addr t r, Event.send_rpc addr t r ∈ send_total_loop loc timeout_ms request targets index →
        r.data = request.data := by
  intro n
  induction n using Nat.strong_induction_on with
  | _ n ih =>
    intro index request hn addr t r he
    rw [send_total_loop] at he
    by_cases h : index < targets.length
    · simp only [h, dite_true, List.mem_cons, Event.send_rpc.injEq] at he
      rcases he with he | he
      · rw [he.2.2]
      · have := ih (targets.length - (index + (1 + (if decide (loc = (targets[index]).1) = true
          then 0 else (targets.length - index) / 2)))) (by split <;> omega) _ _ rfl addr t r he
        rw [this]
    · simp [h] at he

/-- An accepted call that reaches the expected number of partial filters: the events
are those of `_send_total_runtime_filter`, and every request carries the serialized
concatenation of the collected filters, taken in the order of the map `filters`. -/
theorem merge_accept_fires {F : Type} (ops : FilterOps F) (env : ExecEnv)
    (m : RuntimeFilterMerger F) (params : PTransmitRuntimeFilterParams) (now send_now : Int)
    (st : RuntimeFilterMergerStatus F) (tn : List TRuntimeFilterProberParams) (rf : F)
    (ht : map_find m._targets params.filter_id = some tn) (hne : tn ≠ [])
    (hs : map_find m._statuses params.filter_id = some st)
    (hdup : params.build_be_number ∉ st.arrives) (hstop : st.stop = false)
    (hd : ops.deserialize_runtime_filter params.data = some rf)
    (hsz : st.current_size + ops.size rf ≤ st.max_size)
    (hkeys : map_find st.filters params.build_be_number = none)
    (hN : st.expect_number ≤ st.filters.length + 1) (hp : st.pool_cleared = false) :
    ∃ m' evs p rest,
      RuntimeFilterMerger.merge_runtime_filter ops env m params now send_now =
        some (m', some evs) ∧
      map_insert params.build_be_number rf st.filters = p :: rest ∧
      ∀ addr t r, Event.send_rpc addr t r ∈ evs →
        r.data = ops.serialize_runtime_filter
          ((p :: rest).foldl (fun out it => ops.concat out it.2) (ops.create_empty p.2)) := by
  have hlen : tn.length ≠ 0 := by
    intro h; exact hne (List.length_eq_zero.mp h)
  have hgt : ¬ (st.current_size + ops.size rf > st.max_size) := by omega
  have hflen : (map_insert params.build_be_number rf st.filters).length = st.filters.length + 1 :=
    length_map_insert_of_absent _ _ _ hkeys
  have hnotlt : ¬ st.filters.length + 1 < st.expect_number := by omega
  let st1 : RuntimeFilterMergerStatus F :=
    { arrives := st.arrives.insert params.build_be_number, expect_number := st.expect_number,
      filters := map_insert params.build_be_number rf st.filters,
      current_size := st.current_size + ops.size rf, max_size := st.max_size, stop := false,
      recv_first_filter_ts :=
        if st.recv_first_filter_ts = 0 then now else st.recv_first_filter_ts,
      recv_last_filter_ts := now, broadcast_filter_ts := st.broadcast_filter_ts,
      pool_cleared := false }
  have hf1 : st1.filters ≠ [] := by
    intro h
    have h2 := congrArg List.length h
    simp [st1, hflen] at h2
  obtain ⟨timeout_ms, request, p, rest, hpr, hdata, hsend⟩ := send_total_events ops env
    { m with _statuses := map_set params.filter_id st1 m._statuses }
    params.filter_id send_now st1 tn (by simp [map_find_map_set, hs]) ht hf1 rfl
  obtain ⟨m2, evs, hm2, hevs⟩ : ∃ m2 evs,
      RuntimeFilterMerger._send_total_runtime_filter ops env
        { m with _statuses := map_set params.filter_id st1 m._statuses }
        params.filter_id send_now = some (m2, evs) ∧
      evs = send_total_loop { hostname := env.localhost, port := env.config.brpc_port }
          timeout_ms request
          (local_first { hostname := env.localhost, port := env.config.brpc_port }
            (nodes_to_frag_insts tn)) 0 ++
        [Event.join (send_total_loop
          { hostname := env.localhost, port := env.config.brpc_port } timeout_ms request
          (local_first { hostname := env.localhost, port := env.config.brpc_port }
            (nodes_to_frag_insts tn)) 0).length] := ⟨_, _, hsend, rfl⟩
  refine ⟨m2, evs, p, rest, ?_, hpr, ?_⟩
  · simp only [RuntimeFilterMerger.merge_runtime_filter, ht, hs, hlen, hdup, hstop, hd, hgt,
      hflen, hnotlt, hp, if_true, if_false, Bool.false_eq_true]
    exact congrArg (Option.map _) hm2
  · intro addr t r hmem
    rw [hevs] at hmem
    rcases List.mem_append.mp hmem with h | h
    · rw [send_total_loop_data _ timeout_ms _ _ 0 request rfl addr t r h, hdata]
    · simp at h


theorem merge_all_append {F : Type} (ops : FilterOps F) (env : ExecEnv)
    (a b : List (PTransmitRuntimeFilterParams × Int × Int)) :
    ∀ (m m1 : RuntimeFilterMerger F) (o1 : List (Option (List Event))),
      merge_all ops env m a = some (m1, o1) →
      merge_all ops env m (a ++ b) =
        (merge_all ops env m1 b).map (fun r => (r.1, o1 ++ r.2)) := by
  induction a with
  | nil =>
    intro m m1 o1 h
    simp only [merge_all, Option.some.injEq, Prod.mk.injEq] at h
    obtain ⟨h1, h2⟩ := h
    subst h1
    subst h2
    simp
  | cons c rest ih =>
    intro m m1 o1 h
    simp only [merge_all, List.cons_append] at h ⊢
    cases hstep : RuntimeFilterMerger.merge_runtime_filter ops env m c.1 c.2.1 c.2.2 with
    | none => simp [hstep] at h
    | some r =>
      obtain ⟨m2, sent⟩ := r
      simp only [hstep, Option.map_eq_some'] at h ⊢
      obtain ⟨r2, hr2, hr2eq⟩ := h
      obtain ⟨m3, o3⟩ := r2
      simp only [Prod.mk.injEq] at hr2eq
      obtain ⟨h1, h2⟩ := hr2eq
      subst h1
      subst h2
      have hih := ih m2 m3 o3 hr2
      simp only [List.append_eq] at hih ⊢
      rw [hih]
      cases merge_all ops env m3 b with
      | none => rfl
      | some r3 => simp


/-- The status of a filter id after a run of accepted calls. -/
theorem merge_all_accepts_state {F : Type} (ops : FilterOps F) (env : ExecEnv) (fid : Int)
    (tn : List TRuntimeFilterProberParams) (htn : tn ≠ []) :
    ∀ (calls : List (PTransmitRuntimeFilterParams × Int × Int)) (m : RuntimeFilterMerger F)
      (st : RuntimeFilterMergerStatus F),
      map_find m._targets fid = some tn →
      map_find m._statuses fid = some st →
      st.stop = false →
      st.pool_cleared = false →
      st.filters.length + calls.length < st.expect_number →
      (∀ b, b ∉ st.arrives → map_find st.filters b = none) →
      st.filters.Pairwise (fun a b => a.1 < b.1) →
      (∀ c ∈ calls, c.1.filter_id = fid) →
      (calls.map (fun c => c.1.build_be_number)).Nodup →
      (∀ c ∈ calls, c.1.build_be_number ∉ st.arrives) →
      (∀ c ∈ calls, (ops.deserialize_runtime_filter c.1.data).isSome) →
      st.current_size + (calls.map (fun c => payload_size ops c.1.data)).sum ≤ st.max_size →
      ∃ m' outs st', merge_all ops env m calls = some (m', outs) ∧
        m'._targets = m._targets ∧
        map_find m'._statuses fid = some st' ∧
        st'.stop = false ∧ st'.expect_number = st.expect_number ∧ st'.max_size = st.max_size ∧
        st'.current_size =
          st.current_size + (calls.map (fun c => payload_size ops c.1.data)).sum ∧
        (∀ b, b ∈ st'.arrives ↔
          b ∈ st.arrives ∨ b ∈ calls.map (fun c => c.1.build_be_number)) ∧
        (∀ b, b ∉ st'.arrives → map_find st'.filters b = none) ∧
        st'.filters.Pairwise (fun a b => a.1 < b.1) ∧
        st'.filters.Perm (st.filters ++ calls.filterMap (fun c =>
          (ops.deserialize_runtime_filter c.1.data).map
            (fun rf => (c.1.build_be_number, rf)))) ∧
        st'.pool_cleared = false := by
  intro calls
  induction calls with
  | nil =>
    intro m st _ hs hstop hpool _ hkeys hsorted _ _ _ _ _
    exact ⟨m, [], st, rfl, rfl, hs, hstop, rfl, rfl, by simp, by simp, hkeys, hsorted, by simp,
      hpool⟩
  | cons c rest ih =>
    intro m st ht hs hstop hpool hcount hkeys hsorted hfid hnd hnew hdes hsz
    simp only [List.length_cons] at hcount
    have hc : c.1.filter_id = fid := hfid c (List.mem_cons_self _ _)
    obtain ⟨rf, hrf⟩ := Option.isSome_iff_exists.mp (hdes c (List.mem_cons_self _ _))
    have hps : payload_size ops c.1.data = ops.size rf := by simp [payload_size, hrf]
    simp only [List.map_cons, List.sum_cons, hps] at hsz
    simp only [List.map_cons, List.nodup_cons] at hnd
    have hcnew : c.1.build_be_number ∉ st.arrives := hnew c (List.mem_cons_self _ _)
    obtain ⟨m1, out, st1, hm, hout, htg, hs1, harr, hfil, hcur, hexp, hmax, hstop1, hpool1⟩ :=
      merge_accept ops env m c.1 c.2.1 c.2.2 st tn rf (hc ▸ ht) htn (hc ▸ hs) hcnew hstop hrf
        (by omega) (hkeys _ hcnew) hpool
    rw [hc] at hs1
    have hflen1 : st1.filters.length = st.filters.length + 1 := by
      rw [hfil]; exact length_map_insert_of_absent _ _ _ (hkeys _ hcnew)
    have hnofire : out.isSome = false := by
      cases ho : out.isSome with
      | false => rfl
      | true =>
        have := hout.mp ho
        omega
    rw [hnofire] at hpool1
    have hins : map_insert c.1.build_be_number rf st.filters =
        ordered_insert c.1.build_be_number rf st.filters := by
      simp [map_insert, hkeys _ hcnew]
    obtain ⟨m2, outs, st2, hm2, htg2, hs2, hstop2, hexp2, hmax2, hcur2, harr2, hkeys2, hsorted2,
        hperm2, hpool2⟩ := ih m1 st1 (htg ▸ ht) hs1 hstop1 hpool1
      (by rw [hflen1, hexp]; omega)
      (by
        intro b hb
        rw [harr, List.mem_insert_iff, not_or] at hb
        rw [hfil, map_find_map_insert]
        have : ¬ c.1.build_be_number = b := fun h => hb.1 h.symm
        simp [this, hkeys b hb.2])
      (by rw [hfil, hins]; exact ordered_insert_sorted _ _ _ (hkeys _ hcnew) hsorted)
      (fun c' hc' => hfid c' (List.mem_cons_of_mem _ hc'))
      hnd.2
      (by
        intro c' hc'
        rw [harr, List.mem_insert_iff, not_or]
        refine ⟨?_, hnew c' (List.mem_cons_of_mem _ hc')⟩
        intro h
        exact hnd.1 (List.mem_map.mpr ⟨c', hc', h⟩))
      (fun c' hc' => hdes c' (List.mem_cons_of_mem _ hc'))
      (by rw [hcur, hmax]; omega)
    refine ⟨m2, out :: outs, st2, ?_, htg2.trans htg, hs2, hstop2, hexp2.trans hexp,
      hmax2.trans hmax, ?_, ?_, hkeys2, hsorted2, ?_, hpool2⟩
    · simp [merge_all, hm, hm2]
    · rw [hcur2, hcur]
      simp only [List.map_cons, List.sum_cons, hps]
      omega
    · intro b
      rw [harr2, harr, List.mem_insert_iff]
      simp only [List.map_cons, List.mem_cons]
      tauto
    · refine hperm2.trans ?_
      rw [hfil, hins]
      simp only [List.filterMap_cons, hrf, Option.map_some']
      refine (List.Perm.append_right _ (ordered_insert_perm _ _ _)).trans ?_
      simp only [List.cons_append]
      exact List.perm_middle.symm

theorem length_filterMap_of_isSome {α β : Type} (f : α → Option β) (l : List α)
    (h : ∀ a ∈ l, (f a).isSome) : (l.filterMap f).length = l.length := by
  induction l with
  | nil => rfl
  | cons a rest ih =>
    obtain ⟨b, hb⟩ := Option.isSome_iff_exists.mp (h a (List.mem_cons_self _ _))
    simp [List.filterMap_cons, hb, ih (fun a' ha' => h a' (List.mem_cons_of_mem _ ha'))]

/-- Claim C10 (counterexample). Two expected senders; sender 2 arrives first with
payload `[20]`, then sender 1 with payload `[10]`.  The request that is distributed
carries `[10, 20]`: the payloads are concatenated in the order of the sender
numbers, not in the order of arrival (which would give `[20, 10]`). -/
theorem C10_concatenation_not_in_arrival_order :
    (merge_all example_ops example_env (example_merger 2 1000)
        [example_call 2 [20], example_call 1 [10]]).map
      (fun r => r.2.map (fun sent => sent.map (fun evs => evs.filterMap (fun e =>
        match e with
        | Event.send_rpc _ _ request => some request.data
        | _ => none)))) =
      some [none, some [[10, 20]]] := by
  simp [merge_all, RuntimeFilterMerger.merge_runtime_filter, example_merger, example_call,
    example_params, example_ops, example_env, RuntimeFilterMerger.init, RuntimeFilterMerger.new,
    init_status, map_find, map_insert, ordered_insert, map_set,
    RuntimeFilterMerger._send_total_runtime_filter, send_total_loop, nodes_to_frag_insts,
    add_target_node, local_first, example_prober]

/-- A completed merge: from a freshly initialised merger, `N ≥ 1` accepted partial
filters from distinct senders make the last call distribute; the payload of every
RPC is the serialized result of concatenating the list `collected`, which holds the
arrived (sender, filter) pairs in strictly increasing order of the sender number. -/
theorem completed_merge_collected {F : Type} (ops : FilterOps F) (env : ExecEnv)
    (query_id : TUniqueId) (query_options : TQueryOptions) (is_pipeline : Bool)
    (params : TRuntimeFilterParams) (fid : Int) (N : Nat)
    (tn : List TRuntimeFilterProberParams)
    (calls : List (PTransmitRuntimeFilterParams × Int × Int))
    (htargets : map_find params.id_to_prober_params fid = some tn) (htn : tn ≠ [])
    (hexpect : map_find params.runtime_filter_builder_number fid = some N) (hN : 1 ≤ N)
    (hlen : calls.length = N)
    (hfid : ∀ c ∈ calls, c.1.filter_id = fid)
    (hdistinct : (calls.map (fun c => c.1.build_be_number)).Nodup)
    (hdeser : ∀ c ∈ calls, (ops.deserialize_runtime_filter c.1.data).isSome)
    (hsize : (calls.map (fun c => payload_size ops c.1.data)).sum ≤
      params.runtime_filter_max_size) :
    ∃ (m' : RuntimeFilterMerger F) (outs : List (Option (List Event))) (evs : List Event)
      (collected : List (Int × F)) (p : Int × F) (rest : List (Int × F)),
      merge_all ops env
        ((RuntimeFilterMerger.new query_id query_options is_pipeline).init params) calls =
        some (m', outs ++ [some evs]) ∧
      collected = p :: rest ∧
      collected.Perm (calls.filterMap (fun c =>
        (ops.deserialize_runtime_filter c.1.data).map (fun rf => (c.1.build_be_number, rf)))) ∧
      collected.Pairwise (fun a b => a.1 < b.1) ∧
      ∀ addr t r, Event.send_rpc addr t r ∈ evs →
        r.data = ops.serialize_runtime_filter
          (collected.foldl (fun out it => ops.concat out it.2) (ops.create_empty p.2)) := by
  have hne : calls ≠ [] := by
    intro h
    rw [h] at hlen
    simp at hlen
    omega
  obtain ⟨front, last, hcalls⟩ : ∃ front last, calls = front ++ [last] :=
    ⟨calls.dropLast, calls.getLast hne, (List.dropLast_append_getLast hne).symm⟩
  subst hcalls
  simp only [List.map_append, List.map_cons, List.map_nil, List.sum_append, List.sum_cons,
    List.sum_nil, Nat.add_zero] at hsize
  have hnd := List.nodup_append.mp (by simpa using hdistinct)
  have hst := map_find_init_fold (F := F) params.runtime_filter_max_size
    params.runtime_filter_builder_number [] fid rfl
  rw [hexpect] at hst
  obtain ⟨m1, outs, st1, hm1, htg1, hs1, hstop1, hexp1, hmax1, hcur1, harr1, hkeys1, hsorted1,
      hperm1, hpool1⟩ := merge_all_accepts_state ops env fid tn htn front
    ((RuntimeFilterMerger.new query_id query_options is_pipeline).init params) _
    htargets hst rfl rfl
    (by
      have hl : front.length + 1 = N := by simpa using hlen
      simp only [init_status, List.length_nil]
      omega)
    (fun b _ => rfl) (by simp [init_status])
    (fun c hc => hfid c (List.mem_append_left _ hc)) hnd.1 (fun c _ => by simp [init_status])
    (fun c hc => hdeser c (List.mem_append_left _ hc))
    (by simp only [init_status]; omega)
  simp only [init_status, List.nil_append] at hperm1 hexp1 hmax1
  simp only [init_status, Nat.zero_add, List.not_mem_nil, false_or] at hcur1 harr1
  have hlast_fid : last.1.filter_id = fid := hfid last (by simp)
  obtain ⟨rf, hrf⟩ := Option.isSome_iff_exists.mp (hdeser last (by simp))
  have hps : payload_size ops last.1.data = ops.size rf := by simp [payload_size, hrf]
  have hlast_new : last.1.build_be_number ∉ st1.arrives := by
    rw [harr1]
    intro h
    exact hnd.2.2 h (by simp)
  have hflen : st1.filters.length = front.length := by
    rw [hperm1.length_eq]
    exact length_filterMap_of_isSome _ _ (fun c hc => by
      simpa using hdeser c (List.mem_append_left _ hc))
  have hfront_len : front.length + 1 = N := by simpa using hlen
  obtain ⟨m2, evs, p, rest, hm2, hpr, hdata⟩ := merge_accept_fires ops env m1 last.1 last.2.1
    last.2.2 st1 tn rf (by rw [hlast_fid, htg1]; exact htargets) htn (hlast_fid ▸ hs1) hlast_new
    hstop1 hrf (by rw [hcur1, hmax1, ← hps]; exact hsize) (hkeys1 _ hlast_new)
    (by rw [hexp1, hflen]; omega) hpool1
  have hins : map_insert last.1.build_be_number rf st1.filters =
      ordered_insert last.1.build_be_number rf st1.filters := by
    simp [map_insert, hkeys1 _ hlast_new]
  refine ⟨m2, outs, evs, p :: rest, p, rest, ?_, rfl, ?_, ?_, hdata⟩
  · rw [merge_all_append ops env front [last] _ m1 outs hm1]
    simp [merge_all, hm2]
  · rw [← hpr, hins]
    refine (ordered_insert_perm _ _ _).trans ?_
    simp only [List.filterMap_append, List.filterMap_cons, hrf, Option.map_some',
      List.filterMap_nil]
    exact (List.Perm.cons _ hperm1).trans (List.perm_append_singleton _ _).symm
  · rw [← hpr, hins]
    exact ordered_insert_sorted _ _ _ (hkeys1 _ hlast_new) hsorted1

/-- Claim C10 (amended). In the setting of a completed merge (a freshly initialised
merger, `N ≥ 1` expected senders, `N` accepted partial filters from distinct
senders), the last call distributes, and the payload of every RPC is the serialized
result of starting from `create_empty` of the first collected filter and
concatenating the collected filters one by one in ascending order of their sender
numbers: the list `collected` holds exactly the arrived (sender, filter) pairs and
is strictly increasing in the sender number. -/
theorem C10_concatenation_in_sender_order {F : Type} (ops : FilterOps F) (env : ExecEnv)
    (query_id : TUniqueId) (query_options : TQueryOptions) (is_pipeline : Bool)
    (params : TRuntimeFilterParams) (fid : Int) (N : Nat)
    (tn : List TRuntimeFilterProberParams)
    (calls : List (PTransmitRuntimeFilterParams × Int × Int))
    (htargets : map_find params.id_to_prober_params fid = some tn) (htn : tn ≠ [])
    (hexpect : map_find params.runtime_filter_builder_number fid = some N) (hN : 1 ≤ N)
    (hlen : calls.length = N)
    (hfid : ∀ c ∈ calls, c.1.filter_id = fid)
    (hdistinct : (calls.map (fun c => c.1.build_be_number)).Nodup)
    (hdeser : ∀ c ∈ calls, (ops.deserialize_runtime_filter c.1.data).isSome)
    (hsize : (calls.map (fun c => payload_size ops c.1.data)).sum ≤
      params.runtime_filter_max_size) :
    ∃ (m' : RuntimeFilterMerger F) (outs : List (Option (List Event))) (evs : List Event)
      (collected : List (Int × F)) (p : Int × F) (rest : List (Int × F)),
      merge_all ops env
        ((RuntimeFilterMerger.new query_id query_options is_pipeline).init params) calls =
        some (m', outs ++ [some evs]) ∧
      collected = p :: rest ∧
      collected.Perm (calls.filterMap (fun c =>
        (ops.deserialize_runtime_filter c.1.data).map (fun rf => (c.1.build_be_number, rf)))) ∧
      collected.Pairwise (fun a b => a.1 < b.1) ∧
      ∀ addr t r, Event.send_rpc addr t r ∈ evs →
        r.data = ops.serialize_runtime_filter
          (collected.foldl (fun out it => ops.concat out it.2) (ops.create_empty p.2)) := by
  have hne : calls ≠ [] := by
    intro h
    rw [h] at hlen
    simp at hlen
    omega
  obtain ⟨front, last, hcalls⟩ : ∃ front last, calls = front ++ [last] :=
    ⟨calls.dropLast, calls.getLast hne, (List.dropLast_append_getLast hne).symm⟩
  subst hcalls
  simp only [List.map_append, List.map_cons, List.map_nil, List.sum_append, List.sum_cons,
    List.sum_nil, Nat.add_zero] at hsize
  have hnd := List.nodup_append.mp (by simpa using hdistinct)
  have hst := map_find_init_fold (F := F) params.runtime_filter_max_size
    params.runtime_filter_builder_number [] fid rfl
  rw [hexpect] at hst
  obtain ⟨m1, outs, st1, hm1, htg1, hs1, hstop1, hexp1, hmax1, hcur1, harr1, hkeys1, hsorted1,
      hperm1, hpool1⟩ := merge_all_accepts_state ops env fid tn htn front
    ((RuntimeFilterMerger.new query_id query_options is_pipeline).init params) _
    htargets hst rfl rfl
    (by
      have hl : front.length + 1 = N := by simpa using hlen
      simp only [init_status, List.length_nil]
      omega)
    (fun b _ => rfl) (by simp [init_status])
    (fun c hc => hfid c (List.mem_append_left _ hc)) hnd.1 (fun c _ => by simp [init_status])
    (fun c hc => hdeser c (List.mem_append_left _ hc))
    (by simp only [init_status]; omega)
  simp only [init_status, List.nil_append] at hperm1 hexp1 hmax1
  simp only [init_status, Nat.zero_add, List.not_mem_nil, false_or] at hcur1 harr1
  have hlast_fid : last.1.filter_id = fid := hfid last (by simp)
  obtain ⟨rf, hrf⟩ := Option.isSome_iff_exists.mp (hdeser last (by simp))
  have hps : payload_size ops last.1.data = ops.size rf := by simp [payload_size, hrf]
  have hlast_new : last.1.build_be_number ∉ st1.arrives := by
    rw [harr1]
    intro h
    exact hnd.2.2 h (by simp)
  have hflen : st1.filters.length = front.length := by
    rw [hperm1.length_eq]
    exact length_filterMap_of_isSome _ _ (fun c hc => by
      simpa using hdeser c (List.mem_append_left _ hc))
  have hfront_len : front.length + 1 = N := by simpa using hlen
  obtain ⟨m2, evs, p, rest, hm2, hpr, hdata⟩ := merge_accept_fires ops env m1 last.1 last.2.1
    last.2.2 st1 tn rf (by rw [hlast_fid, htg1]; exact htargets) htn (hlast_fid ▸ hs1) hlast_new
    hstop1 hrf (by rw [hcur1, hmax1, ← hps]; exact hsize) (hkeys1 _ hlast_new)
    (by rw [hexp1, hflen]; omega) hpool1
  have hins : map_insert last.1.build_be_number rf st1.filters =
      ordered_insert last.1.build_be_number rf st1.filters := by
    simp [map_insert, hkeys1 _ hlast_new]
  refine ⟨m2, outs, evs, p :: rest, p, rest, ?_, rfl, ?_, ?_, hdata⟩
  · rw [merge_all_append ops env front [last] _ m1 outs hm1]
    simp [merge_all, hm2]
  · rw [← hpr, hins]
    refine (ordered_insert_perm _ _ _).trans ?_
    simp only [List.filterMap_append, List.filterMap_cons, hrf, Option.map_some',
      List.filterMap_nil]
    exact (List.Perm.cons _ hperm1).trans (List.perm_append_singleton _ _).symm
  · rw [← hpr, hins]
    exact ordered_insert_sorted _ _ _ (hkeys1 _ hlast_new) hsorted1

theorem C10_concatenation_in_sender_order_witness :
    ∃ (m' : RuntimeFilterMerger (List Nat)) (outs : List (Option (List Event)))
      (evs : List Event) (collected : List (Int × List Nat)) (p : Int × List Nat)
      (rest : List (Int × List Nat)),
      merge_all example_ops example_env
        ((RuntimeFilterMerger.new { hi := 1, lo := 1 } { runtime_filter_send_timeout_ms := none }
          true).init (example_params 2 1000))
        [example_call 2 [20], example_call 1 [10]] = some (m', outs ++ [some evs]) ∧
      collected = p :: rest ∧
      collected.Perm ([example_call 2 [20], example_call 1 [10]].filterMap (fun c =>
        (example_ops.deserialize_runtime_filter c.1.data).map
          (fun rf => (c.1.build_be_number, rf)))) ∧
      collected.Pairwise (fun a b => a.1 < b.1) ∧
      ∀ addr t r, Event.send_rpc addr t r ∈ evs →
        r.data = example_ops.serialize_runtime_filter
          (collected.foldl (fun out it => example_ops.concat out it.2)
            (example_ops.create_empty p.2)) :=
  C10_concatenation_in_sender_order example_ops example_env { hi := 1, lo := 1 }
    { runtime_filter_send_timeout_ms := none } true (example_params 2 1000) 7 2
    [example_prober "be1" 1, example_prober "be2" 2]
    [example_call 2 [20], example_call 1 [10]]
    (by decide) (by decide) (by decide) (by decide) (by decide) (by decide) (by decide)
    (by decide) (by decide)

/-! ## Steps and invariants of a merge status -/

/-- The status that `init` builds satisfies the invariant. -/
theorem status_inv_init {F : Type} (ops : FilterOps F) (expect_number max_size : Nat) :
    status_inv ops (init_status expect_number max_size : RuntimeFilterMergerStatus F) := by
  simp [status_inv, init_status, collected_size]

/-- Every step of `merge_status_step` preserves the invariant. -/
theorem status_inv_step {F : Type} (ops : FilterOps F) (params : PTransmitRuntimeFilterParams)
    (st st' : RuntimeFilterMergerStatus F) (sent : Option (List Event))
    (hinv : status_inv ops st) (hstep : merge_status_step ops params st st' sent) :
    status_inv ops st' := by
  obtain ⟨hnd, hkd, hmem, hfit, hrun, hstopped⟩ := hinv
  obtain ⟨_, hmax, hcase⟩ := hstep
  rcases hcase with ⟨ha, hf, hc, hs, _⟩ | ⟨rf, _, _, hs0, hover, ha, hf, hc, hs, _⟩ |
    ⟨rf, _, hdup, hs0, hle, ha, hf, hc, hs, _⟩
  · have hcs : collected_size ops st' = collected_size ops st := by
      unfold collected_size; rw [hf]
    unfold status_inv
    rw [ha, hf, hc, hs, hmax, hcs]
    exact ⟨hnd, hkd, hmem, hfit, hrun, hstopped⟩
  · have hcs : collected_size ops st' = collected_size ops st := by
      unfold collected_size; rw [hf]
    unfold status_inv
    rw [ha, hf, hc, hs, hmax, hcs]
    refine ⟨hnd, hkd, hmem, hfit, fun h => by simp at h, fun _ => ⟨hover, ops.size rf, ?_⟩⟩
    rw [hrun hs0]
  · have habs : map_find st.filters params.build_be_number = none :=
      (map_find_eq_none_iff _ _).mpr (fun h => hdup ((hmem _).mpr h))
    have hperm : (map_insert params.build_be_number rf st.filters).Perm
        ((params.build_be_number, rf) :: st.filters) := by
      unfold map_insert
      rw [habs]
      exact ordered_insert_perm _ _ _
    have hcs : collected_size ops st' = collected_size ops st + ops.size rf := by
      unfold collected_size
      rw [hf, ((hperm.map (fun it => ops.size it.2)).sum_eq)]
      simp only [List.map_cons, List.sum_cons]
      omega
    unfold status_inv
    rw [ha, hf, hc, hs, hmax, hcs]
    refine ⟨hnd.insert, nodup_keys_map_insert _ _ _ hkd, ?_, ?_, ?_, fun h => by simp at h⟩
    · intro b
      rw [(hperm.map Prod.fst).mem_iff]
      simp only [List.mem_insert_iff, List.map_cons, List.mem_cons]
      rw [hmem b]
    · rw [← hrun hs0]; exact hle
    · intro _
      rw [hrun hs0]

/-- One call of `merge_runtime_filter` that returns keeps the invariant of every
status. -/
theorem merge_inv {F : Type} (ops : FilterOps F) (env : ExecEnv)
    (m m' : RuntimeFilterMerger F) (params : PTransmitRuntimeFilterParams) (now send_now : Int)
    (sent : Option (List Event))
    (hinv : ∀ fid st, map_find m._statuses fid = some st → status_inv ops st)
    (h : RuntimeFilterMerger.merge_runtime_filter ops env m params now send_now =
      some (m', sent)) :
    ∀ fid st, map_find m'._statuses fid = some st → status_inv ops st := by
  rcases merge_step ops env m params now send_now with
    ⟨hnone, _⟩ | ⟨m1, sent1, hrun, _, hframe, hnone, hsome⟩
  · rw [hnone] at h; simp at h
  · rw [hrun] at h
    simp only [Option.some.injEq, Prod.mk.injEq] at h
    obtain ⟨h1, h2⟩ := h
    subst h1
    subst h2
    intro fid st hst
    by_cases hk : fid = params.filter_id
    · subst hk
      cases h0 : map_find m._statuses params.filter_id with
      | none =>
        rw [(hnone h0).1, h0] at hst
        simp at hst
      | some st0 =>
        obtain ⟨st', hst', hstep, _⟩ := hsome st0 h0
        rw [hst'] at hst
        simp only [Option.some.injEq] at hst
        subst hst
        exact status_inv_step ops params st0 _ sent1 (hinv _ st0 h0) hstep
    · rw [hframe fid hk] at hst
      exact hinv fid st hst

/-- Every sequence of `merge_runtime_filter` calls that returns keeps the invariant
of every status. -/
theorem merge_all_inv {F : Type} (ops : FilterOps F) (env : ExecEnv) :
    ∀ (calls : List (PTransmitRuntimeFilterParams × Int × Int)) (m : RuntimeFilterMerger F),
      (∀ fid st, map_find m._statuses fid = some st → status_inv ops st) →
      ∀ m' outs, merge_all ops env m calls = some (m', outs) →
        ∀ fid st, map_find m'._statuses fid = some st → status_inv ops st := by
  intro calls
  induction calls with
  | nil =>
    intro m hinv m' outs h
    simp only [merge_all, Option.some.injEq, Prod.mk.injEq] at h
    rw [← h.1]
    exact hinv
  | cons call rest ih =>
    intro m hinv m' outs h
    simp only [merge_all] at h
    cases hstep : RuntimeFilterMerger.merge_runtime_filter ops env m call.1 call.2.1 call.2.2 with
    | none => simp [hstep] at h
    | some r =>
      obtain ⟨m1, sent⟩ := r
      simp only [hstep, Option.map_eq_some'] at h
      obtain ⟨r2, hr2, hr2eq⟩ := h
      obtain ⟨m3, o3⟩ := r2
      simp only [Prod.mk.injEq] at hr2eq
      rw [← hr2eq.1]
      exact ih m1 (merge_inv ops env m m1 call.1 call.2.1 call.2.2 sent hinv hstep) m3 o3 hr2

theorem length_map_insert_le {K V : Type} [DecidableEq K] [LT K]
    [DecidableRel (α := K) (· < ·)] (m : List (K × V)) (k : K) (v : V) :
    (map_insert k v m).length ≤ m.length + 1 := by
  unfold map_insert
  cases map_find m k with
  | none => simp [length_ordered_insert]
  | some _ => simp

/-- A sequence of `merge_runtime_filter` calls returns when no filter id is sent to
more often than its status still expects: for every status, either no call of the
sequence is for its filter id, or its pool has not been cleared and the filters it
holds plus the calls for its filter id do not exceed the expected number. -/
theorem merge_all_returns {F : Type} (ops : FilterOps F) (env : ExecEnv) :
    ∀ (calls : List (PTransmitRuntimeFilterParams × Int × Int)) (m : RuntimeFilterMerger F),
      (∀ fid st, map_find m._statuses fid = some st →
        calls.countP (fun c => decide (c.1.filter_id = fid)) = 0 ∨
        (st.pool_cleared = false ∧
          st.filters.length + calls.countP (fun c => decide (c.1.filter_id = fid)) ≤
            st.expect_number)) →
      ∃ m' outs, merge_all ops env m calls = some (m', outs) := by
  intro calls
  induction calls with
  | nil => intro m _; exact ⟨m, [], rfl⟩
  | cons call rest ih =>
    intro m hJ
    rcases merge_step ops env m call.1 call.2.1 call.2.2 with
      ⟨_, st, tn, rf, _, _, hs, _, _, _, _, _, hpool⟩ | ⟨m1, sent, hrun, _, hframe, hnone, hsome⟩
    · rcases hJ _ st hs with h0 | ⟨hp, _⟩
      · simp [List.countP_cons] at h0
      · rw [hp] at hpool; simp at hpool
    · have hJ1 : ∀ fid st, map_find m1._statuses fid = some st →
          rest.countP (fun c => decide (c.1.filter_id = fid)) = 0 ∨
          (st.pool_cleared = false ∧
            st.filters.length + rest.countP (fun c => decide (c.1.filter_id = fid)) ≤
              st.expect_number) := by
        intro fid st hst
        by_cases hk : fid = call.1.filter_id
        · subst hk
          cases h0 : map_find m._statuses call.1.filter_id with
          | none =>
            rw [(hnone h0).1, h0] at hst
            simp at hst
          | some st0 =>
            obtain ⟨st', hst', ⟨hexp, _, hcase⟩, hpool'⟩ := hsome st0 h0
            rw [hst'] at hst
            simp only [Option.some.injEq] at hst
            subst hst
            rcases hJ _ st0 h0 with hz | ⟨hp, hcount⟩
            · simp [List.countP_cons] at hz
            · simp only [List.countP_cons, decide_True, if_true] at hcount
              rw [hp, Bool.false_or] at hpool'
              rcases hcase with ⟨_, hf, _, _, hsent⟩ | ⟨rf, _, _, _, _, _, hf, _, _, hsent⟩ |
                ⟨rf, _, _, _, _, _, hf, _, _, hsent⟩
              · right
                rw [hpool', hsent, hf, hexp]
                exact ⟨rfl, by omega⟩
              · right
                rw [hpool', hsent, hf, hexp]
                exact ⟨rfl, by omega⟩
              · have hle := length_map_insert_le st0.filters call.1.build_be_number rf
                cases hfire : sent.isSome with
                | true =>
                  left
                  have := hsent.mp hfire
                  omega
                | false =>
                  right
                  rw [hpool', hfire, hf, hexp]
                  exact ⟨rfl, by omega⟩
        · rw [hframe fid hk] at hst
          rcases hJ fid st hst with hz | ⟨hp, hcount⟩
          · left
            have hne : ¬ call.1.filter_id = fid := fun h => hk h.symm
            simpa [List.countP_cons, hne] using hz
          · right
            have hne : ¬ call.1.filter_id = fid := fun h => hk h.symm
            refine ⟨hp, ?_⟩
            simpa [List.countP_cons, hne] using hcount
      obtain ⟨m2, outs, hrest⟩ := ih m1 hJ1
      exact ⟨m2, sent :: outs, by simp [merge_all, hrun, hrest]⟩

/-- The statuses of a freshly initialised merger: the status of a filter id that has
a builder number is the initial status with that number, and there is no other. -/
theorem map_find_init_statuses {F : Type} (query_id : TUniqueId)
    (query_options : TQueryOptions) (is_pipeline : Bool) (params : TRuntimeFilterParams)
    (fid : Int) :
    map_find ((RuntimeFilterMerger.new query_id query_options is_pipeline).init
      params : RuntimeFilterMerger F)._statuses fid =
      (map_find params.runtime_filter_builder_number fid).map
        (fun n => init_status n params.runtime_filter_max_size) := by
  simp only [RuntimeFilterMerger.init, RuntimeFilterMerger.new]
  exact map_find_init_fold _ _ [] fid rfl

/-- A sequence of calls on a freshly initialised merger returns when no filter id
receives more calls than its builder number. -/
theorem merge_all_init_returns {F : Type} (ops : FilterOps F) (env : ExecEnv)
    (query_id : TUniqueId) (query_options : TQueryOptions) (is_pipeline : Bool)
    (params : TRuntimeFilterParams)
    (calls : List (PTransmitRuntimeFilterParams × Int × Int))
    (hcount : ∀ fid n, map_find params.runtime_filter_builder_number fid = some n →
      calls.countP (fun c => decide (c.1.filter_id = fid)) ≤ n) :
    ∃ (m' : RuntimeFilterMerger F) (outs : List (Option (List Event))),
      merge_all ops env
        ((RuntimeFilterMerger.new query_id query_options is_pipeline).init params) calls =
        some (m', outs) := by
  apply merge_all_returns
  intro fid st hst
  rw [map_find_init_statuses] at hst
  cases h : map_find params.runtime_filter_builder_number fid with
  | none => simp [h] at hst
  | some n =>
    simp only [h, Option.map_some', Option.some.injEq] at hst
    subst hst
    right
    refine ⟨rfl, ?_⟩
    simp only [init_status, List.length_nil, Nat.zero_add]
    exact hcount fid n h

/-- Every status of a freshly initialised merger satisfies the invariant. -/
theorem init_inv {F : Type} (ops : FilterOps F) (query_id : TUniqueId)
    (query_options : TQueryOptions) (is_pipeline : Bool) (params : TRuntimeFilterParams)
    (fid : Int) (st : RuntimeFilterMergerStatus F)
    (hst : map_find ((RuntimeFilterMerger.new query_id query_options is_pipeline).init
      params : RuntimeFilterMerger F)._statuses fid = some st) : status_inv ops st := by
  simp only [RuntimeFilterMerger.init, RuntimeFilterMerger.new] at hst
  rw [map_find_init_fold _ _ [] fid rfl] at hst
  cases h : map_find params.runtime_filter_builder_number fid with
  | none => simp [h] at hst
  | some n =>
    simp only [h, Option.map_some', Option.some.injEq] at hst
    subst hst
    exact status_inv_init ops n _

/-- Claim C12. Start from a freshly initialised merger and make any sequence of
`merge_runtime_filter` calls (any filter ids, senders, payloads).  Whenever the
sequence returns, in every merge status of the resulting merger the keys of
`filters` are exactly the sender numbers in `arrives`, each held once, so the two
have the same size.  The sequence returns at least when no filter id receives more
calls than its builder number; it can fail to return only by a call that reads the
filters of a status whose pool has been cleared. -/
theorem C12_collected_keys_are_arrived_senders {F : Type} (ops : FilterOps F) (env : ExecEnv)
    (query_id : TUniqueId) (query_options : TQueryOptions) (is_pipeline : Bool)
    (params : TRuntimeFilterParams)
    (calls : List (PTransmitRuntimeFilterParams × Int × Int)) :
    (∀ m' outs,
      merge_all ops env
        ((RuntimeFilterMerger.new query_id query_options is_pipeline).init params) calls =
        some (m', outs) →
      ∀ fid st, map_find m'._statuses fid = some st →
        (∀ b, b ∈ st.filters.map Prod.fst ↔ b ∈ st.arrives) ∧
        (st.filters.map Prod.fst).Nodup ∧ st.arrives.Nodup ∧
        st.filters.length = st.arrives.length) ∧
    ((∀ fid n, map_find params.runtime_filter_builder_number fid = some n →
        calls.countP (fun c => decide (c.1.filter_id = fid)) ≤ n) →
      ∃ (m' : RuntimeFilterMerger F) (outs : List (Option (List Event))),
        merge_all ops env
          ((RuntimeFilterMerger.new query_id query_options is_pipeline).init params) calls =
          some (m', outs)) := by
  refine ⟨?_, merge_all_init_returns ops env query_id query_options is_pipeline params calls⟩
  intro m' outs hrun fid st hst
  have hinv := merge_all_inv ops env calls
    ((RuntimeFilterMerger.new query_id query_options is_pipeline).init params)
    (init_inv ops query_id query_options is_pipeline params) m' outs hrun
  obtain ⟨hnd, hkd, hmem, _⟩ := hinv fid st hst
  refine ⟨fun b => (hmem b).symm, hkd, hnd, ?_⟩
  have hperm : (st.filters.map Prod.fst).Perm st.arrives :=
    (List.perm_ext_iff_of_nodup hkd hnd).mpr (fun b => (hmem b).symm)
  simpa using hperm.length_eq

/-- Claim C13 (counterexample). Filter 7 has a budget of 500 bytes.  Sender 1 brings
400 bytes and is stored; sender 2 brings 200 bytes and takes the size over the
budget.  Afterwards `current_size` is 600 while the stored filters sum to 400. -/
theorem C13_current_size_counts_rejected_filter :
    (merge_all example_ops example_env (example_merger 2 500)
        [example_call 1 [400], example_call 2 [200]]).map
      (fun r => (map_find r.1._statuses 7).map
        (fun st => (st.stop, st.current_size, collected_size example_ops st))) =
      some (some (true, 600, 400)) := by
  simp [merge_all, RuntimeFilterMerger.merge_runtime_filter, example_merger, example_call,
    example_params, example_ops, example_env, RuntimeFilterMerger.init,
    RuntimeFilterMerger.new, init_status, map_find, map_insert, ordered_insert, map_set,
    example_prober, collected_size]

/-- Claim C13 (amended). Start from a freshly initialised merger and make any sequence
of `merge_runtime_filter` calls.  Whenever the sequence returns, in every merge
status of the resulting merger the stored filters fit the budget; `current_size` is
the sum of their sizes as long as `stop` is clear; once `stop` is set,
`current_size` is larger than `max_size`, hence larger than that sum.  The sequence
returns at least when no filter id receives more calls than its builder number; it
can fail to return only by a call that reads the filters of a status whose pool has
been cleared. -/
theorem C13_current_size_is_collected_size_until_stopped {F : Type} (ops : FilterOps F)
    (env : ExecEnv) (query_id : TUniqueId) (query_options : TQueryOptions) (is_pipeline : Bool)
    (params : TRuntimeFilterParams)
    (calls : List (PTransmitRuntimeFilterParams × Int × Int)) :
    (∀ m' outs,
      merge_all ops env
        ((RuntimeFilterMerger.new query_id query_options is_pipeline).init params) calls =
        some (m', outs) →
      ∀ fid st, map_find m'._statuses fid = some st →
        collected_size ops st ≤ st.max_size ∧
        (st.stop = false → st.current_size = collected_size ops st) ∧
        (st.stop = true → st.max_size < st.current_size)) ∧
    ((∀ fid n, map_find params.runtime_filter_builder_number fid = some n →
        calls.countP (fun c => decide (c.1.filter_id = fid)) ≤ n) →
      ∃ (m' : RuntimeFilterMerger F) (outs : List (Option (List Event))),
        merge_all ops env
          ((RuntimeFilterMerger.new query_id query_options is_pipeline).init params) calls =
          some (m', outs)) := by
  refine ⟨?_, merge_all_init_returns ops env query_id query_options is_pipeline params calls⟩
  intro m' outs hrun fid st hst
  have hinv := merge_all_inv ops env calls
    ((RuntimeFilterMerger.new query_id query_options is_pipeline).init params)
    (init_inv ops query_id query_options is_pipeline params) m' outs hrun
  obtain ⟨_, _, _, hfit, hrun, hstopped⟩ := hinv fid st hst
  exact ⟨hfit, hrun, fun h => (hstopped h).1⟩

/-- Claim C14. A call of `merge_runtime_filter` whose payload does not deserialize
returns without calling `_send_total_runtime_filter`.  The targets and the statuses
of the other filter ids are as before, and in the status of the filter id of the
call `arrives` (so the sender is not marked), `filters`, `current_size`, `stop`,
`expect_number` and `max_size` are as before. -/
theorem C14_undeserializable_partial_is_discarded {F : Type} (ops : FilterOps F)
    (env : ExecEnv) (m : RuntimeFilterMerger F) (params : PTransmitRuntimeFilterParams)
    (now send_now : Int)
    (hd : ops.deserialize_runtime_filter params.data = none) :
    ∃ m',
      RuntimeFilterMerger.merge_runtime_filter ops env m params now send_now = some (m', none) ∧
      m'._targets = m._targets ∧
      (∀ k, k ≠ params.filter_id → map_find m'._statuses k = map_find m._statuses k) ∧
      (map_find m._statuses params.filter_id = none →
        map_find m'._statuses params.filter_id = none) ∧
      ∀ st, map_find m._statuses params.filter_id = some st →
        ∃ st', map_find m'._statuses params.filter_id = some st' ∧
          st'.arrives = st.arrives ∧ st'.filters = st.filters ∧
          st'.current_size = st.current_size ∧ st'.stop = st.stop ∧
          st'.expect_number = st.expect_number ∧ st'.max_size = st.max_size := by
  obtain ⟨m', sent, hrun, htargets, hframe, hnone, hsome⟩ :
      ∃ m' sent,
        RuntimeFilterMerger.merge_runtime_filter ops env m params now send_now =
          some (m', sent) ∧
        m'._targets = m._targets ∧
        (∀ k, k ≠ params.filter_id → map_find m'._statuses k = map_find m._statuses k) ∧
        (map_find m._statuses params.filter_id = none → m' = m ∧ sent = none) ∧
        ∀ st, map_find m._statuses params.filter_id = some st →
          ∃ st', map_find m'._statuses params.filter_id = some st' ∧
            merge_status_step ops params st st' sent ∧
            st'.pool_cleared = (st.pool_cleared || sent.isSome) := by
    rcases merge_step ops env m params now send_now with
      ⟨_, _, _, rf, _, _, _, _, _, hrf, _⟩ | h
    · rw [hd] at hrf; simp at hrf
    · exact h
  have hsent : sent = none := by
    cases h0 : map_find m._statuses params.filter_id with
    | none => exact (hnone h0).2
    | some st =>
      obtain ⟨st', _, ⟨_, _, hcase⟩, _⟩ := hsome st h0
      rcases hcase with ⟨_, _, _, _, h⟩ | ⟨rf, hrf, _⟩ | ⟨rf, hrf, _⟩
      · exact h
      · rw [hd] at hrf; simp at hrf
      · rw [hd] at hrf; simp at hrf
  subst hsent
  refine ⟨m', hrun, htargets, hframe, fun h0 => by rw [(hnone h0).1]; exact h0, ?_⟩
  intro st h0
  obtain ⟨st', hst', ⟨hexp, hmax, hcase⟩, _⟩ := hsome st h0
  rcases hcase with ⟨ha, hf, hc, hs, _⟩ | ⟨rf, hrf, _⟩ | ⟨rf, hrf, _⟩
  · exact ⟨st', hst', ha, hf, hc, hs, hexp, hmax⟩
  · rw [hd] at hrf; simp at hrf
  · rw [hd] at hrf; simp at hrf

/-- Claim C14 (witness). The empty payload does not deserialize under `example_ops`;
the call from sender 2 leaves the status of filter 7, in which sender 1 has
arrived, with the same senders, filters, size and stop flag. -/
theorem C14_undeserializable_partial_is_discarded_witness :
    example_ops.deserialize_runtime_filter (example_call 2 []).1.data = none ∧
    ∃ m',
      RuntimeFilterMerger.merge_runtime_filter example_ops example_env
        (example_merger_with (example_status 2 300 1000)) (example_call 2 []).1 10 11 =
        some (m', none) ∧
      m'._targets = (example_merger_with (example_status 2 300 1000))._targets ∧
      (∀ k, k ≠ (example_call 2 []).1.filter_id → map_find m'._statuses k =
        map_find (example_merger_with (example_status 2 300 1000))._statuses k) ∧
      (map_find (example_merger_with (example_status 2 300 1000))._statuses
          (example_call 2 []).1.filter_id = none →
        map_find m'._statuses (example_call 2 []).1.filter_id = none) ∧
      ∀ st, map_find (example_merger_with (example_status 2 300 1000))._statuses
          (example_call 2 []).1.filter_id = some st →
        ∃ st', map_find m'._statuses (example_call 2 []).1.filter_id = some st' ∧
          st'.arrives = st.arrives ∧ st'.filters = st.filters ∧
          st'.current_size = st.current_size ∧ st'.stop = st.stop ∧
          st'.expect_number = st.expect_number ∧ st'.max_size = st.max_size :=
  ⟨rfl, C14_undeserializable_partial_is_discarded example_ops example_env
    (example_merger_with (example_status 2 300 1000)) (example_call 2 []).1 10 11 rfl⟩

/-- Claim C15. A call of `merge_runtime_filter` for a filter id that has no entry in
`_targets`, or whose entry is the empty prober list, or that has no entry in
`_statuses`, returns the merger as it was and does not call
`_send_total_runtime_filter`. -/
theorem C15_unknown_filter_id_is_discarded {F : Type} (ops : FilterOps F) (env : ExecEnv)
    (m : RuntimeFilterMerger F) (params : PTransmitRuntimeFilterParams) (now send_now : Int)
    (h : map_find m._targets params.filter_id = none ∨
      map_find m._targets params.filter_id = some [] ∨
      map_find m._statuses params.filter_id = none) :
    RuntimeFilterMerger.merge_runtime_filter ops env m params now send_now = some (m, none) := by
  rcases h with h | h | h
  · simp [RuntimeFilterMerger.merge_runtime_filter, h]
  · simp [RuntimeFilterMerger.merge_runtime_filter, h]
  · cases ht : map_find m._targets params.filter_id with
    | none => simp [RuntimeFilterMerger.merge_runtime_filter, ht]
    | some tn =>
      by_cases hlen : tn.length = 0
      · simp [RuntimeFilterMerger.merge_runtime_filter, ht, hlen]
      · simp [RuntimeFilterMerger.merge_runtime_filter, ht, hlen, h]

/-- Claim C15 (witness). The merger `example_merger_with` knows filter 7 only; a
partial filter for filter 8 leaves it as it was. -/
theorem C15_unknown_filter_id_is_discarded_witness :
    (map_find (example_merger_with (example_status 2 300 1000))._targets (8 : Int) = none ∨
      map_find (example_merger_with (example_status 2 300 1000))._targets (8 : Int) = some [] ∨
      map_find (example_merger_with (example_status 2 300 1000))._statuses (8 : Int) = none) ∧
    RuntimeFilterMerger.merge_runtime_filter example_ops example_env
      (example_merger_with (example_status 2 300 1000))
      { is_partial := true, filter_id := 8, build_be_number := 2, data := [5] } 10 11 =
      some (example_merger_with (example_status 2 300 1000), none) :=
  ⟨Or.inl rfl, C15_unknown_filter_id_is_discarded example_ops example_env
    (example_merger_with (example_status 2 300 1000))
    { is_partial := true, filter_id := 8, build_be_number := 2, data := [5] } 10 11
    (Or.inl rfl)⟩

/-! ## Independence of the arrival order -/

/-- The vector `targets` of `_send_total_runtime_filter` is not empty when there is
a prober target. -/
theorem local_first_ne_nil (loc : TNetworkAddress) (tn : List TRuntimeFilterProberParams)
    (htn : tn ≠ []) : local_first loc (nodes_to_frag_insts tn) ≠ [] := by
  obtain ⟨node, rest, rfl⟩ := List.exists_cons_of_ne_nil htn
  have hfind := map_find_nodes_to_frag_insts (node :: rest) node.fragment_instance_address
  simp only [List.filter_cons, decide_True, if_true] at hfind
  simp only [List.cons_ne_nil, if_false] at hfind
  by_cases hl : node.fragment_instance_address = loc
  · rw [hl] at hfind
    simp [local_first, hfind]
  · obtain ⟨ids, hids⟩ : ∃ ids, map_find (nodes_to_frag_insts (node :: rest))
        node.fragment_instance_address = some ids := ⟨_, hfind⟩
    have hmem := map_find_some_mem _ _ _ hids
    have h3 : (node.fragment_instance_address, ids) ∈
        (nodes_to_frag_insts (node :: rest)).filter (fun it => decide (it.1 ≠ loc)) :=
      List.mem_filter.mpr ⟨hmem, by simpa using hl⟩
    intro h
    unfold local_first at h
    rw [(List.append_eq_nil.mp h).2] at h3
    simp at h3

/-- A call of `_send_total_runtime_filter` for a filter id with a prober target
sends at least one RPC. -/
theorem send_total_has_rpc {F : Type} (ops : FilterOps F) (env : ExecEnv)
    (m m' : RuntimeFilterMerger F) (fid now : Int) (evs : List Event)
    (tn : List TRuntimeFilterProberParams)
    (h : RuntimeFilterMerger._send_total_runtime_filter ops env m fid now = some (m', evs))
    (ht : map_find m._targets fid = some tn) (htn : tn ≠ []) :
    ∃ addr t r, Event.send_rpc addr t r ∈ evs := by
  cases hs : map_find m._statuses fid with
  | none => simp [RuntimeFilterMerger._send_total_runtime_filter, hs] at h
  | some st =>
    by_cases hf : st.filters = []
    · simp [RuntimeFilterMerger._send_total_runtime_filter, hs, ht, hf] at h
    · cases hp : st.pool_cleared with
      | true =>
        rw [send_total_cleared ops env m fid now st hs hp] at h
        simp at h
      | false =>
        obtain ⟨timeout_ms, request, p, rest, _, _, hrun⟩ :=
          send_total_events ops env m fid now st tn hs ht hf hp
        rw [hrun] at h
        simp only [Option.some.injEq, Prod.mk.injEq] at h
        have hne := local_first_ne_nil
          { hostname := env.localhost, port := env.config.brpc_port } tn htn
        obtain ⟨t0, trest, ht0⟩ := List.exists_cons_of_ne_nil hne
        rw [← h.2, ht0, send_total_loop]
        simp only [List.length_cons, Nat.zero_lt_succ, dite_true]
        exact ⟨_, _, _, List.mem_append_left _ (List.mem_cons_self _ _)⟩

/-- A call of `merge_runtime_filter` that distributes sends at least one RPC. -/
theorem merge_fires_has_rpc {F : Type} (ops : FilterOps F) (env : ExecEnv)
    (m m' : RuntimeFilterMerger F) (params : PTransmitRuntimeFilterParams) (now send_now : Int)
    (evs : List Event)
    (h : RuntimeFilterMerger.merge_runtime_filter ops env m params now send_now =
      some (m', some evs)) :
    ∃ addr t r, Event.send_rpc addr t r ∈ evs := by
  simp only [RuntimeFilterMerger.merge_runtime_filter] at h
  split at h
  · simp at h
  · rename_i tn ht
    split at h
    · simp at h
    · rename_i hlen
      split at h
      · simp at h
      · split at h
        · simp at h
        · split at h
          · simp at h
          · split at h
            · simp at h
            · split at h
              · simp at h
              · split at h
                · simp at h
                · cases hsend : RuntimeFilterMerger._send_total_runtime_filter ops env _
                    params.filter_id send_now with
                  | none => rw [hsend] at h; simp at h
                  | some r =>
                    rw [hsend] at h
                    simp only [Option.map_some', Option.some.injEq, Prod.mk.injEq] at h
                    obtain ⟨r1, r2⟩ := r
                    simp only at h
                    rw [← h.2]
                    exact send_total_has_rpc ops env _ r1 params.filter_id send_now r2 tn
                      hsend ht (fun e => hlen (by simp [e]))

/-- The last call of a sequence of `merge_runtime_filter` calls that ends in a
distribution sends at least one RPC. -/
theorem merge_all_last_has_rpc {F : Type} (ops : FilterOps F) (env : ExecEnv) :
    ∀ (calls : List (PTransmitRuntimeFilterParams × Int × Int))
      (m m' : RuntimeFilterMerger F) (outs : List (Option (List Event))) (evs : List Event),
      merge_all ops env m calls = some (m', outs ++ [some evs]) →
      ∃ addr t r, Event.send_rpc addr t r ∈ evs := by
  intro calls
  induction calls with
  | nil =>
    intro m m' outs evs h
    simp [merge_all] at h
  | cons call rest ih =>
    intro m m' outs evs h
    simp only [merge_all] at h
    cases h1 : RuntimeFilterMerger.merge_runtime_filter ops env m call.1 call.2.1 call.2.2 with
    | none => simp [h1] at h
    | some r1 =>
      obtain ⟨m1, sent⟩ := r1
      simp only [h1] at h
      cases h2 : merge_all ops env m1 rest with
      | none => simp [h2] at h
      | some r2 =>
        obtain ⟨m2, outs2⟩ := r2
        simp only [h2, Option.map_some', Option.some.injEq, Prod.mk.injEq] at h
        cases outs with
        | nil =>
          simp only [List.nil_append, List.cons.injEq] at h
          obtain ⟨_, hsent, _⟩ := h
          subst hsent
          exact merge_fires_has_rpc ops env m m1 call.1 call.2.1 call.2.2 evs h1
        | cons o outs1 =>
          simp only [List.cons_append, List.cons.injEq] at h
          exact ih m1 m2 outs1 evs (by rw [h2, h.2.2])

/-- Two lists of (sender, filter) pairs that hold the same pairs and are both
strictly increasing in the sender number are equal. -/
theorem collected_unique {F : Type} (a b : List (Int × F)) (hperm : a.Perm b)
    (ha : a.Pairwise (fun x y => x.1 < y.1)) (hb : b.Pairwise (fun x y => x.1 < y.1)) :
    a = b := by
  haveI : IsAntisymm (Int × F) (fun x y => x.1 < y.1) :=
    ⟨fun x y h1 h2 => absurd (lt_trans h1 h2) (lt_irrefl _)⟩
  exact List.eq_of_perm_of_sorted hperm ha hb

/-- Claim C11. Take a completed merge (a freshly initialised merger, `N ≥ 1`
expected senders, `N` partial filters for the filter id from pairwise distinct
senders, all deserializable, of total size within the budget) and any second
sequence of calls whose requests are a permutation of the first.  Both sequences
end in a distribution that sends at least one RPC, and there is one merged filter
whose serialized form is the payload of every RPC of both distributions.  The
partial filters are concatenated in the order of their sender numbers, so no
property of `concat` is needed. -/
theorem C11_merge_output_independent_of_arrival_order {F : Type} (ops : FilterOps F)
    (env : ExecEnv) (query_id : TUniqueId) (query_options : TQueryOptions) (is_pipeline : Bool)
    (params : TRuntimeFilterParams) (fid : Int) (N : Nat)
    (tn : List TRuntimeFilterProberParams)
    (calls calls' : List (PTransmitRuntimeFilterParams × Int × Int))
    (htargets : map_find params.id_to_prober_params fid = some tn) (htn : tn ≠ [])
    (hexpect : map_find params.runtime_filter_builder_number fid = some N) (hN : 1 ≤ N)
    (hlen : calls.length = N)
    (hfid : ∀ c ∈ calls, c.1.filter_id = fid)
    (hdistinct : (calls.map (fun c => c.1.build_be_number)).Nodup)
    (hdeser : ∀ c ∈ calls, (ops.deserialize_runtime_filter c.1.data).isSome)
    (hsize : (calls.map (fun c => payload_size ops c.1.data)).sum ≤
      params.runtime_filter_max_size)
    (hperm : (calls'.map (fun c => c.1)).Perm (calls.map (fun c => c.1))) :
    ∃ (m1 m2 : RuntimeFilterMerger F) (outs1 outs2 : List (Option (List Event)))
      (evs1 evs2 : List Event) (merged : F),
      merge_all ops env
        ((RuntimeFilterMerger.new query_id query_options is_pipeline).init params) calls =
        some (m1, outs1 ++ [some evs1]) ∧
      merge_all ops env
        ((RuntimeFilterMerger.new query_id query_options is_pipeline).init params) calls' =
        some (m2, outs2 ++ [some evs2]) ∧
      (∃ addr t r, Event.send_rpc addr t r ∈ evs1) ∧
      (∃ addr t r, Event.send_rpc addr t r ∈ evs2) ∧
      (∀ addr t r, Event.send_rpc addr t r ∈ evs1 →
        r.data = ops.serialize_runtime_filter merged) ∧
      ∀ addr t r, Event.send_rpc addr t r ∈ evs2 →
        r.data = ops.serialize_runtime_filter merged := by
  have hmem : ∀ c' ∈ calls', ∃ c ∈ calls, c.1 = c'.1 := by
    intro c' hc'
    have h1 : c'.1 ∈ calls'.map (fun c => c.1) := List.mem_map.mpr ⟨c', hc', rfl⟩
    obtain ⟨c, hc, hcc⟩ := List.mem_map.mp (hperm.mem_iff.mp h1)
    exact ⟨c, hc, hcc⟩
  have hmapf : ∀ {β : Type} (g : PTransmitRuntimeFilterParams → β)
      (l : List (PTransmitRuntimeFilterParams × Int × Int)),
      l.map (fun c => g c.1) = (l.map (fun c => c.1)).map g := by
    intro β g l
    simp [List.map_map, Function.comp]
  obtain ⟨m1, outs1, evs1, col1, p1, rest1, hrun1, hcol1, hperm1, hsorted1, hdata1⟩ :=
    completed_merge_collected ops env query_id query_options is_pipeline params fid N tn calls
      htargets htn hexpect hN hlen hfid hdistinct hdeser hsize
  obtain ⟨m2, outs2, evs2, col2, p2, rest2, hrun2, hcol2, hperm2, hsorted2, hdata2⟩ :=
    completed_merge_collected ops env query_id query_options is_pipeline params fid N tn calls'
      htargets htn hexpect hN
      (by
        have h := hperm.length_eq
        simp only [List.length_map] at h
        omega)
      (fun c' hc' => by
        obtain ⟨c, hc, hcc⟩ := hmem c' hc'
        rw [← hcc]
        exact hfid c hc)
      (by
        rw [hmapf (fun r => r.build_be_number)]
        rw [hmapf (fun r => r.build_be_number)] at hdistinct
        exact (hperm.map _).nodup_iff.mpr hdistinct)
      (fun c' hc' => by
        obtain ⟨c, hc, hcc⟩ := hmem c' hc'
        rw [← hcc]
        exact hdeser c hc)
      (by
        rw [hmapf (fun r => payload_size ops r.data)]
        rw [hmapf (fun r => payload_size ops r.data)] at hsize
        rw [(hperm.map _).sum_eq]
        exact hsize)
  have hfm : ∀ l : List (PTransmitRuntimeFilterParams × Int × Int),
      l.filterMap (fun c => (ops.deserialize_runtime_filter c.1.data).map
        (fun rf => (c.1.build_be_number, rf))) =
      (l.map (fun c => c.1)).filterMap (fun r => (ops.deserialize_runtime_filter r.data).map
        (fun rf => (r.build_be_number, rf))) := by
    intro l
    rw [List.filterMap_map]
    rfl
  have hcols : col2 = col1 := by
    refine collected_unique col2 col1 ?_ hsorted2 hsorted1
    refine hperm2.trans (List.Perm.trans ?_ hperm1.symm)
    rw [hfm calls', hfm calls]
    exact hperm.filterMap _
  have hp : p2 = p1 := by
    rw [hcols, hcol1] at hcol2
    simp only [List.cons.injEq] at hcol2
    exact hcol2.1.symm
  refine ⟨m1, m2, outs1, outs2, evs1, evs2,
    col1.foldl (fun out it => ops.concat out it.2) (ops.create_empty p1.2), hrun1, hrun2,
    merge_all_last_has_rpc ops env calls _ m1 outs1 evs1 hrun1,
    merge_all_last_has_rpc ops env calls' _ m2 outs2 evs2 hrun2, hdata1, ?_⟩
  intro addr t r hr
  rw [hdata2 addr t r hr, hcols, hp]

/-- Claim C11 (witness). Senders 2 and 1 in this order, and senders 1 and 2 in this
order, for filter 7 with two expected senders. -/
theorem C11_merge_output_independent_of_arrival_order_witness :
    ∃ (m1 m2 : RuntimeFilterMerger (List Nat)) (outs1 outs2 : List (Option (List Event)))
      (evs1 evs2 : List Event) (merged : List Nat),
      merge_all example_ops example_env
        ((RuntimeFilterMerger.new { hi := 1, lo := 1 } { runtime_filter_send_timeout_ms := none }
          true).init (example_params 2 1000))
        [example_call 2 [20], example_call 1 [10]] = some (m1, outs1 ++ [some evs1]) ∧
      merge_all example_ops example_env
        ((RuntimeFilterMerger.new { hi := 1, lo := 1 } { runtime_filter_send_timeout_ms := none }
          true).init (example_params 2 1000))
        [example_call 1 [10], example_call 2 [20]] = some (m2, outs2 ++ [some evs2]) ∧
      (∃ addr t r, Event.send_rpc addr t r ∈ evs1) ∧
      (∃ addr t r, Event.send_rpc addr t r ∈ evs2) ∧
      (∀ addr t r, Event.send_rpc addr t r ∈ evs1 →
        r.data = example_ops.serialize_runtime_filter merged) ∧
      ∀ addr t r, Event.send_rpc addr t r ∈ evs2 →
        r.data = example_ops.serialize_runtime_filter merged :=
  C11_merge_output_independent_of_arrival_order example_ops example_env { hi := 1, lo := 1 }
    { runtime_filter_send_timeout_ms := none } true (example_params 2 1000) 7 2
    [example_prober "be1" 1, example_prober "be2" 2]
    [example_call 2 [20], example_call 1 [10]] [example_call 1 [10], example_call 2 [20]]
    (by decide) (by decide) (by decide) (by decide) (by decide) (by decide) (by decide)
    (by decide) (by decide) (List.Perm.swap _ _ [])

/-! ## The handling of the query events -/

/-- Lookup in a map that got a new entry at the end. -/
theorem map_find_append_singleton {K V : Type} [DecidableEq K] (m : List (K × V)) (k k' : K)
    (v : V) :
    map_find (m ++ [(k, v)]) k' =
      match map_find m k' with
      | some v' => some v'
      | none => if k = k' then some v else none := by
  induction m with
  | nil => simp [map_find]
  | cons p rest ih =>
    obtain ⟨k1, v1⟩ := p
    by_cases h : k1 = k'
    · simp [map_find, h]
    · simp [map_find, h, ih]

/-- Lookup after `_mergers.insert`. -/
theorem map_find_mergers_insert {F : Type} (ms : List (TUniqueId × RuntimeFilterMerger F))
    (q q' : TUniqueId) (merger : RuntimeFilterMerger F) (habs : map_find ms q = none) :
    map_find (mergers_insert q merger ms) q' =
      if q' = q then some merger else map_find ms q' := by
  simp only [mergers_insert, habs, map_find_append_singleton]
  by_cases h : q' = q
  · subst h
    simp [habs]
  · have h2 : ¬ q = q' := fun e => h e.symm
    simp only [h, h2, if_false]
    cases map_find ms q' <;> rfl

/-- Lookup after `_mergers.erase`, in a map that holds every key once. -/
theorem map_find_map_erase {K V : Type} [DecidableEq K] (m : List (K × V)) (k k' : K)
    (hnd : (m.map Prod.fst).Nodup) :
    map_find (map_erase k m) k' = if k' = k then none else map_find m k' := by
  induction m with
  | nil => simp [map_erase, map_find]
  | cons p rest ih =>
    obtain ⟨k1, v1⟩ := p
    simp only [List.map_cons, List.nodup_cons] at hnd
    by_cases h1 : k1 = k
    · subst h1
      simp only [map_erase, if_true, map_find]
      by_cases h2 : k' = k1
      · subst h2
        simp only [if_true]
        exact (map_find_eq_none_iff rest k').mpr hnd.1
      · have h3 : ¬ k1 = k' := fun e => h2 e.symm
        simp [h2, h3]
    · simp only [map_erase, h1, if_false, map_find]
      by_cases h2 : k1 = k'
      · subst h2
        have h3 : ¬ k1 = k := h1
        simp [h3]
      · simp only [h2, if_false]
        exact ih hnd.2

/-- The keys after `_mergers.erase` are among the keys before. -/
theorem keys_map_erase_sublist {K V : Type} [DecidableEq K] (m : List (K × V)) (k : K) :
    ((map_erase k m).map Prod.fst).Sublist (m.map Prod.fst) := by
  induction m with
  | nil => simp [map_erase]
  | cons p rest ih =>
    obtain ⟨k1, v1⟩ := p
    by_cases h1 : k1 = k
    · simp [map_erase, h1]
    · simp only [map_erase, h1, if_false, List.map_cons]
      exact ih.cons₂ _

/-- A map without entries for `k` is not changed by `_mergers.erase`. -/
theorem map_erase_of_absent {K V : Type} [DecidableEq K] (m : List (K × V)) (k : K)
    (h : map_find m k = none) : map_erase k m = m := by
  induction m with
  | nil => rfl
  | cons p rest ih =>
    obtain ⟨k1, v1⟩ := p
    by_cases h1 : k1 = k
    · simp [map_find, h1] at h
    · simp only [map_find, h1, if_false] at h
      simp [map_erase, h1, ih h]

/-- Starting from a map `_mergers` that holds every query id once, the handling of
an event leaves a map that holds every query id once. -/
theorem execute_event_nodup {F : Type} (ops : FilterOps F) (env : ExecEnv)
    (fuel : Nat) (shuffle : List TRuntimeFilterDestination → List TRuntimeFilterDestination)
    (now send_now : Int) (_mergers mergers' : List (TUniqueId × RuntimeFilterMerger F))
    (ev : RuntimeFilterWorkerEvent) (events : List Event)
    (hnd : (_mergers.map Prod.fst).Nodup)
    (h : RuntimeFilterWorker.execute_event ops env fuel shuffle now send_now _mergers ev =
      some (mergers', events)) : (mergers'.map Prod.fst).Nodup := by
  unfold RuntimeFilterWorker.execute_event at h
  cases htype : ev.type <;> simp only [htype] at h
  · simp only [Option.some.injEq, Prod.mk.injEq] at h
    rw [← h.1]; exact hnd
  · cases hf : map_find _mergers ev.query_id with
    | none =>
      simp only [hf, Option.some.injEq, Prod.mk.injEq] at h
      rw [← h.1]; exact hnd
    | some old =>
      simp only [hf, Option.some.injEq, Prod.mk.injEq] at h
      rw [← h.1]
      exact hnd.sublist (keys_map_erase_sublist _ _)
  · cases hf : map_find _mergers ev.query_id with
    | none =>
      simp only [hf, Option.some.injEq, Prod.mk.injEq] at h
      rw [← h.1]
      simp only [mergers_insert, hf, List.map_append, List.map_cons, List.map_nil]
      refine List.Nodup.append hnd (List.nodup_singleton _) ?_
      intro q hq1 hq2
      simp only [List.mem_singleton] at hq2
      subst hq2
      exact (map_find_eq_none_iff _ _).mp hf hq1
    | some old =>
      simp only [hf, Option.some.injEq, Prod.mk.injEq] at h
      rw [← h.1]; exact hnd
  · cases hf : map_find _mergers ev.query_id with
    | none =>
      simp only [hf, Option.some.injEq, Prod.mk.injEq] at h
      rw [← h.1]; exact hnd
    | some merger =>
      cases hrun : RuntimeFilterMerger.merge_runtime_filter ops env merger
          ev.transmit_rf_request now send_now with
      | none => simp [hf, hrun] at h
      | some r =>
        simp only [hf, hrun, Option.some.injEq, Prod.mk.injEq] at h
        rw [← h.1, keys_map_set]; exact hnd
  · simp only [Option.some.injEq, Prod.mk.injEq] at h
    rw [← h.1]; exact hnd
  · cases hp : RuntimeFilterWorker._process_send_broadcast_runtime_filter_event ops env fuel
        ev.transmit_rf_request (shuffle ev.destinations) ev.transmit_timeout_ms with
    | none => simp [hp] at h
    | some evs =>
      simp only [hp, Option.map_some', Option.some.injEq, Prod.mk.injEq] at h
      rw [← h.1]; exact hnd

/-- Claim C16. The handling of an `OPEN_QUERY` event sends nothing.  When `_mergers`
has no entry for the query id, it gains the entry built by the constructor and
`init` from the event: the targets are those of the request and the status of a
filter id is there exactly when the builder-number map has the filter id, with that
number as `expect_number`, the `runtime_filter_max_size` of the request as
`max_size`, `current_size = 0`, `stop = false`, and no senders or filters; the
entries of the other queries are as before.  When `_mergers` has an entry for the
query id, the map is returned as it was. -/
theorem C16_open_query_creates_merger_once {F : Type} (ops : FilterOps F) (env : ExecEnv)
    (fuel : Nat) (shuffle : List TRuntimeFilterDestination → List TRuntimeFilterDestination)
    (now send_now : Int) (_mergers : List (TUniqueId × RuntimeFilterMerger F))
    (ev : RuntimeFilterWorkerEvent) (htype : ev.type = EventType.OPEN_QUERY) :
    (map_find _mergers ev.query_id = none →
      ∃ mergers' merger,
        RuntimeFilterWorker.execute_event ops env fuel shuffle now send_now _mergers ev =
          some (mergers', []) ∧
        map_find mergers' ev.query_id = some merger ∧
        (∀ q, q ≠ ev.query_id → map_find mergers' q = map_find _mergers q) ∧
        merger._query_id = ev.query_id ∧
        merger._targets = ev.create_rf_merger_request.id_to_prober_params ∧
        ∀ fid, map_find merger._statuses fid =
          (map_find ev.create_rf_merger_request.runtime_filter_builder_number fid).map
            (fun n =>
              { arrives := [], expect_number := n, filters := [], current_size := 0,
                max_size := ev.create_rf_merger_request.runtime_filter_max_size, stop := false,
                recv_first_filter_ts := 0, recv_last_filter_ts := 0,
                broadcast_filter_ts := 0, pool_cleared := false })) ∧
    (∀ merger, map_find _mergers ev.query_id = some merger →
      RuntimeFilterWorker.execute_event ops env fuel shuffle now send_now _mergers ev =
        some (_mergers, [])) := by
  constructor
  · intro habs
    refine ⟨mergers_insert ev.query_id ((RuntimeFilterMerger.new ev.query_id ev.query_options
        ev.is_opened_by_pipeline).init ev.create_rf_merger_request) _mergers,
      (RuntimeFilterMerger.new ev.query_id ev.query_options
        ev.is_opened_by_pipeline).init ev.create_rf_merger_request, ?_, ?_, ?_, rfl, rfl, ?_⟩
    · simp only [RuntimeFilterWorker.execute_event, htype, habs]
    · simp [map_find_mergers_insert _ _ _ _ habs]
    · intro q hq
      simp [map_find_mergers_insert _ _ _ _ habs, hq]
    · intro fid
      simp only [RuntimeFilterMerger.init, RuntimeFilterMerger.new]
      rw [map_find_init_fold _ _ [] fid rfl]
      rfl
  · intro merger hfound
    simp only [RuntimeFilterWorker.execute_event, htype, hfound]

/-- Claim C16 (witness). Opening query (1, 1) in a worker without mergers installs
the merger built from `example_params 2 1000`. -/
theorem C16_open_query_creates_merger_once_witness :
    ∃ mergers' merger,
      RuntimeFilterWorker.execute_event example_ops example_env 0 id 10 11
        ([] : List (TUniqueId × RuntimeFilterMerger (List Nat)))
        (example_event EventType.OPEN_QUERY 1 (example_call 1 [5]).1) = some (mergers', []) ∧
      map_find mergers' (example_event EventType.OPEN_QUERY 1 (example_call 1 [5]).1).query_id =
        some merger ∧
      (∀ q, q ≠ (example_event EventType.OPEN_QUERY 1 (example_call 1 [5]).1).query_id →
        map_find mergers' q =
          map_find ([] : List (TUniqueId × RuntimeFilterMerger (List Nat))) q) ∧
      merger._query_id = (example_event EventType.OPEN_QUERY 1 (example_call 1 [5]).1).query_id ∧
      merger._targets = (example_event EventType.OPEN_QUERY 1
        (example_call 1 [5]).1).create_rf_merger_request.id_to_prober_params ∧
      ∀ fid, map_find merger._statuses fid =
        (map_find (example_event EventType.OPEN_QUERY 1
            (example_call 1 [5]).1).create_rf_merger_request.runtime_filter_builder_number
          fid).map
          (fun n =>
            { arrives := [], expect_number := n, filters := [], current_size := 0,
              max_size := (example_event EventType.OPEN_QUERY 1
                (example_call 1 [5]).1).create_rf_merger_request.runtime_filter_max_size,
              stop := false, recv_first_filter_ts := 0, recv_last_filter_ts := 0,
              broadcast_filter_ts := 0, pool_cleared := false }) :=
  (C16_open_query_creates_merger_once example_ops example_env 0 id 10 11
    ([] : List (TUniqueId × RuntimeFilterMerger (List Nat)))
    (example_event EventType.OPEN_QUERY 1 (example_call 1 [5]).1) rfl).1 rfl

/-- Claim C17. Starting from a map `_mergers` that holds every query id once, the
handling of a `CLOSE_QUERY` event sends nothing and leaves a map without an entry
for the query id of the event, in which the entry of every other query id is as
before; when there was no entry for the query id, the map is as before.  An
`OPEN_QUERY` event for the same query id handled next installs the merger built by
the constructor and `init` from that event, whatever the erased merger had
collected: in each of its statuses no sender has arrived, no filter is stored and
`current_size` is 0. -/
theorem C17_close_query_erases_merger {F : Type} (ops : FilterOps F) (env : ExecEnv)
    (fuel : Nat) (shuffle : List TRuntimeFilterDestination → List TRuntimeFilterDestination)
    (now send_now : Int) (_mergers : List (TUniqueId × RuntimeFilterMerger F))
    (ev : RuntimeFilterWorkerEvent) (htype : ev.type = EventType.CLOSE_QUERY)
    (hnd : (_mergers.map Prod.fst).Nodup) :
    ∃ mergers',
      RuntimeFilterWorker.execute_event ops env fuel shuffle now send_now _mergers ev =
        some (mergers', []) ∧
      map_find mergers' ev.query_id = none ∧
      (∀ q, q ≠ ev.query_id → map_find mergers' q = map_find _mergers q) ∧
      (map_find _mergers ev.query_id = none → mergers' = _mergers) ∧
      ∀ (fuel2 : Nat) (now2 send_now2 : Int) (ev2 : RuntimeFilterWorkerEvent),
        ev2.type = EventType.OPEN_QUERY → ev2.query_id = ev.query_id →
        ∃ mergers'' merger,
          RuntimeFilterWorker.execute_event ops env fuel2 shuffle now2 send_now2 mergers' ev2 =
            some (mergers'', []) ∧
          map_find mergers'' ev.query_id = some merger ∧
          merger = (RuntimeFilterMerger.new ev2.query_id ev2.query_options
            ev2.is_opened_by_pipeline).init ev2.create_rf_merger_request ∧
          ∀ fid st, map_find merger._statuses fid = some st →
            st.arrives = [] ∧ st.filters = [] ∧ st.current_size = 0 ∧ st.stop = false := by
  have hrun : RuntimeFilterWorker.execute_event ops env fuel shuffle now send_now _mergers ev =
      some (map_erase ev.query_id _mergers, []) := by
    cases hf : map_find _mergers ev.query_id with
    | none =>
      simp only [RuntimeFilterWorker.execute_event, htype, hf, map_erase_of_absent _ _ hf]
    | some old => simp only [RuntimeFilterWorker.execute_event, htype, hf]
  have hgone : map_find (map_erase ev.query_id _mergers) ev.query_id = none := by
    simp [map_find_map_erase _ _ _ hnd]
  refine ⟨map_erase ev.query_id _mergers, hrun, hgone, ?_, map_erase_of_absent _ _, ?_⟩
  · intro q hq
    simp [map_find_map_erase _ _ _ hnd, hq]
  · intro fuel2 now2 send_now2 ev2 htype2 hq2
    have hgone2 : map_find (map_erase ev.query_id _mergers) ev2.query_id = none := by
      rw [hq2]; exact hgone
    refine ⟨mergers_insert ev2.query_id ((RuntimeFilterMerger.new ev2.query_id ev2.query_options
        ev2.is_opened_by_pipeline).init ev2.create_rf_merger_request)
        (map_erase ev.query_id _mergers), _, ?_, ?_, rfl, ?_⟩
    · simp only [RuntimeFilterWorker.execute_event, htype2, hgone2]
    · rw [map_find_mergers_insert _ _ _ _ hgone2]
      simp [hq2]
    · intro fid st hst
      simp only [RuntimeFilterMerger.init, RuntimeFilterMerger.new] at hst
      rw [map_find_init_fold _ _ [] fid rfl] at hst
      cases hb : map_find ev2.create_rf_merger_request.runtime_filter_builder_number fid with
      | none => simp [hb] at hst
      | some n =>
        simp only [hb, Option.map_some', Option.some.injEq] at hst
        subst hst
        exact ⟨rfl, rfl, rfl, rfl⟩

/-- Claim C17 (witness). The map `example_mergers` holds a merger of query (1, 1) in
which sender 1 has been accepted; closing that query erases it. -/
theorem C17_close_query_erases_merger_witness :
    ∃ mergers',
      RuntimeFilterWorker.execute_event example_ops example_env 0 id 10 11 example_mergers
        (example_event EventType.CLOSE_QUERY 1 (example_call 1 [5]).1) = some (mergers', []) ∧
      map_find mergers' (example_event EventType.CLOSE_QUERY 1 (example_call 1 [5]).1).query_id =
        none ∧
      (∀ q, q ≠ (example_event EventType.CLOSE_QUERY 1 (example_call 1 [5]).1).query_id →
        map_find mergers' q = map_find example_mergers q) ∧
      (map_find example_mergers
          (example_event EventType.CLOSE_QUERY 1 (example_call 1 [5]).1).query_id = none →
        mergers' = example_mergers) ∧
      ∀ (fuel2 : Nat) (now2 send_now2 : Int) (ev2 : RuntimeFilterWorkerEvent),
        ev2.type = EventType.OPEN_QUERY →
        ev2.query_id = (example_event EventType.CLOSE_QUERY 1 (example_call 1 [5]).1).query_id →
        ∃ mergers'' merger,
          RuntimeFilterWorker.execute_event example_ops example_env fuel2 id now2 send_now2
            mergers' ev2 = some (mergers'', []) ∧
          map_find mergers''
            (example_event EventType.CLOSE_QUERY 1 (example_call 1 [5]).1).query_id =
            some merger ∧
          merger = (RuntimeFilterMerger.new ev2.query_id ev2.query_options
            ev2.is_opened_by_pipeline).init ev2.create_rf_merger_request ∧
          ∀ fid st, map_find merger._statuses fid = some st →
            st.arrives = [] ∧ st.filters = [] ∧ st.current_size = 0 ∧ st.stop = false :=
  C17_close_query_erases_merger example_ops example_env 0 id 10 11 example_mergers
    (example_event EventType.CLOSE_QUERY 1 (example_call 1 [5]).1) rfl (by decide)

/-- Claim C18. The handling of a `RECEIVE_PART_RF` event.  When `_mergers` has no
entry for the query id of the event, the map is as before and nothing is sent.
Whenever the handling returns, the map holds the same query ids afterwards and the
entry of every query id other than that of the event is as before.  With an entry
for the query id, the handling returns at least when the status of the filter id
of the request in that merger has not had its pool cleared by a distribution; it
can fail to return only by a call of `merge_runtime_filter` that reads the filters
of a status whose pool has been cleared. -/
theorem C18_receive_part_touches_own_merger_only {F : Type} (ops : FilterOps F)
    (env : ExecEnv) (fuel : Nat)
    (shuffle : List TRuntimeFilterDestination → List TRuntimeFilterDestination)
    (now send_now : Int) (_mergers : List (TUniqueId × RuntimeFilterMerger F))
    (ev : RuntimeFilterWorkerEvent) (htype : ev.type = EventType.RECEIVE_PART_RF) :
    (map_find _mergers ev.query_id = none →
      RuntimeFilterWorker.execute_event ops env fuel shuffle now send_now _mergers ev =
        some (_mergers, [])) ∧
    (∀ mergers' events,
      RuntimeFilterWorker.execute_event ops env fuel shuffle now send_now _mergers ev =
        some (mergers', events) →
      mergers'.map Prod.fst = _mergers.map Prod.fst ∧
      ∀ q, q ≠ ev.query_id → map_find mergers' q = map_find _mergers q) ∧
    (∀ merger, map_find _mergers ev.query_id = some merger →
      (∀ st, map_find merger._statuses ev.transmit_rf_request.filter_id = some st →
        st.pool_cleared = false) →
      ∃ mergers' events,
        RuntimeFilterWorker.execute_event ops env fuel shuffle now send_now _mergers ev =
          some (mergers', events)) := by
  cases hf : map_find _mergers ev.query_id with
  | none =>
    have hrun : RuntimeFilterWorker.execute_event ops env fuel shuffle now send_now _mergers
        ev = some (_mergers, []) := by
      simp only [RuntimeFilterWorker.execute_event, htype, hf]
    refine ⟨fun _ => hrun, ?_, fun merger h => by simp at h⟩
    intro mergers' events h
    rw [hrun] at h
    simp only [Option.some.injEq, Prod.mk.injEq] at h
    rw [← h.1]
    exact ⟨rfl, fun _ _ => rfl⟩
  | some merger =>
    refine ⟨fun h => by simp at h, ?_, ?_⟩
    · intro mergers' events h
      cases hrun : RuntimeFilterMerger.merge_runtime_filter ops env merger
          ev.transmit_rf_request now send_now with
      | none => simp [RuntimeFilterWorker.execute_event, htype, hf, hrun] at h
      | some r =>
        simp only [RuntimeFilterWorker.execute_event, htype, hf, hrun, Option.some.injEq,
          Prod.mk.injEq] at h
        rw [← h.1]
        refine ⟨keys_map_set _ _ _, ?_⟩
        intro q hq
        simp [map_find_map_set, hq]
    · intro merger0 hm hp
      simp only [Option.some.injEq] at hm
      subst hm
      obtain ⟨m', sent, hrun⟩ :=
        merge_returns ops env merger ev.transmit_rf_request now send_now hp
      exact ⟨map_set ev.query_id m' _mergers, sent.getD [], by
        simp only [RuntimeFilterWorker.execute_event, htype, hf, hrun]⟩

/-- Claim C18 (witness). A partial filter for query (1, 3), which has no merger in
`example_mergers`. -/
theorem C18_receive_part_touches_own_merger_only_witness :
    RuntimeFilterWorker.execute_event example_ops example_env 0 id 10 11 example_mergers
      (example_event EventType.RECEIVE_PART_RF 3 (example_call 2 [5]).1) =
      some (example_mergers, []) :=
  (C18_receive_part_touches_own_merger_only example_ops example_env 0 id 10 11 example_mergers
    (example_event EventType.RECEIVE_PART_RF 3 (example_call 2 [5]).1) rfl).1 rfl

/-! ## Delivery in the pipeline engine -/

/-- The deliveries of the loop over the targets, target by target. -/
theorem port_deliveries_pipeline_targets (query_ctx : QueryContext) (query_id : TUniqueId)
    (filter_id : Int) :
    ∀ (ids : List PUniqueId) (n : Nat),
      port_deliveries (pipeline_targets query_ctx query_id filter_id ids (2 * n)) =
        (ids.enumFrom n).filterMap (fun it =>
          match query_ctx.fragment_mgr_get (2 * it.1 + 1) { hi := it.2.hi, lo := it.2.lo } with
          | none => none
          | some fragment_ctx =>
            if fragment_ctx.is_canceled = false then some fragment_ctx else none) := by
  intro ids
  induction ids with
  | nil => intro n; rfl
  | cons pb rest ih =>
    intro n
    have ih2 := ih (n + 1)
    rw [show 2 * (n + 1) = 2 * n + 2 by ring] at ih2
    simp only [pipeline_targets, port_deliveries, List.filterMap_append, List.enumFrom_cons,
      List.filterMap_cons, List.filterMap_nil, List.nil_append] at ih2 ⊢
    rw [ih2]
    cases h0 : query_ctx.fragment_mgr_get (2 * n) { hi := pb.hi, lo := pb.lo } <;>
      cases h1 : query_ctx.fragment_mgr_get (2 * n + 1) { hi := pb.hi, lo := pb.lo } with
      | none => simp
      | some fc => cases hc : fc.is_canceled <;> simp [hc]

/-- Claim C19. The fragment contexts whose port is handed the filter by
`receive_total_runtime_filter_pipeline` are, in the order of the targets, exactly
those of `spec_port_deliveries`; so a fragment context is handed the filter if and
only if the query context resolves on the re-check, has active instances and is not
expired, and the fragment context is what the re-check of one of the targets
resolves to and is not canceled. -/
theorem C19_pipeline_delivers_to_live_targets
    (query_context_mgr_get : Nat → TUniqueId → Option QueryContext)
    (params : PTransmitRuntimeFilterParams) :
    port_deliveries (receive_total_runtime_filter_pipeline query_context_mgr_get params) =
      spec_port_deliveries query_context_mgr_get params ∧
    ∀ fragment_ctx,
      fragment_ctx ∈
        port_deliveries (receive_total_runtime_filter_pipeline query_context_mgr_get params) ↔
      ∃ query_ctx,
        query_context_mgr_get 1 { hi := params.query_id.hi, lo := params.query_id.lo } =
          some query_ctx ∧
        query_ctx.has_no_active_instances = false ∧ query_ctx.is_query_expired = false ∧
        ∃ (i : Nat) (h : i < params.probe_finst_ids.length),
          query_ctx.fragment_mgr_get (2 * i + 1)
            { hi := (params.probe_finst_ids[i]).hi, lo := (params.probe_finst_ids[i]).lo } =
            some fragment_ctx ∧
          fragment_ctx.is_canceled = false := by
  have heq : port_deliveries
      (receive_total_runtime_filter_pipeline query_context_mgr_get params) =
      spec_port_deliveries query_context_mgr_get params := by
    have hg : ∀ (q : TUniqueId) (l : List PipelineEvent),
        port_deliveries (PipelineEvent.get_query q :: l) = port_deliveries l := fun _ _ => rfl
    have hc : ∀ (q : TUniqueId) (f : Int) (l : List PipelineEvent),
        port_deliveries (PipelineEvent.put_if_absent q f :: l) = port_deliveries l :=
      fun _ _ _ => rfl
    have hlive : ∀ qc : QueryContext,
        port_deliveries
          (if (qc.has_no_active_instances || qc.is_query_expired) = true then []
            else pipeline_targets qc { hi := params.query_id.hi, lo := params.query_id.lo }
              params.filter_id params.probe_finst_ids 0) =
        if qc.has_no_active_instances = false ∧ qc.is_query_expired = false then
          params.probe_finst_ids.enum.filterMap (fun it =>
            match qc.fragment_mgr_get (2 * it.1 + 1) { hi := it.2.hi, lo := it.2.lo } with
            | none => none
            | some fragment_ctx =>
              if fragment_ctx.is_canceled = false then some fragment_ctx else none)
        else [] := by
      intro qc
      cases ha : qc.has_no_active_instances <;> cases he : qc.is_query_expired
      · simp only [Bool.or_false, Bool.false_eq_true, if_false, and_self, if_true]
        exact port_deliveries_pipeline_targets qc
          { hi := params.query_id.hi, lo := params.query_id.lo } params.filter_id
          params.probe_finst_ids 0
      · simp [port_deliveries]
      · simp [port_deliveries]
      · simp [port_deliveries]
    cases h0 : query_context_mgr_get 0 { hi := params.query_id.hi, lo := params.query_id.lo } <;>
      cases hq : query_context_mgr_get 1
        { hi := params.query_id.hi, lo := params.query_id.lo } with
      | none =>
        simp only [receive_total_runtime_filter_pipeline, spec_port_deliveries, h0, hq,
          List.cons_append, List.nil_append, List.append_nil, hg, hc]
        rfl
      | some qc =>
        simp only [receive_total_runtime_filter_pipeline, spec_port_deliveries, h0, hq,
          List.cons_append, List.nil_append, List.append_nil, hg, hc]
        exact hlive qc
  refine ⟨heq, ?_⟩
  intro fc
  rw [heq]
  unfold spec_port_deliveries
  cases hq : query_context_mgr_get 1 { hi := params.query_id.hi, lo := params.query_id.lo } with
  | none => simp
  | some qc =>
    simp only [Option.some.injEq, exists_eq_left']
    by_cases hlive : qc.has_no_active_instances = false ∧ qc.is_query_expired = false
    · simp only [hlive, and_self, if_true, true_and, List.mem_filterMap]
      constructor
      · rintro ⟨⟨i, pb⟩, hmem, hres⟩
        have hi := List.mem_enum_iff_getElem?.mp hmem
        simp only at hi hres
        obtain ⟨hlt, hget⟩ := List.getElem?_eq_some_iff.mp hi
        subst hget
        refine ⟨i, hlt, ?_⟩
        cases hf : qc.fragment_mgr_get (2 * i + 1)
            { hi := (params.probe_finst_ids[i]).hi, lo := (params.probe_finst_ids[i]).lo } with
        | none => simp [hf] at hres
        | some fc' =>
          simp only [hf] at hres
          by_cases hc : fc'.is_canceled = false
          · simp only [hc, if_true, Option.some.injEq] at hres
            subst hres
            exact ⟨rfl, hc⟩
          · simp [hc] at hres
      · rintro ⟨i, hlt, hf, hc⟩
        refine ⟨(i, params.probe_finst_ids[i]), ?_, ?_⟩
        · exact List.mem_enum_iff_getElem?.mpr (List.getElem?_eq_getElem hlt)
        · simp [hf, hc]
    · simp only [hlive, if_false, List.not_mem_nil, false_iff]
      rintro ⟨h1, h2, _⟩
      exact hlive ⟨h1, h2⟩

/-- The loop over the targets handles a list of targets part by part. -/
theorem pipeline_targets_append (query_ctx : QueryContext) (query_id : TUniqueId)
    (filter_id : Int) (post : List PUniqueId) :
    ∀ (pre : List PUniqueId) (calls : Nat),
      pipeline_targets query_ctx query_id filter_id (pre ++ post) calls =
        pipeline_targets query_ctx query_id filter_id pre calls ++
          pipeline_targets query_ctx query_id filter_id post (calls + 2 * pre.length) := by
  intro pre
  induction pre with
  | nil => intro calls; simp [pipeline_targets]
  | cons pb rest ih =>
    intro calls
    rw [List.cons_append]
    simp only [pipeline_targets, List.length_cons, List.append_assoc]
    rw [ih (calls + 2), show calls + 2 * (rest.length + 1) = calls + 2 + 2 * rest.length by ring]

/-- Claim C20. When the first lookup of the query context fails,
`receive_total_runtime_filter_pipeline` calls `put_if_absent` with the query id and
the filter id right after it and before the second lookup, and when the second
lookup fails too nothing else happens.  Whenever the second lookup fails, no port is
handed the filter.  When the loop reaches a target whose first fragment lookup
fails (the query context resolved on the re-check, is active and not expired, and
`pre` are the targets before it), the calls made up to then are those of the
function for the targets `pre`, and the next ones are the first fragment lookup,
`put_if_absent` with the query id and the filter id, and the second fragment
lookup. -/
theorem C20_failed_lookup_caches_filter
    (query_context_mgr_get : Nat → TUniqueId → Option QueryContext)
    (params : PTransmitRuntimeFilterParams) :
    (query_context_mgr_get 0 { hi := params.query_id.hi, lo := params.query_id.lo } = none →
      ∃ rest,
        receive_total_runtime_filter_pipeline query_context_mgr_get params =
          PipelineEvent.get_query { hi := params.query_id.hi, lo := params.query_id.lo } ::
          PipelineEvent.put_if_absent { hi := params.query_id.hi, lo := params.query_id.lo }
            params.filter_id ::
          PipelineEvent.get_query { hi := params.query_id.hi, lo := params.query_id.lo } ::
          rest ∧
        (query_context_mgr_get 1 { hi := params.query_id.hi, lo := params.query_id.lo } = none →
          rest = [])) ∧
    (query_context_mgr_get 1 { hi := params.query_id.hi, lo := params.query_id.lo } = none →
      port_deliveries (receive_total_runtime_filter_pipeline query_context_mgr_get params) =
        []) ∧
    ∀ (query_ctx : QueryContext) (pre : List PUniqueId) (pb_finst_id : PUniqueId)
      (post : List PUniqueId),
      query_context_mgr_get 1 { hi := params.query_id.hi, lo := params.query_id.lo } =
        some query_ctx →
      query_ctx.has_no_active_instances = false → query_ctx.is_query_expired = false →
      params.probe_finst_ids = pre ++ pb_finst_id :: post →
      query_ctx.fragment_mgr_get (2 * pre.length)
        { hi := pb_finst_id.hi, lo := pb_finst_id.lo } = none →
      ∃ rest,
        receive_total_runtime_filter_pipeline query_context_mgr_get params =
          receive_total_runtime_filter_pipeline query_context_mgr_get
            { params with probe_finst_ids := pre } ++
          PipelineEvent.get_fragment { hi := pb_finst_id.hi, lo := pb_finst_id.lo } ::
          PipelineEvent.put_if_absent { hi := params.query_id.hi, lo := params.query_id.lo }
            params.filter_id ::
          PipelineEvent.get_fragment { hi := pb_finst_id.hi, lo := pb_finst_id.lo } ::
          rest := by
  refine ⟨?_, ?_, ?_⟩
  · intro h0
    cases h1 : query_context_mgr_get 1
        { hi := params.query_id.hi, lo := params.query_id.lo } with
    | none =>
      refine ⟨[], ?_, fun _ => rfl⟩
      simp only [receive_total_runtime_filter_pipeline, h0, h1, List.cons_append,
        List.nil_append]
    | some qc =>
      refine ⟨if qc.has_no_active_instances || qc.is_query_expired then []
        else pipeline_targets qc { hi := params.query_id.hi, lo := params.query_id.lo }
          params.filter_id params.probe_finst_ids 0, ?_, fun h => by simp at h⟩
      simp only [receive_total_runtime_filter_pipeline, h0, h1, List.cons_append,
        List.nil_append]
  · intro h1
    cases h0 : query_context_mgr_get 0 { hi := params.query_id.hi, lo := params.query_id.lo } <;>
      simp [receive_total_runtime_filter_pipeline, h0, h1, port_deliveries]
  · intro qc pre pb post hq ha he hids hfirst
    have hsplit := pipeline_targets_append qc
      { hi := params.query_id.hi, lo := params.query_id.lo } params.filter_id (pb :: post) pre 0
    simp only [Nat.zero_add] at hsplit
    cases hsecond : qc.fragment_mgr_get (2 * pre.length + 1) { hi := pb.hi, lo := pb.lo } with
    | none =>
      refine ⟨pipeline_targets qc { hi := params.query_id.hi, lo := params.query_id.lo }
        params.filter_id post (2 * pre.length + 2), ?_⟩
      simp only [receive_total_runtime_filter_pipeline, hq, ha, he, hids, hsplit,
        Bool.or_false, Bool.false_eq_true, if_false, pipeline_targets, hfirst, hsecond,
        List.append_assoc, List.cons_append, List.nil_append]
    | some fc =>
      refine ⟨(if fc.is_canceled then []
          else [PipelineEvent.receive_shared_runtime_filter fc params.filter_id]) ++
        pipeline_targets qc { hi := params.query_id.hi, lo := params.query_id.lo }
          params.filter_id post (2 * pre.length + 2), ?_⟩
      simp only [receive_total_runtime_filter_pipeline, hq, ha, he, hids, hsplit,
        Bool.or_false, Bool.false_eq_true, if_false, pipeline_targets, hfirst, hsecond,
        List.append_assoc, List.cons_append, List.nil_append]

/-- Claim C20 (witness). The query registers between the first lookup and the
re-check, and so does instance 2, the second of the targets 1, 2, 3: the filter is
cached after the failed query lookup and again after the failed fragment lookup. -/
theorem C20_failed_lookup_caches_filter_witness :
    (∃ rest,
      receive_total_runtime_filter_pipeline example_query_mgr (example_total [1, 2, 3]) =
        PipelineEvent.get_query { hi := (example_total [1, 2, 3]).query_id.hi, lo := (example_total [1, 2, 3]).query_id.lo } ::
        PipelineEvent.put_if_absent { hi := (example_total [1, 2, 3]).query_id.hi, lo := (example_total [1, 2, 3]).query_id.lo }
          (example_total [1, 2, 3]).filter_id ::
        PipelineEvent.get_query { hi := (example_total [1, 2, 3]).query_id.hi, lo := (example_total [1, 2, 3]).query_id.lo } ::
        rest ∧
      (example_query_mgr 1 { hi := (example_total [1, 2, 3]).query_id.hi, lo := (example_total [1, 2, 3]).query_id.lo } = none →
        rest = [])) ∧
    ∃ rest,
      receive_total_runtime_filter_pipeline example_query_mgr (example_total [1, 2, 3]) =
        receive_total_runtime_filter_pipeline example_query_mgr
          { (example_total [1, 2, 3]) with probe_finst_ids := [{ hi := 0, lo := 1 }] } ++
        PipelineEvent.get_fragment { hi := 0, lo := 2 } ::
        PipelineEvent.put_if_absent { hi := (example_total [1, 2, 3]).query_id.hi, lo := (example_total [1, 2, 3]).query_id.lo }
          (example_total [1, 2, 3]).filter_id ::
        PipelineEvent.get_fragment { hi := 0, lo := 2 } ::
        rest :=
  ⟨(C20_failed_lookup_caches_filter example_query_mgr (example_total [1, 2, 3])).1 rfl,
    (C20_failed_lookup_caches_filter example_query_mgr (example_total [1, 2, 3])).2.2 example_query_ctx
      [{ hi := 0, lo := 1 }] { hi := 0, lo := 2 } [{ hi := 0, lo := 3 }] rfl rfl rfl rfl rfl⟩

/-! ## Local delivery through the port -/

/-- The wait list of a filter id after one `add_listener`. -/
theorem map_find_add_listener (self : RuntimeFilterPort) (rf_desc : RuntimeFilterProbeDescriptor)
    (filter_id : Int) :
    map_find (self.add_listener rf_desc)._listeners filter_id =
      if filter_id = rf_desc.filter_id then
        some ((map_find self._listeners filter_id).getD [] ++ [rf_desc])
      else map_find self._listeners filter_id := by
  simp only [RuntimeFilterPort.add_listener]
  cases h1 : map_find self._listeners rf_desc.filter_id with
  | some wait_list =>
    simp only [h1, map_find_map_set]
    by_cases ha : filter_id = rf_desc.filter_id
    · subst ha; simp [h1]
    · simp [ha]
  | none =>
    have h2 : map_find (map_insert rf_desc.filter_id [] self._listeners) rf_desc.filter_id =
        some [] := by
      rw [map_find_map_insert]; simp [h1]
    simp only [h1, h2, map_find_map_set]
    by_cases ha : filter_id = rf_desc.filter_id
    · subst ha; simp [h1]
    · have ha2 : ¬ rf_desc.filter_id = filter_id := fun e => ha e.symm
      simp [ha, map_find_map_insert, ha2]

/-- The wait list of a filter id after a sequence of `add_listener` calls. -/
theorem map_find_foldl_add_listener (rf_descs : List RuntimeFilterProbeDescriptor)
    (filter_id : Int) :
    ∀ port : RuntimeFilterPort,
      map_find (rf_descs.foldl RuntimeFilterPort.add_listener port)._listeners filter_id =
        if rf_descs.filter (fun d => decide (d.filter_id = filter_id)) = [] then
          map_find port._listeners filter_id
        else some ((map_find port._listeners filter_id).getD [] ++
          rf_descs.filter (fun d => decide (d.filter_id = filter_id))) := by
  induction rf_descs with
  | nil => intro port; simp
  | cons x rest ih =>
    intro port
    simp only [List.foldl_cons]
    rw [ih, map_find_add_listener]
    by_cases hx : x.filter_id = filter_id
    · have hx2 : filter_id = x.filter_id := hx.symm
      simp only [hx2, List.filter_cons, decide_True, if_true]
      by_cases hr : rest.filter (fun d => decide (d.filter_id = x.filter_id)) = []
      · simp [hr]
      · simp [hr]
    · have hx2 : ¬ filter_id = x.filter_id := fun e => hx e.symm
      simp [hx, hx2, List.filter_cons]

/-- Claim C21. Start from a port without listeners and register the probe
descriptors `rf_descs` by `add_listener`, in this order.  Then
`receive_runtime_filter(filter_id, rf)` calls `set_runtime_filter(rf)` on exactly
the registered descriptors whose filter id is `filter_id`, once per registration and
in the order of registration; so a descriptor registered for this filter id is
set, a descriptor with another filter id is not, and nothing is set when no
descriptor was registered for the filter id. -/
theorem C21_local_delivery_reaches_registered_listeners {F : Type}
    (rf_descs : List RuntimeFilterProbeDescriptor) (filter_id : Int) (rf : F) :
    RuntimeFilterPort.receive_runtime_filter
        (rf_descs.foldl RuntimeFilterPort.add_listener { _listeners := [] }) filter_id rf =
      (rf_descs.filter (fun d => decide (d.filter_id = filter_id))).map (fun d => (d, rf)) ∧
    (∀ d ∈ rf_descs, d.filter_id = filter_id →
      (d, rf) ∈ RuntimeFilterPort.receive_runtime_filter
        (rf_descs.foldl RuntimeFilterPort.add_listener { _listeners := [] }) filter_id rf) ∧
    (∀ d rf', d.filter_id ≠ filter_id →
      (d, rf') ∉ RuntimeFilterPort.receive_runtime_filter
        (rf_descs.foldl RuntimeFilterPort.add_listener { _listeners := [] }) filter_id rf) ∧
    ((∀ d ∈ rf_descs, d.filter_id ≠ filter_id) →
      RuntimeFilterPort.receive_runtime_filter
        (rf_descs.foldl RuntimeFilterPort.add_listener { _listeners := [] }) filter_id rf =
        []) := by
  have heq : RuntimeFilterPort.receive_runtime_filter
      (rf_descs.foldl RuntimeFilterPort.add_listener { _listeners := [] }) filter_id rf =
      (rf_descs.filter (fun d => decide (d.filter_id = filter_id))).map (fun d => (d, rf)) := by
    unfold RuntimeFilterPort.receive_runtime_filter
    rw [map_find_foldl_add_listener]
    by_cases h : rf_descs.filter (fun d => decide (d.filter_id = filter_id)) = []
    · simp [h, map_find]
    · simp [h, map_find]
  refine ⟨heq, ?_, ?_, ?_⟩
  · intro d hd hf
    rw [heq]
    exact List.mem_map.mpr ⟨d, List.mem_filter.mpr ⟨hd, by simpa using hf⟩, rfl⟩
  · intro d rf' hf hmem
    rw [heq] at hmem
    obtain ⟨d', hd', heq'⟩ := List.mem_map.mp hmem
    simp only [Prod.mk.injEq] at heq'
    have h2 := (List.mem_filter.mp hd').2
    rw [heq'.1] at h2
    exact hf (by simpa using h2)
  · intro hnone
    rw [heq]
    have : rf_descs.filter (fun d => decide (d.filter_id = filter_id)) = [] := by
      rw [List.filter_eq_nil_iff]
      intro d hd
      simpa using hnone d hd
    rw [this]
    rfl

/-! ## Partial filters to the merge nodes -/

/-- Claim C22. The handling of a `SEND_PART_RF` event with the address list `A`
leaves `_mergers` as it is, and its RPCs are exactly `|A|`, the `i`-th to `A[i]`,
each with the timeout of the event and the request of the event as it is (the
forward targets, the instance ids and the payload are those of the event); the
only other event is the join of these `|A|` RPCs at the end. -/
theorem C22_send_part_one_rpc_per_address {F : Type} (ops : FilterOps F) (env : ExecEnv)
    (fuel : Nat) (shuffle : List TRuntimeFilterDestination → List TRuntimeFilterDestination)
    (now send_now : Int) (_mergers : List (TUniqueId × RuntimeFilterMerger F))
    (ev : RuntimeFilterWorkerEvent) (htype : ev.type = EventType.SEND_PART_RF) :
    ∃ events,
      RuntimeFilterWorker.execute_event ops env fuel shuffle now send_now _mergers ev =
        some (_mergers, events) ∧
      events = ev.transmit_addrs.map (fun addr =>
          Event.send_rpc addr ev.transmit_timeout_ms ev.transmit_rf_request) ++
        [Event.join ev.transmit_addrs.length] ∧
      (events.filter is_send_rpc).length = ev.transmit_addrs.length ∧
      ∀ i (h : i < ev.transmit_addrs.length),
        (events.filter is_send_rpc)[i]? =
          some (Event.send_rpc (ev.transmit_addrs[i]) ev.transmit_timeout_ms
            ev.transmit_rf_request) := by
  have hfilter : (ev.transmit_addrs.map (fun addr =>
        Event.send_rpc addr ev.transmit_timeout_ms ev.transmit_rf_request) ++
      [Event.join ev.transmit_addrs.length]).filter is_send_rpc =
      ev.transmit_addrs.map (fun addr =>
        Event.send_rpc addr ev.transmit_timeout_ms ev.transmit_rf_request) := by
    rw [List.filter_append]
    have h1 : ∀ l : List TNetworkAddress, (l.map (fun addr =>
        Event.send_rpc addr ev.transmit_timeout_ms ev.transmit_rf_request)).filter is_send_rpc =
        l.map (fun addr => Event.send_rpc addr ev.transmit_timeout_ms ev.transmit_rf_request) := by
      intro l
      induction l with
      | nil => rfl
      | cons a rest ih => simp [List.filter_cons, is_send_rpc, ih]
    rw [h1]
    simp [is_send_rpc]
  refine ⟨_, ?_, rfl, ?_, ?_⟩
  · simp only [RuntimeFilterWorker.execute_event, htype,
      RuntimeFilterWorker._deliver_part_runtime_filter]
  · rw [hfilter, List.length_map]
  · intro i h
    rw [hfilter]
    simp [h]

/-- Claim C22 (witness). A partial filter sent to the merge nodes `be1` and `be2`. -/
theorem C22_send_part_one_rpc_per_address_witness :
    ∃ events,
      RuntimeFilterWorker.execute_event example_ops example_env 0 id 10 11 example_mergers
        { example_event EventType.SEND_PART_RF 1 (example_call 1 [5]).1 with
          transmit_addrs := [{ hostname := "be1", port := 8060 },
            { hostname := "be2", port := 8060 }] } = some (example_mergers, events) ∧
      events = [Event.send_rpc { hostname := "be1", port := 8060 } 100 (example_call 1 [5]).1,
        Event.send_rpc { hostname := "be2", port := 8060 } 100 (example_call 1 [5]).1,
        Event.join 2] :=
  (C22_send_part_one_rpc_per_address example_ops example_env 0 id 10 11 example_mergers
    { example_event EventType.SEND_PART_RF 1 (example_call 1 [5]).1 with
      transmit_addrs := [{ hostname := "be1", port := 8060 },
        { hostname := "be2", port := 8060 }] } rfl).imp (fun _ h => ⟨h.1, h.2.1⟩)

/-! ## Depth of the relay tree -/

/-- One hop above the depth for half as many targets is the depth for all. -/
theorem log_half_succ (n : Nat) (hn : 1 ≤ n) :
    (if n / 2 = 0 then 0 else Nat.log 2 (n / 2) + 1) + 1 = Nat.log 2 n + 1 := by
  by_cases h : n / 2 = 0
  · have h1 : n = 1 := by omega
    subst h1
    simp
  · simp only [h, if_false]
    have h2 : 2 ≤ n := by omega
    have h3 : Nat.log 2 n = Nat.log 2 (n / 2) + 1 := Nat.log_of_one_lt_of_le (by omega) h2
    omega

/-- The depth for fewer targets is not larger. -/
theorem log_depth_mono (k n : Nat) (hk : k ≤ n) :
    (if k = 0 then 0 else Nat.log 2 k + 1) ≤ Nat.log 2 n + 1 := by
  split
  · omega
  · have := Nat.log_mono_right (b := 2) hk
    omega

/-- With fuel for one unit per target, the relay tree under the RPCs that the
forward loop sends for `n` remaining targets has depth 0 when `n = 0` and
`log2 n + 1` otherwise. -/
theorem relay_depth_forward_loop (timeout_ms : Int) :
    ∀ (n : Nat) (targets : List PTransmitRuntimeFilterForwardTarget) (index fuel : Nat)
      (request : PTransmitRuntimeFilterParams),
      targets.length - index = n → n ≤ fuel →
      relay_depth timeout_ms fuel (forward_loop timeout_ms request targets index) =
        some (if n = 0 then 0 else Nat.log 2 n + 1) := by
  intro n
  induction n using Nat.strong_induction_on with
  | _ n ih =>
    intro targets index fuel request hn hfuel
    rw [forward_loop]
    by_cases h : index < targets.length
    · simp only [h, dite_true]
      have hn1 : 1 ≤ n := by omega
      obtain ⟨fuel', rfl⟩ : ∃ f, fuel = f + 1 := ⟨fuel - 1, by omega⟩
      have hlen : ((targets.drop (index + 1)).take ((targets.length - index) / 2)).length =
          n / 2 := by
        rw [List.length_take, List.length_drop, hn]
        omega
      have hd1 := ih (n / 2) (by omega)
        ((targets.drop (index + 1)).take ((targets.length - index) / 2)) 0 fuel'
        { request with
          probe_finst_ids := (targets[index]).probe_finst_ids
          forward_targets := (targets.drop (index + 1)).take ((targets.length - index) / 2) }
        (by rw [hlen]; rfl) (by omega)
      have hd2 := ih (n - (1 + n / 2)) (by omega) targets
        (index + (1 + (targets.length - index) / 2)) fuel'
        { request with
          probe_finst_ids := (targets[index]).probe_finst_ids
          forward_targets := (targets.drop (index + 1)).take ((targets.length - index) / 2) }
        (by rw [hn]; omega) (by omega)
      have hne : ¬ n = 0 := by omega
      simp only [relay_depth, hd1, hd2, hne, if_false, Option.some.injEq]
      rw [log_half_succ n hn1]
      exact max_eq_left (log_depth_mono _ n (by omega))
    · simp only [h, dite_false]
      have h0 : n = 0 := by omega
      simp [relay_depth, h0]

/-- With fuel for one unit per target and one more, the relay tree under the RPCs
that the loop of `_send_total_runtime_filter` sends for `n ≥ 1` remaining targets
has depth at most `log2 n + 1`. -/
theorem relay_depth_send_total_loop (receiver_timeout_ms timeout_ms : Int)
    (loc : TNetworkAddress) :
    ∀ (n : Nat) (targets : List (TNetworkAddress × List TUniqueId)) (index fuel : Nat)
      (request : PTransmitRuntimeFilterParams),
      targets.length - index = n → n ≤ fuel →
      ∃ d, relay_depth receiver_timeout_ms fuel
          (send_total_loop loc timeout_ms request targets index) = some d ∧
        d ≤ if n = 0 then 0 else Nat.log 2 n + 1 := by
  intro n
  induction n using Nat.strong_induction_on with
  | _ n ih =>
    intro targets index fuel request hn hfuel
    rw [send_total_loop]
    by_cases h : index < targets.length
    · simp only [h, dite_true]
      have hn1 : 1 ≤ n := by omega
      have hne : ¬ n = 0 := by omega
      obtain ⟨fuel', rfl⟩ : ∃ f, fuel = f + 1 := ⟨fuel - 1, by omega⟩
      by_cases hl : loc = (targets[index]).1
      · have hd : decide (loc = (targets[index]).1) = true := decide_eq_true hl
        simp only [hd, if_true, List.take_zero, List.map_nil]
        obtain ⟨d2, hd2, hb2⟩ := ih (n - 1) (by omega) targets (index + (1 + 0)) fuel'
          { request with
            probe_finst_ids := (targets[index]).2.map to_pb
            forward_targets := [] }
          (by omega) (by omega)
        have hd1 := relay_depth_forward_loop receiver_timeout_ms 0 [] 0 fuel'
          { request with
            probe_finst_ids := (targets[index]).2.map to_pb
            forward_targets := [] }
          rfl (by omega)
        simp only [if_true] at hd1
        refine ⟨max (0 + 1) d2, ?_, ?_⟩
        · simp only [relay_depth, hd1, hd2]
        · simp only [hne, if_false]
          have := log_depth_mono (n - 1) n (by omega)
          exact max_le (by omega) (by omega)
      · have hd : decide (loc = (targets[index]).1) = false := decide_eq_false hl
        simp only [hd, Bool.false_eq_true, if_false]
        have hlen : (((targets.drop (index + 1)).take ((targets.length - index) / 2)).map
            to_forward_target).length = n / 2 := by
          rw [List.length_map, List.length_take, List.length_drop, hn]
          omega
        have hd1 := relay_depth_forward_loop receiver_timeout_ms (n / 2)
          (((targets.drop (index + 1)).take ((targets.length - index) / 2)).map
            to_forward_target) 0 fuel'
          { request with
            probe_finst_ids := (targets[index]).2.map to_pb
            forward_targets := ((targets.drop (index + 1)).take
              ((targets.length - index) / 2)).map to_forward_target }
          (by rw [hlen]; rfl) (by omega)
        obtain ⟨d2, hd2, hb2⟩ := ih (n - (1 + n / 2)) (by omega) targets
          (index + (1 + (targets.length - index) / 2)) fuel'
          { request with
            probe_finst_ids := (targets[index]).2.map to_pb
            forward_targets := ((targets.drop (index + 1)).take
              ((targets.length - index) / 2)).map to_forward_target }
          (by rw [hn]; omega) (by omega)
        refine ⟨max ((if n / 2 = 0 then 0 else Nat.log 2 (n / 2) + 1) + 1) d2, ?_, ?_⟩
        · simp only [relay_depth, hd1, hd2]
        · simp only [hne, if_false]
          rw [log_half_succ n hn1]
          have := log_depth_mono (n - (1 + n / 2)) n (by omega)
          exact max_le (le_refl _) (by omega)
    · simp only [h, dite_false]
      have h0 : n = 0 := by omega
      exact ⟨0, by simp [relay_depth], by simp⟩

/-- Claim C23. Let a node run the forward loop of `_receive_total_runtime_filter`
over `M ≥ 1` forward targets, and let every receiver of an RPC do the same with the
forward targets it is handed.  With fuel for one unit per target the unfolding
ends, and the longest chain of hops from the splitting node to a target is
`floor(log2 M) + 1`.  When the splitting node is the merger, which runs the loop of
`_send_total_runtime_filter` over `M` coalesced targets, the longest chain is at
most `floor(log2 M) + 1`. -/
theorem C23_relay_tree_depth_is_logarithmic (timeout_ms : Int)
    (request : PTransmitRuntimeFilterParams)
    (targets : List PTransmitRuntimeFilterForwardTarget) (fuel : Nat)
    (hM : 1 ≤ targets.length) (hfuel : targets.length ≤ fuel) :
    relay_depth timeout_ms fuel (forward_loop timeout_ms request targets 0) =
      some (Nat.log 2 targets.length + 1) ∧
    ∀ (loc : TNetworkAddress) (merger_timeout_ms : Int)
      (merger_targets : List (TNetworkAddress × List TUniqueId)),
      merger_targets.length = targets.length →
      ∃ d, relay_depth timeout_ms fuel
          (send_total_loop loc merger_timeout_ms request merger_targets 0) = some d ∧
        d ≤ Nat.log 2 targets.length + 1 := by
  have hne : ¬ targets.length = 0 := by omega
  constructor
  · have h := relay_depth_forward_loop timeout_ms targets.length targets 0 fuel request rfl hfuel
    simpa [hne] using h
  · intro loc mt mtargets hlen
    obtain ⟨d, hd, hb⟩ := relay_depth_send_total_loop timeout_ms mt loc targets.length mtargets
      0 fuel request (by omega) hfuel
    simp only [hne, if_false] at hb
    exact ⟨d, hd, hb⟩

/-- Claim C23 (witness). Four forward targets: the longest chain has
`floor(log2 4) + 1 = 3` hops. -/
theorem C23_relay_tree_depth_is_logarithmic_witness :
    relay_depth 400 4
        (forward_loop 400 example_forward_request example_forward_request.forward_targets 0) =
      some (Nat.log 2 example_forward_request.forward_targets.length + 1) ∧
    ∀ (loc : TNetworkAddress) (merger_timeout_ms : Int)
      (merger_targets : List (TNetworkAddress × List TUniqueId)),
      merger_targets.length = example_forward_request.forward_targets.length →
      ∃ d, relay_depth 400 4
          (send_total_loop loc merger_timeout_ms example_forward_request merger_targets 0) =
          some d ∧
        d ≤ Nat.log 2 example_forward_request.forward_targets.length + 1 :=
  C23_relay_tree_depth_is_logarithmic 400 example_forward_request
    example_forward_request.forward_targets 4 (by decide) (by decide)

/-! ## The size budget -/

/-- Claim C24. Take a call of `merge_runtime_filter` that passes the target, the
duplicate, the stop and the deserialization checks, in a status whose stored
filters all belong to arrived senders; let `c` be `current_size` and `s` the size
of the deserialized payload.  If `c + s ≤ max_size`, equality included, the sender
is added to `arrives`, its filter is stored under its number in `filters`,
`current_size` becomes `c + s` and `stop` stays false: these stores make the merger
`m1`, with which the call returns when fewer filters than expected are stored, and
on which it calls `_send_total_runtime_filter` otherwise; when the pool of the
status has not been cleared the call returns, and the stores are in the status it
leaves.  If `c + s > max_size`, the call sets `stop`, does not distribute, and
leaves `arrives` and `filters` as they were, so the sender is in neither. -/
theorem C24_size_budget_boundary {F : Type} (ops : FilterOps F) (env : ExecEnv)
    (m : RuntimeFilterMerger F) (params : PTransmitRuntimeFilterParams) (now send_now : Int)
    (st : RuntimeFilterMergerStatus F) (tn : List TRuntimeFilterProberParams) (rf : F)
    (ht : map_find m._targets params.filter_id = some tn) (htn : tn ≠ [])
    (hs : map_find m._statuses params.filter_id = some st)
    (hnew : params.build_be_number ∉ st.arrives) (hstop : st.stop = false)
    (hd : ops.deserialize_runtime_filter params.data = some rf)
    (hkeys : ∀ b, b ∈ st.filters.map Prod.fst → b ∈ st.arrives) :
    (st.current_size + ops.size rf ≤ st.max_size →
      ∃ m1 st1,
        map_find m1._statuses params.filter_id = some st1 ∧
        st1.arrives = st.arrives.insert params.build_be_number ∧
        params.build_be_number ∈ st1.arrives ∧
        st1.filters = map_insert params.build_be_number rf st.filters ∧
        map_find st1.filters params.build_be_number = some rf ∧
        st1.current_size = st.current_size + ops.size rf ∧ st1.stop = false ∧
        RuntimeFilterMerger.merge_runtime_filter ops env m params now send_now =
          (if st1.filters.length < st.expect_number then some (m1, none)
           else (RuntimeFilterMerger._send_total_runtime_filter ops env m1 params.filter_id
             send_now).map (fun r => (r.1, some r.2))) ∧
        (st.pool_cleared = false →
          ∃ m' sent st',
            RuntimeFilterMerger.merge_runtime_filter ops env m params now send_now =
              some (m', sent) ∧
            map_find m'._statuses params.filter_id = some st' ∧
            st'.arrives = st.arrives.insert params.build_be_number ∧
            params.build_be_number ∈ st'.arrives ∧
            st'.filters = map_insert params.build_be_number rf st.filters ∧
            map_find st'.filters params.build_be_number = some rf ∧
            st'.current_size = st.current_size + ops.size rf ∧ st'.stop = false)) ∧
    (st.max_size < st.current_size + ops.size rf →
      ∃ m' st',
        RuntimeFilterMerger.merge_runtime_filter ops env m params now send_now =
          some (m', none) ∧
        map_find m'._statuses params.filter_id = some st' ∧
        st'.stop = true ∧ st'.current_size = st.current_size + ops.size rf ∧
        st'.arrives = st.arrives ∧ st'.filters = st.filters ∧
        params.build_be_number ∉ st'.arrives ∧
        map_find st'.filters params.build_be_number = none) := by
  have habs : map_find st.filters params.build_be_number = none :=
    (map_find_eq_none_iff _ _).mpr (fun h => hnew (hkeys _ h))
  have hlen : tn.length ≠ 0 := fun h => htn (List.length_eq_zero.mp h)
  constructor
  · intro hfit
    have hgt : ¬ (st.current_size + ops.size rf > st.max_size) := by omega
    let st1 : RuntimeFilterMergerStatus F :=
      { arrives := st.arrives.insert params.build_be_number,
        expect_number := st.expect_number,
        filters := map_insert params.build_be_number rf st.filters,
        current_size := st.current_size + ops.size rf, max_size := st.max_size, stop := false,
        recv_first_filter_ts :=
          if st.recv_first_filter_ts = 0 then now else st.recv_first_filter_ts,
        recv_last_filter_ts := now, broadcast_filter_ts := st.broadcast_filter_ts,
        pool_cleared := st.pool_cleared }
    have hfound : map_find st1.filters params.build_be_number = some rf := by
      show map_find (map_insert params.build_be_number rf st.filters) params.build_be_number =
        some rf
      rw [map_find_map_insert]
      simp [habs]
    refine ⟨{ m with _statuses := map_set params.filter_id st1 m._statuses }, st1, ?_, rfl,
      List.mem_insert_self _ _, rfl, hfound, rfl, rfl, ?_, ?_⟩
    · simp [map_find_map_set, hs]
    · simp only [RuntimeFilterMerger.merge_runtime_filter, ht, hlen, hs, hnew, hstop, hd, hgt,
        if_true, if_false, Bool.false_eq_true]
    · intro hpool
      obtain ⟨m', sent, st', hrun, _, _, hst', harr, hfil, hcur, _, _, hstop', _⟩ :=
        merge_accept ops env m params now send_now st tn rf ht htn hs hnew hstop hd hfit habs
          hpool
      refine ⟨m', sent, st', hrun, hst', harr, ?_, hfil, ?_, hcur, hstop'⟩
      · rw [harr]
        exact List.mem_insert_self _ _
      · rw [hfil, map_find_map_insert]
        simp [habs]
  · intro hover
    let st1 : RuntimeFilterMergerStatus F :=
      { arrives := st.arrives, expect_number := st.expect_number,
        filters := st.filters, current_size := st.current_size + ops.size rf,
        max_size := st.max_size, stop := true,
        recv_first_filter_ts :=
          if st.recv_first_filter_ts = 0 then now else st.recv_first_filter_ts,
        recv_last_filter_ts := now,
        broadcast_filter_ts := st.broadcast_filter_ts, pool_cleared := st.pool_cleared }
    refine ⟨{ m with _statuses := map_set params.filter_id st1 m._statuses }, st1, ?_, ?_,
      rfl, rfl, rfl, rfl, hnew, habs⟩
    · have hgt : st.current_size + ops.size rf > st.max_size := hover
      simp only [RuntimeFilterMerger.merge_runtime_filter, ht, hlen, hs, hnew, hstop,
        hd, hgt, if_true, if_false, Bool.false_eq_true]
    · simp [map_find_map_set, hs]

/-- Claim C24 (witness). A budget of 500 bytes with 300 bytes collected from sender 1:
200 bytes from sender 2 are accepted (the sum is exactly 500), 201 bytes are turned
down. -/
theorem C24_size_budget_boundary_witness :
    (∃ m' sent st',
      RuntimeFilterMerger.merge_runtime_filter example_ops example_env
        (example_merger_with (example_status 3 300 500)) (example_call 2 [200]).1 10 11 =
        some (m', sent) ∧
      map_find m'._statuses (example_call 2 [200]).1.filter_id = some st' ∧
      st'.arrives = (example_status 3 300 500).arrives.insert
        (example_call 2 [200]).1.build_be_number ∧
      (example_call 2 [200]).1.build_be_number ∈ st'.arrives ∧
      st'.filters = map_insert (example_call 2 [200]).1.build_be_number [200]
        (example_status 3 300 500).filters ∧
      map_find st'.filters (example_call 2 [200]).1.build_be_number = some [200] ∧
      st'.current_size = (example_status 3 300 500).current_size + example_ops.size [200] ∧
      st'.stop = false) ∧
    ∃ m' st',
      RuntimeFilterMerger.merge_runtime_filter example_ops example_env
        (example_merger_with (example_status 3 300 500)) (example_call 2 [201]).1 10 11 =
        some (m', none) ∧
      map_find m'._statuses (example_call 2 [201]).1.filter_id = some st' ∧
      st'.stop = true ∧
      st'.current_size = (example_status 3 300 500).current_size + example_ops.size [201] ∧
      st'.arrives = (example_status 3 300 500).arrives ∧
      st'.filters = (example_status 3 300 500).filters ∧
      (example_call 2 [201]).1.build_be_number ∉ st'.arrives ∧
      map_find st'.filters (example_call 2 [201]).1.build_be_number = none :=
  ⟨by
      obtain ⟨_, _, _, _, _, _, _, _, _, _, hret⟩ :=
        (C24_size_budget_boundary example_ops example_env
          (example_merger_with (example_status 3 300 500)) (example_call 2 [200]).1 10 11
          (example_status 3 300 500) [example_prober "be1" 1] [200] rfl (by decide) rfl
          (by decide) rfl rfl (by decide)).1 (by decide)
      exact hret rfl,
    (C24_size_budget_boundary example_ops example_env
      (example_merger_with (example_status 3 300 500)) (example_call 2 [201]).1 10 11
      (example_status 3 300 500) [example_prober "be1" 1] [201] rfl (by decide) rfl
      (by decide) rfl rfl (by decide)).2 (by decide)⟩

/-! ## The origin of a relayed broadcast -/

/-- Claim C25 (counterexample). Four remote destinations and a payload of 3 bytes,
above the passthrough limit of 2: the origin sends a single RPC, to `be1`, and it
carries all of `be2`, `be3`, `be4` as forward targets.  A halving split at the
origin would attach `(4 - 0) / 2 = 2` of them and send a second RPC to `be4`. -/
theorem C25_relay_origin_sends_a_single_rpc :
    (RuntimeFilterWorker._process_send_broadcast_runtime_filter_event example_ops example_env
        4 { data := [1, 2, 3] }
        [example_destination "be1" 1, example_destination "be2" 2,
          example_destination "be3" 3, example_destination "be4" 4] 5).map
      (fun evs => (evs.filter is_send_rpc).map (fun e =>
        match e with
        | Event.send_rpc addr _ request =>
          (addr.hostname, request.forward_targets.map (fun ft => ft.host))
        | _ => ("", []))) =
      some [("be1", ["be2", "be3", "be4"])] := by
  simp [RuntimeFilterWorker._process_send_broadcast_runtime_filter_event, split_local,
    put_local_last, swap_destinations, example_destination, example_env, example_ops,
    RuntimeFilterWorker._deliver_broadcast_runtime_filter_relay, is_send_rpc, to_pb]

/-- Claim C25 (amended). In relay mode (the payload is larger than the passthrough
limit) the origin of a SEND_BROADCAST_GRF event whose remote destinations are
`first :: rest` returns, and it sends exactly one RPC: to `first`, with the
instance ids of `first`, the payload of the event, and all of `rest` as forward
targets.  The split into halves is left to the receivers: when every receiver runs
the forward loop of `_receive_total_runtime_filter` on the forward targets it is
handed, the RPCs that arrive are those of `first :: rest`, one per destination and
with its own instance ids. -/
theorem C25_relay_origin_hands_rest_to_first {F : Type} (ops : FilterOps F) (env : ExecEnv)
    (fuel : Nat) (params : PTransmitRuntimeFilterParams)
    (destinations : List TRuntimeFilterDestination) (timeout_ms : Int)
    (local_dest : Option TRuntimeFilterDestination)
    (first : TRuntimeFilterDestination) (rest : List TRuntimeFilterDestination)
    (receiver_timeout_ms : Int) (hops : Nat)
    (hbig : env.config.deliver_broadcast_rf_passthrough_bytes_limit < params.data.length)
    (hsplit : split_local { hostname := env.localhost, port := env.config.brpc_port }
      destinations = some (local_dest, first :: rest))
    (hhops : rest.length + 1 ≤ hops) :
    ∃ evs request,
      RuntimeFilterWorker._process_send_broadcast_runtime_filter_event ops env fuel params
        destinations timeout_ms = some evs ∧
      evs.filter is_send_rpc = [Event.send_rpc first.address timeout_ms request] ∧
      request.probe_finst_ids = first.finstance_ids.map to_pb ∧
      request.forward_targets = rest.map (fun dest =>
        { host := dest.address.hostname, port := dest.address.port,
          probe_finst_ids := dest.finstance_ids.map to_pb }) ∧
      request.data = params.data ∧
      relay_deliveries receiver_timeout_ms hops (evs.filter is_send_rpc) =
        some ((first :: rest).map (fun dest => (dest.address, dest.finstance_ids.map to_pb))) := by
  obtain ⟨local_events, request, hlocal, _, _, hrelay, hrun⟩ :=
    process_send_broadcast_of_split ops env fuel params destinations timeout_ms local_dest
      (first :: rest) hsplit
  have hnot : ¬ params.data.length ≤ env.config.deliver_broadcast_rf_passthrough_bytes_limit := by
    omega
  simp only [List.length_cons, Nat.add_one_ne_zero, if_false, hnot] at hrun
  rw [hrelay] at hrun
  simp only [RuntimeFilterWorker._deliver_broadcast_runtime_filter_relay,
    Option.map_some'] at hrun
  have hfilter : (local_events ++
      [Event.send_rpc first.address timeout_ms
        { params with
          is_partial := false
          probe_finst_ids := first.finstance_ids.map to_pb
          forward_targets := rest.map (fun dest =>
            { host := dest.address.hostname, port := dest.address.port,
              probe_finst_ids := dest.finstance_ids.map to_pb }) },
        Event.join 1]).filter is_send_rpc =
      [Event.send_rpc first.address timeout_ms
        { params with
          is_partial := false
          probe_finst_ids := first.finstance_ids.map to_pb
          forward_targets := rest.map (fun dest =>
            { host := dest.address.hostname, port := dest.address.port,
              probe_finst_ids := dest.finstance_ids.map to_pb }) }] := by
    rw [List.filter_append, hlocal]
    simp [is_send_rpc]
  refine ⟨_, _, hrun, hfilter, rfl, rfl, rfl, ?_⟩
  rw [hfilter, relay_deliveries_eq receiver_timeout_ms hops _ (by
    simp only [relay_fuel, List.length_map]
    omega)]
  simp only [List.flatMap_cons, List.flatMap_nil, List.append_nil, rpc_targets, List.map_map,
    List.map_cons, Option.some.injEq, List.cons.injEq, true_and]
  apply List.map_congr_left
  intro d _
  simp [forward_target_pair, address_eta]

/-- Claim C25 (witness). The four remote destinations `be1` to `be4` with a payload
of 3 bytes, above the passthrough limit of 2. -/
theorem C25_relay_origin_hands_rest_to_first_witness :
    ∃ evs request,
      RuntimeFilterWorker._process_send_broadcast_runtime_filter_event example_ops example_env
        4 { data := [1, 2, 3] }
        [example_destination "be1" 1, example_destination "be2" 2,
          example_destination "be3" 3, example_destination "be4" 4] 5 = some evs ∧
      evs.filter is_send_rpc =
        [Event.send_rpc (example_destination "be1" 1).address 5 request] ∧
      request.probe_finst_ids = (example_destination "be1" 1).finstance_ids.map to_pb ∧
      request.forward_targets =
        [example_destination "be2" 2, example_destination "be3" 3,
          example_destination "be4" 4].map (fun dest =>
        { host := dest.address.hostname, port := dest.address.port,
          probe_finst_ids := dest.finstance_ids.map to_pb }) ∧
      request.data = ({ data := [1, 2, 3] } : PTransmitRuntimeFilterParams).data ∧
      relay_deliveries 400 4 (evs.filter is_send_rpc) =
        some ((example_destination "be1" 1 ::
          [example_destination "be2" 2, example_destination "be3" 3,
            example_destination "be4" 4]).map
          (fun dest => (dest.address, dest.finstance_ids.map to_pb))) :=
  C25_relay_origin_hands_rest_to_first example_ops example_env 4 { data := [1, 2, 3] }
    [example_destination "be1" 1, example_destination "be2" 2,
      example_destination "be3" 3, example_destination "be4" 4] 5
    none (example_destination "be1" 1)
    [example_destination "be2" 2, example_destination "be3" 3, example_destination "be4" 4]
    400 4 (by decide)
    (by simp [split_local, put_local_last, swap_destinations, example_destination, example_env])
    (by decide)

/-! ## The forward step -/

/-- The forward loop produces RPCs only. -/
theorem forward_loop_only_rpcs (timeout_ms : Int)
    (targets : List PTransmitRuntimeFilterForwardTarget) :
    ∀ (n index : Nat) (request : PTransmitRuntimeFilterParams), targets.length - index = n →
      (forward_loop timeout_ms request targets index).filter is_send_rpc =
        forward_loop timeout_ms request targets index := by
  intro n
  induction n using Nat.strong_induction_on with
  | _ n ih =>
    intro index request hn
    rw [forward_loop]
    by_cases h : index < targets.length
    · simp only [h, dite_true, List.filter_cons, is_send_rpc, if_true]
      rw [ih (targets.length - (index + (1 + (targets.length - index) / 2))) (by omega) _ _ rfl]
    · simp [h]

/-- The blocks of the RPCs of the forward loop are the blocks of the list that start
at the positions of the specification. -/
theorem forward_loop_blocks (timeout_ms : Int)
    (targets : List PTransmitRuntimeFilterForwardTarget) :
    ∀ (n index : Nat) (request : PTransmitRuntimeFilterParams), targets.length - index = n →
      (forward_loop timeout_ms request targets index).map rpc_block =
        (spec_forward_positions targets.length index).map
          (fun i => (targets.drop i).take (1 + (targets.length - i) / 2)) := by
  intro n
  induction n using Nat.strong_induction_on with
  | _ n ih =>
    intro index request hn
    rw [forward_loop, spec_forward_positions]
    by_cases h : index < targets.length
    · simp only [h, dite_true, if_true, List.map_cons]
      rw [ih (targets.length - (index + (1 + (targets.length - index) / 2))) (by omega) _ _ rfl]
      rw [show index + (1 + (targets.length - index) / 2) =
        index + 1 + (targets.length - index) / 2 by omega]
      congr 1
      rw [List.drop_eq_getElem_cons h, Nat.add_comm 1, List.take_succ_cons]
      simp only [rpc_block]
    · simp [h]

/-- Every position of the specification is a position of the list. -/
theorem spec_forward_positions_lt (m : Nat) :
    ∀ (n i0 : Nat), m - i0 = n → ∀ i ∈ spec_forward_positions m i0, i0 ≤ i ∧ i < m := by
  intro n
  induction n using Nat.strong_induction_on with
  | _ n ih =>
    intro i0 hn i hi
    rw [spec_forward_positions] at hi
    by_cases h : i0 < m
    · simp only [h, if_true, List.mem_cons] at hi
      rcases hi with hi | hi
      · omega
      · have := ih (m - (i0 + 1 + (m - i0) / 2)) (by omega) _ rfl i hi
        omega
    · simp [h] at hi

/-- The blocks of the RPCs of the forward loop, one after the other, are the list
from `index` on. -/
theorem forward_loop_partition (timeout_ms : Int)
    (targets : List PTransmitRuntimeFilterForwardTarget) :
    ∀ (n index : Nat) (request : PTransmitRuntimeFilterParams), targets.length - index = n →
      (forward_loop timeout_ms request targets index).flatMap rpc_block =
        targets.drop index := by
  intro n
  induction n using Nat.strong_induction_on with
  | _ n ih =>
    intro index request hn
    rw [forward_loop]
    by_cases h : index < targets.length
    · simp only [h, dite_true, List.flatMap_cons]
      rw [ih (targets.length - (index + (1 + (targets.length - index) / 2))) (by omega) _ _ rfl]
      rw [drop_eq_block targets index ((targets.length - index) / 2) h]
      simp only [rpc_block, List.cons_append]
    · simp only [h, dite_false, List.flatMap_nil]
      rw [List.drop_eq_nil_of_le (by omega)]

/-- The RPCs of `_receive_total_runtime_filter` for a payload that deserializes are
those of the forward loop over the forward targets of the request. -/
theorem receive_total_rpcs {F : Type} (ops : FilterOps F) (env : ExecEnv)
    (request : PTransmitRuntimeFilterParams) (rf : F)
    (hd : ops.deserialize_runtime_filter request.data = some rf) :
    (RuntimeFilterWorker._receive_total_runtime_filter ops env request).filter is_send_rpc =
      forward_loop env.config.send_rpc_runtime_filter_timeout_ms request
        request.forward_targets 0 := by
  simp only [RuntimeFilterWorker._receive_total_runtime_filter, hd, List.filter_cons,
    is_send_rpc, Bool.false_eq_true, if_false, List.filter_append, List.filter_nil,
    List.append_nil]
  exact forward_loop_only_rpcs _ _ _ 0 _ rfl

/-- Claim C26. Let the payload of a total filter deserialize.  The RPCs that
`_receive_total_runtime_filter` sends over the `m` forward targets of the request
go, in this order, to the entries at the positions `i_0 = 0`,
`i_{k+1} = i_k + 1 + (m - i_k) / 2` below `m`; the RPC for position `i` has the
address and the `probe_finst_ids` of entry `i` and carries exactly the next
`(m - i) / 2` entries as forward targets, so it stands for the block of
`1 + (m - i) / 2` entries from `i` on.  The blocks, one after the other, are the
whole list: every entry is the direct target of one RPC or in one forward list,
and in one only. -/
theorem C26_forward_step_partitions_targets {F : Type} (ops : FilterOps F) (env : ExecEnv)
    (request : PTransmitRuntimeFilterParams) (rf : F)
    (hd : ops.deserialize_runtime_filter request.data = some rf) :
    ((RuntimeFilterWorker._receive_total_runtime_filter ops env request).filter
        is_send_rpc).map rpc_block =
      (spec_forward_positions request.forward_targets.length 0).map
        (fun i => (request.forward_targets.drop i).take
          (1 + (request.forward_targets.length - i) / 2)) ∧
    ((RuntimeFilterWorker._receive_total_runtime_filter ops env request).filter
        is_send_rpc).flatMap rpc_block = request.forward_targets ∧
    ∀ i ∈ spec_forward_positions request.forward_targets.length 0,
      i < request.forward_targets.length := by
  rw [receive_total_rpcs ops env request rf hd]
  refine ⟨forward_loop_blocks _ _ _ 0 _ rfl, ?_, ?_⟩
  · rw [forward_loop_partition _ _ _ 0 _ rfl]
    rfl
  · intro i hi
    exact (spec_forward_positions_lt _ _ 0 rfl i hi).2

/-- Claim C26 (witness). Four forward targets: the RPCs go to positions 0 and 3, the
first one carries the entries 1 and 2. -/
theorem C26_forward_step_partitions_targets_witness :
    (((RuntimeFilterWorker._receive_total_runtime_filter example_ops example_env
        example_forward_request).filter is_send_rpc).map rpc_block =
      (spec_forward_positions example_forward_request.forward_targets.length 0).map
        (fun i => (example_forward_request.forward_targets.drop i).take
          (1 + (example_forward_request.forward_targets.length - i) / 2)) ∧
    ((RuntimeFilterWorker._receive_total_runtime_filter example_ops example_env
        example_forward_request).filter is_send_rpc).flatMap rpc_block =
      example_forward_request.forward_targets ∧
    ∀ i ∈ spec_forward_positions example_forward_request.forward_targets.length 0,
      i < example_forward_request.forward_targets.length) ∧
    spec_forward_positions example_forward_request.forward_targets.length 0 = [0, 3] :=
  ⟨C26_forward_step_partitions_targets example_ops example_env example_forward_request [1] rfl,
    by simp [spec_forward_positions, example_forward_request]⟩

/-! ## Coalescing of the prober targets -/

/-- The vector `targets` holds the entries of the map, the local one moved to the
front. -/
theorem local_first_perm (loc : TNetworkAddress)
    (nodes : List (TNetworkAddress × List TUniqueId)) (hnd : (nodes.map Prod.fst).Nodup) :
    (local_first loc nodes).Perm nodes := by
  unfold local_first
  have hsplit : (nodes.filter (fun it => decide (it.1 = loc)) ++
      nodes.filter (fun it => decide (it.1 ≠ loc))).Perm nodes := by
    have h := List.filter_append_perm (fun it : TNetworkAddress × List TUniqueId =>
      decide (it.1 = loc)) nodes
    have hfun : (fun it : TNetworkAddress × List TUniqueId => decide (it.1 ≠ loc)) =
        (fun x => !decide (x.1 = loc)) := by
      funext x
      simp
    rw [hfun]
    exact h
  cases hl : map_find nodes loc with
  | none =>
    have hnone : nodes.filter (fun it => decide (it.1 = loc)) = [] := by
      apply List.filter_eq_nil_iff.mpr
      intro d hd
      simp only [decide_eq_true_eq]
      intro e
      exact (map_find_eq_none_iff nodes loc).mp hl (e ▸ List.mem_map.mpr ⟨d, hd, rfl⟩)
    rw [hnone] at hsplit
    exact hsplit
  | some ids =>
    have hmem := map_find_some_mem nodes loc ids hl
    have hone := filter_key_eq_singleton nodes (loc, ids) hnd hmem
    simp only at hone
    rw [hone] at hsplit
    exact hsplit

/-- A write to the list stored under a key changes the total length by the change
of that list. -/
theorem sum_lengths_map_set {K V : Type} [DecidableEq K] (m : List (K × List V)) (k : K)
    (old new : List V) (hk : map_find m k = some old) :
    ((map_set k new m).map (fun it => it.2.length)).sum + old.length =
      (m.map (fun it => it.2.length)).sum + new.length := by
  induction m with
  | nil => simp [map_find] at hk
  | cons p rest ih =>
    obtain ⟨k1, v1⟩ := p
    by_cases h : k1 = k
    · simp only [map_find, h, if_true, Option.some.injEq] at hk
      subst hk
      simp only [map_set, h, if_true, List.map_cons, List.sum_cons]
      omega
    · simp only [map_find, h, if_false] at hk
      have := ih hk
      simp only [map_set, h, if_false, List.map_cons, List.sum_cons]
      omega

/-- The body of the coalescing loop adds one instance id. -/
theorem sum_lengths_add_target_node (nodes : List (TNetworkAddress × List TUniqueId))
    (node : TRuntimeFilterProberParams) :
    ((add_target_node nodes node).map (fun it => it.2.length)).sum =
      (nodes.map (fun it => it.2.length)).sum + 1 := by
  simp only [add_target_node]
  cases h1 : map_find nodes node.fragment_instance_address with
  | some ids =>
    simp only [h1]
    have := sum_lengths_map_set nodes node.fragment_instance_address ids
      (ids ++ [node.fragment_instance_id]) h1
    simp only [List.length_append, List.length_singleton] at this
    omega
  | none =>
    have h2 : map_find (map_insert node.fragment_instance_address [] nodes)
        node.fragment_instance_address = some [] := by
      rw [map_find_map_insert]; simp [h1]
    simp only [h1, h2]
    have h3 := sum_lengths_map_set (map_insert node.fragment_instance_address [] nodes)
      node.fragment_instance_address [] ([] ++ [node.fragment_instance_id]) h2
    have h4 : ((map_insert node.fragment_instance_address ([] : List TUniqueId) nodes).map
        (fun it => it.2.length)).sum = (nodes.map (fun it => it.2.length)).sum := by
      unfold map_insert
      rw [h1]
      rw [((ordered_insert_perm nodes node.fragment_instance_address []).map
        (fun it => it.2.length)).sum_eq]
      simp
    simp only [List.nil_append, List.length_singleton, List.length_nil, Nat.add_zero] at h3 ⊢
    omega

/-- The map `nodes_to_frag_insts` holds as many instance ids as there are prober
targets. -/
theorem sum_lengths_nodes_to_frag_insts (target_nodes : List TRuntimeFilterProberParams) :
    ((nodes_to_frag_insts target_nodes).map (fun it => it.2.length)).sum =
      target_nodes.length := by
  have h : ∀ (l : List TRuntimeFilterProberParams)
      (acc : List (TNetworkAddress × List TUniqueId)),
      ((l.foldl add_target_node acc).map (fun it => it.2.length)).sum =
        (acc.map (fun it => it.2.length)).sum + l.length := by
    intro l
    induction l with
    | nil => intro acc; simp
    | cons x rest ih =>
      intro acc
      simp only [List.foldl_cons, List.length_cons]
      rw [ih, sum_lengths_add_target_node]
      omega
  unfold nodes_to_frag_insts
  rw [h]
  simp

/-- Membership in the vector `targets` of `_send_total_runtime_filter`, for a map
that holds every address once: the entries are those of the map. -/
theorem mem_local_first (loc : TNetworkAddress)
    (nodes : List (TNetworkAddress × List TUniqueId)) (hnd : (nodes.map Prod.fst).Nodup)
    (a : TNetworkAddress) (ids : List TUniqueId) :
    (a, ids) ∈ local_first loc nodes ↔ map_find nodes a = some ids := by
  unfold local_first
  rw [List.mem_append, List.mem_filter]
  constructor
  · rintro (h | ⟨h, _⟩)
    · cases hl : map_find nodes loc with
      | none => simp [hl] at h
      | some ids0 =>
        simp only [hl, List.mem_singleton, Prod.mk.injEq] at h
        rw [h.1, h.2]
        exact hl
    · exact map_find_of_mem_nodup nodes a ids hnd h
  · intro h
    by_cases ha : a = loc
    · left
      subst ha
      simp [h]
    · right
      exact ⟨map_find_some_mem nodes a ids h, by simpa using ha⟩

/-- Claim C27. The vector `targets` that `_send_total_runtime_filter` builds from the
prober targets `target_nodes` holds every address once; `(a, ids)` is an entry
exactly when some prober target has the address `a` and `ids` are the
`fragment_instance_id`s of the prober targets with address `a`, in the order of
`target_nodes`; so every prober target finds its instance id in the entry of its
address, and the entries hold as many instance ids as there are prober targets. -/
theorem C27_targets_coalesced_by_address (loc : TNetworkAddress)
    (target_nodes : List TRuntimeFilterProberParams) :
    ((local_first loc (nodes_to_frag_insts target_nodes)).map Prod.fst).Nodup ∧
    (∀ a ids, (a, ids) ∈ local_first loc (nodes_to_frag_insts target_nodes) ↔
      (∃ node ∈ target_nodes, node.fragment_instance_address = a) ∧
      ids = (target_nodes.filter
        (fun node => decide (node.fragment_instance_address = a))).map
          (fun node => node.fragment_instance_id)) ∧
    (∀ node ∈ target_nodes, ∃ ids,
      (node.fragment_instance_address, ids) ∈
        local_first loc (nodes_to_frag_insts target_nodes) ∧
      node.fragment_instance_id ∈ ids) ∧
    ((local_first loc (nodes_to_frag_insts target_nodes)).map
      (fun it => it.2.length)).sum = target_nodes.length := by
  have hnd := nodup_keys_nodes_to_frag_insts target_nodes
  have hmem : ∀ a ids, (a, ids) ∈ local_first loc (nodes_to_frag_insts target_nodes) ↔
      (∃ node ∈ target_nodes, node.fragment_instance_address = a) ∧
      ids = (target_nodes.filter
        (fun node => decide (node.fragment_instance_address = a))).map
          (fun node => node.fragment_instance_id) := by
    intro a ids
    rw [mem_local_first loc _ hnd, map_find_nodes_to_frag_insts]
    by_cases hf : target_nodes.filter
        (fun node => decide (node.fragment_instance_address = a)) = []
    · simp only [hf, if_true, List.map_nil]
      constructor
      · intro h; simp at h
      · rintro ⟨⟨node, hn, ha⟩, _⟩
        have : node ∈ target_nodes.filter
            (fun node => decide (node.fragment_instance_address = a)) :=
          List.mem_filter.mpr ⟨hn, by simpa using ha⟩
        rw [hf] at this
        simp at this
    · simp only [hf, if_false, Option.some.injEq]
      obtain ⟨node, rest, hnr⟩ := List.exists_cons_of_ne_nil hf
      have hin : node ∈ target_nodes.filter
          (fun node => decide (node.fragment_instance_address = a)) := by
        rw [hnr]; exact List.mem_cons_self _ _
      have hin2 := List.mem_filter.mp hin
      constructor
      · intro h
        exact ⟨⟨node, hin2.1, by simpa using hin2.2⟩, h.symm⟩
      · rintro ⟨_, h⟩
        exact h.symm
  refine ⟨nodup_keys_local_first loc _ hnd, hmem, ?_, ?_⟩
  · intro node hn
    refine ⟨_, (hmem node.fragment_instance_address _).mpr ⟨⟨node, hn, rfl⟩, rfl⟩, ?_⟩
    exact List.mem_map.mpr ⟨node, List.mem_filter.mpr ⟨hn, by simp⟩, rfl⟩
  · rw [((local_first_perm loc _ hnd).map (fun it => it.2.length)).sum_eq]
    exact sum_lengths_nodes_to_frag_insts target_nodes

/-! ## Rounds of the passthrough loop -/

/-- The number of waves for `r` remaining destinations: one wave, and those for what
is left after it. -/
theorem ceil_div_step (K r : Nat) (hK : 1 ≤ K) (hr : 1 ≤ r) :
    (r + K - 1) / K = (r - min r K + K - 1) / K + 1 := by
  by_cases h : r ≤ K
  · rw [min_eq_left h]
    have h1 : (r + K - 1) / K = 1 := by
      apply Nat.div_eq_of_lt_le <;> omega
    have h2 : (r - r + K - 1) / K = 0 := by
      apply Nat.div_eq_of_lt
      omega
    omega
  · rw [min_eq_right (by omega)]
    have h1 : r + K - 1 = (r - K + K - 1) + K := by omega
    rw [h1, Nat.add_div_right _ (by omega)]

/-- With an in-flight number `K ≥ 1` the passthrough loop started at `k` ends exactly
when the fuel covers `ceil((n - k) / K)` rounds, and it then joins that many
batches. -/
theorem passthrough_loop_rounds (K : Nat) (hK : 1 ≤ K) (params : PTransmitRuntimeFilterParams)
    (ds : List TRuntimeFilterDestination) (timeout_ms : Int) :
    ∀ (fuel k : Nat),
      ((∃ evs, passthrough_loop K params ds timeout_ms fuel k = some evs) ↔
        (ds.length - k + K - 1) / K ≤ fuel) ∧
      ∀ evs, passthrough_loop K params ds timeout_ms fuel k = some evs →
        (evs.filter is_join).length = (ds.length - k + K - 1) / K := by
  have hdone : ∀ k, ¬ k < ds.length → (ds.length - k + K - 1) / K = 0 := by
    intro k hk
    apply Nat.div_eq_of_lt
    omega
  have hrpcs : ∀ l : List TRuntimeFilterDestination,
      (l.map (passthrough_rpc params timeout_ms)).filter is_join = [] := by
    intro l
    induction l with
    | nil => rfl
    | cons d rest ih => simp [List.filter_cons, passthrough_rpc, is_join, ih]
  intro fuel
  induction fuel with
  | zero =>
    intro k
    by_cases hk : k < ds.length
    · have hstep := ceil_div_step K (ds.length - k) hK (by omega)
      constructor
      · simp only [passthrough_loop, hk, if_true]
        constructor
        · rintro ⟨evs, h⟩; simp at h
        · intro h
          rw [hstep] at h
          exact absurd h (Nat.not_succ_le_zero _)
      · intro evs h
        simp [passthrough_loop, hk] at h
    · constructor
      · simp only [passthrough_loop, hk, if_false, hdone k hk]
        simp
      · intro evs h
        simp only [passthrough_loop, hk, if_false, Option.some.injEq] at h
        subst h
        simp [hdone k hk]
  | succ fuel ih =>
    intro k
    by_cases hk : k < ds.length
    · have hstep := ceil_div_step K (ds.length - k) hK (by omega)
      have hrest : ds.length - (k + min (ds.length - k) K) =
          ds.length - k - min (ds.length - k) K := by omega
      obtain ⟨ih1, ih2⟩ := ih (k + min (ds.length - k) K)
      rw [hrest] at ih1 ih2
      constructor
      · simp only [passthrough_loop, hk, if_true]
        constructor
        · rintro ⟨evs, h⟩
          cases hrec : passthrough_loop K params ds timeout_ms fuel
              (k + min (ds.length - k) K) with
          | none => rw [hrec] at h; simp at h
          | some later =>
            have := ih1.mp ⟨later, hrec⟩
            omega
        · intro h
          obtain ⟨later, hrec⟩ := ih1.mpr (by omega)
          exact ⟨_, by rw [hrec]; rfl⟩
      · intro evs h
        simp only [passthrough_loop, hk, if_true] at h
        cases hrec : passthrough_loop K params ds timeout_ms fuel
            (k + min (ds.length - k) K) with
        | none => rw [hrec] at h; simp at h
        | some later =>
          rw [hrec] at h
          simp only [Option.map_some', Option.some.injEq] at h
          subst h
          rw [List.filter_append, List.filter_append, hrpcs]
          simp only [List.nil_append, List.filter_cons, is_join, if_true, List.filter_nil,
            List.length_append, List.length_singleton]
          rw [ih2 later hrec]
          omega
    · constructor
      · simp only [passthrough_loop, hk, if_false, hdone k hk]
        simp
      · intro evs h
        simp only [passthrough_loop, hk, if_false, Option.some.injEq] at h
        subst h
        simp [hdone k hk]

/-- Claim C28. For a non-empty destination list of length `n` and a configured
in-flight number `K`, the loop of `_deliver_broadcast_runtime_filter_passthrough`
ends (for some amount of fuel) if and only if `K ≥ 1`.  When `K ≥ 1` it ends exactly
when the fuel, one unit per round, covers `ceil(n / K)` rounds, and its events then
hold `ceil(n / K)` joins, one per wave. -/
theorem C28_passthrough_terminates_iff_inflight_positive (env : ExecEnv)
    (params : PTransmitRuntimeFilterParams) (destinations : List TRuntimeFilterDestination)
    (timeout_ms : Int) (hne : destinations ≠ []) :
    ((∃ fuel evs, RuntimeFilterWorker._deliver_broadcast_runtime_filter_passthrough env fuel
        params destinations timeout_ms = some evs) ↔
      1 ≤ env.config.deliver_broadcast_rf_passthrough_inflight_num) ∧
    (1 ≤ env.config.deliver_broadcast_rf_passthrough_inflight_num →
      ∀ fuel,
        ((∃ evs, RuntimeFilterWorker._deliver_broadcast_runtime_filter_passthrough env fuel
            params destinations timeout_ms = some evs) ↔
          (destinations.length + env.config.deliver_broadcast_rf_passthrough_inflight_num - 1) /
            env.config.deliver_broadcast_rf_passthrough_inflight_num ≤ fuel) ∧
        ∀ evs, RuntimeFilterWorker._deliver_broadcast_runtime_filter_passthrough env fuel
            params destinations timeout_ms = some evs →
          (evs.filter is_join).length =
            (destinations.length + env.config.deliver_broadcast_rf_passthrough_inflight_num - 1) /
              env.config.deliver_broadcast_rf_passthrough_inflight_num) := by
  have hlen : 0 < destinations.length := List.length_pos.mpr hne
  unfold RuntimeFilterWorker._deliver_broadcast_runtime_filter_passthrough
  constructor
  · constructor
    · rintro ⟨fuel, evs, h⟩
      by_contra hK
      have h0 : env.config.deliver_broadcast_rf_passthrough_inflight_num = 0 := by omega
      rw [h0, passthrough_loop_zero_inflight params destinations timeout_ms 0 hlen fuel] at h
      simp at h
    · intro hK
      have := (passthrough_loop_rounds _ hK params destinations timeout_ms
        ((destinations.length + env.config.deliver_broadcast_rf_passthrough_inflight_num - 1) /
          env.config.deliver_broadcast_rf_passthrough_inflight_num) 0).1
      simp only [Nat.sub_zero] at this
      exact ⟨_, this.mpr (le_refl _)⟩
  · intro hK fuel
    have := passthrough_loop_rounds _ hK params destinations timeout_ms fuel 0
    simp only [Nat.sub_zero] at this
    exact this

/-- Claim C28 (witness). Three destinations with the in-flight number 2 of
`example_env`. -/
theorem C28_passthrough_terminates_iff_inflight_positive_witness :
    (∃ fuel evs, RuntimeFilterWorker._deliver_broadcast_runtime_filter_passthrough example_env
        fuel { data := [1] }
        [example_destination "be1" 1, example_destination "be2" 2, example_destination "be3" 3]
        5 = some evs) ↔
      1 ≤ example_env.config.deliver_broadcast_rf_passthrough_inflight_num :=
  (C28_passthrough_terminates_iff_inflight_positive example_env { data := [1] }
    [example_destination "be1" 1, example_destination "be2" 2, example_destination "be3" 3]
    5 (by decide)).1

/-! ## Empty destination lists and undeserializable total filters -/

/-- The exchange of two elements keeps the length of the vector. -/
theorem length_swap_destinations (ds : List TRuntimeFilterDestination) (i j : Nat) :
    (swap_destinations ds i j).length = ds.length := by
  unfold swap_destinations
  split <;> simp

/-- The loop that looks for the local destination keeps the length of the vector. -/
theorem length_put_local_last (loc : TNetworkAddress) (ds : List TRuntimeFilterDestination) :
    (put_local_last loc ds 0).length = ds.length := by
  rcases put_local_last_spec loc ds (ds.length - 1 - 0) 0 rfl (fun k _ hk => by omega) with
    ⟨i0, _, _, _, h⟩ | ⟨_, h⟩
  · rw [h, length_swap_destinations]
  · rw [h]

/-- Claim C29. With an empty destination vector, lines 657 to 669 of
`_process_send_broadcast_runtime_filter_event` read `destinations[0]` (the bound
`destinations.size() - 1` of the loop wraps around) and
`destinations[last_dest_idx]`, which are out of bounds: the function has no defined
result.  With a non-empty vector all element accesses of these lines are in
bounds. -/
theorem C29_empty_destination_list_is_read_out_of_bounds {F : Type} (ops : FilterOps F)
    (env : ExecEnv) (fuel : Nat) (params : PTransmitRuntimeFilterParams) (timeout_ms : Int) :
    split_local { hostname := env.localhost, port := env.config.brpc_port } [] = none ∧
    RuntimeFilterWorker._process_send_broadcast_runtime_filter_event ops env fuel params []
      timeout_ms = none ∧
    ∀ destinations : List TRuntimeFilterDestination, destinations ≠ [] →
      ∃ local_dest remote,
        split_local { hostname := env.localhost, port := env.config.brpc_port } destinations =
          some (local_dest, remote) := by
  refine ⟨by simp [split_local], ?_, ?_⟩
  · simp [RuntimeFilterWorker._process_send_broadcast_runtime_filter_event, split_local]
  · intro ds hne
    have hlen : 0 < ds.length := List.length_pos.mpr hne
    have hne0 : ¬ ds.length = 0 := by omega
    have hlast : ds.length - 1 < (put_local_last
        { hostname := env.localhost, port := env.config.brpc_port } ds 0).length := by
      rw [length_put_local_last]; omega
    simp only [split_local, hne0, if_false, List.getElem?_eq_getElem hlast]
    split
    · exact ⟨_, _, rfl⟩
    · exact ⟨_, _, rfl⟩

/-- Claim C30. When the payload of a total filter does not deserialize,
`_receive_total_runtime_filter` does nothing: no in-process delivery and no RPC,
whatever forward targets the request carries.  When the payload deserializes, the
function delivers in-process once and then sends the RPCs of the forward loop over
the forward targets of the request, which stand for all of the forward targets; the
outcome of the in-process delivery is not read. -/
theorem C30_undeserializable_total_is_dropped {F : Type} (ops : FilterOps F) (env : ExecEnv)
    (request : PTransmitRuntimeFilterParams) :
    (ops.deserialize_runtime_filter request.data = none →
      RuntimeFilterWorker._receive_total_runtime_filter ops env request = []) ∧
    ∀ rf, ops.deserialize_runtime_filter request.data = some rf →
      RuntimeFilterWorker._receive_total_runtime_filter ops env request =
        Event.deliver request ::
          (forward_loop env.config.send_rpc_runtime_filter_timeout_ms request
              request.forward_targets 0 ++
            [Event.join (forward_loop env.config.send_rpc_runtime_filter_timeout_ms request
              request.forward_targets 0).length]) ∧
      (forward_loop env.config.send_rpc_runtime_filter_timeout_ms request
          request.forward_targets 0).flatMap rpc_targets =
        request.forward_targets.map forward_target_pair ∧
      (request.forward_targets ≠ [] →
        ∃ addr t r, Event.send_rpc addr t r ∈
          RuntimeFilterWorker._receive_total_runtime_filter ops env request) := by
  constructor
  · intro hd
    simp [RuntimeFilterWorker._receive_total_runtime_filter, hd]
  · intro rf hd
    have hrun : RuntimeFilterWorker._receive_total_runtime_filter ops env request =
        Event.deliver request ::
          (forward_loop env.config.send_rpc_runtime_filter_timeout_ms request
              request.forward_targets 0 ++
            [Event.join (forward_loop env.config.send_rpc_runtime_filter_timeout_ms request
              request.forward_targets 0).length]) := by
      simp only [RuntimeFilterWorker._receive_total_runtime_filter, hd]
    refine ⟨hrun, ?_, ?_⟩
    · rw [forward_loop_targets _ _ _ 0 _ rfl]
      rfl
    · intro hne
      obtain ⟨t0, trest, ht0⟩ := List.exists_cons_of_ne_nil hne
      rw [hrun, forward_loop]
      have hlt : 0 < request.forward_targets.length := List.length_pos.mpr hne
      simp only [hlt, dite_true]
      exact ⟨_, _, _, List.mem_cons_of_mem _ (List.mem_append_left _ (List.mem_cons_self _ _))⟩

end starrocks
